import Mathlib

/-!
# go-ip-ac: a shallow embedding of `ipac.go`

The engine state of the Go package `ipac` (the struct `Ipac`) is embedded as a
Lean structure and every function of `ipac.go` as a pure function on it.

Modelling conventions

* A Go `string` is a byte sequence; it is embedded as `List Char`, one `Char`
  per byte (addresses and event names are ASCII).
* A Go `int` is a 64-bit two's-complement integer.  It is embedded as `Int`,
  and the additions, subtractions and multiplications of the source are wrapped
  with `wrap64`; the only ones left unwrapped are the increments of the local
  counters of `clean`, which count elements of a slice and cannot overflow.
* A `time.Time` is embedded as the number of nanoseconds since the zero
  instant of Go (`time.Time{}`), so `IsZero` is the test `= 0`.  In
  `TestIpAllowed`, `ModifyAuth` and `clean` every `time.Now()` made during one
  call reads the same instant, which is passed to the call as the argument
  `now`; `clean_clocked` is the tick with every reading of the clock kept
  apart.  `int(d.Seconds())` is embedded with the rounding of its `float64`
  operations.
* `TestIpAllowed`, `ModifyAuth` and `clean` are the calls run alone from start
  to end.  The source takes the mutex for the read of a record and takes it
  again for the write-back; `lock_step`, `auth_step` and `call_step` embed
  concurrent calls as interleavings of these two steps.
* Calls to the operating system and to the notification closure are recorded
  as a list of `Event`s, in the order the source makes them.
* A call can end by returning, by a run-time panic (index out of range) or by
  `os.Exit`; see `Completion`.
-/

namespace GoIpAc

/-! ## Go primitives -/

/-- Go `string`, one `Char` per byte. -/
abbrev GoString := List Char

/-- Go `time.Time`: nanoseconds since the zero instant. -/
abbrev Time := Int

/-- Largest value of a Go `int` (64 bit). -/
def maxInt64 : Int := 9223372036854775807

/-- Smallest value of a Go `int` (64 bit). -/
def minInt64 : Int := -9223372036854775808

/-- Two's-complement wrap-around of 64-bit integer arithmetic. -/
def wrap64 (x : Int) : Int := (x + 9223372036854775808) % 18446744073709551616 - 9223372036854775808

/-- Go `t.IsZero()`. -/
def Time_IsZero (t : Time) : Bool := decide (t = 0)

/-- Go `t.Sub(u)`: the duration `t - u` in nanoseconds, saturated to the range of `time.Duration`. -/
def Time_Sub (t u : Time) : Int := max minInt64 (min maxInt64 (t - u))

/-- The quotient `a / b` rounded to the nearest integer, ties to the even one: the
rounding of every `float64` operation. -/
def round_to_even (a b : Nat) : Nat :=
  if 2 * (a % b) < b then a / b
  else if b < 2 * (a % b) then a / b + 1
  else if (a / b) % 2 = 0 then a / b
  else a / b + 1

/-- The binary exponent of the `float64` quotient `a / b` for `0 < a < b ≤ 10^9`: the
least `k` from the second argument on with `2^52 ≤ a * 2^k / b`, so that the quotient
is `m / 2^k` with a significand `m` of 53 bits.  The first argument bounds the search;
from 53 on, 30 steps are enough because `2^30 > 10^9`. -/
def float64_shift (a b : Nat) : Nat → Nat → Nat
  | 0, k => k
  | fuel + 1, k => if 2 ^ 52 * b ≤ a * 2 ^ k then k else float64_shift a b fuel (k + 1)

/-- The number of low bits that `float64` drops from the integer `n`: the least `t`
from the second argument on with `n < 2^(53 + t)`.  The first argument bounds the
search; 70 steps are enough for the values met here, which are below `2^117`. -/
def float64_drop (n : Nat) : Nat → Nat → Nat
  | 0, t => t
  | fuel + 1, t => if n < 2 ^ (53 + t) then t else float64_drop n fuel (t + 1)

/-- The integer part of Go `d.Seconds()` for a duration of `n ≥ 0` nanoseconds.  The
source of `Seconds` is `sec := d / Second; nsec := d % Second;
return float64(sec) + float64(nsec)/1e9`.  Both conversions are exact; the quotient is
rounded to `m / 2^k`, and the sum `(sec * 2^k + m) / 2^k` is rounded to 53 bits by
dropping its `t` low bits. -/
def Duration_Seconds_trunc (n : Nat) : Nat :=
  let sec := n / 1000000000
  let nsec := n % 1000000000
  if nsec = 0 then sec
  else
    let k := float64_shift nsec 1000000000 30 53
    let m := round_to_even (nsec * 2 ^ k) 1000000000
    let t := float64_drop (sec * 2 ^ k + m) 70 0
    round_to_even (sec * 2 ^ k + m) (2 ^ t) * 2 ^ t / 2 ^ k

/-- Go `int(d.Seconds())`: `Seconds` goes through `float64` and the conversion to
`int` truncates toward zero.  Go division and remainder truncate toward zero and
`float64` rounding is symmetric, so a negative duration gives the negated result of
its absolute value. -/
def Duration_Seconds_int (d : Int) : Int :=
  if 0 ≤ d then (Duration_Seconds_trunc d.natAbs : Int)
  else -(Duration_Seconds_trunc d.natAbs : Int)

/-- Go `strings.Split(s, sep)` for a one-byte separator. -/
def strings_Split (s : GoString) (sep : Char) : List GoString := List.splitOn sep s

/-- Go `strings.Index(s, sep)` for a one-byte separator: the first index of `sep`, or `-1`. -/
def strings_Index (s : GoString) (sep : Char) : Int :=
  if sep ∈ s then (s.indexOf sep : Int) else -1

/-- Go `strings.TrimRight(s, cutset)`: drop every trailing byte that is in `cutset`. -/
def strings_TrimRight (s : GoString) (cutset : GoString) : GoString :=
  s.rdropWhile (fun c => decide (c ∈ cutset))

/-- Go `int(math.Pow(float64(x), float64(y)))` for integers `x`, `y`.
For `y ≥ 0` the power is the exact integer power (exact in `float64` up to `2^53`;
rounding above that is not modelled); a value outside the `int` range converts to
the minimum `int`, as on amd64.  For `y < 0` the float is `1 / x^|y|`: infinite for
`x = 0`, `±1` for `x = ±1`, and strictly between `-1` and `1` otherwise, which
truncates to `0`. -/
def math_Pow_int (x y : Int) : Int :=
  if 0 ≤ y then
    (if minInt64 ≤ x ^ y.toNat ∧ x ^ y.toNat ≤ maxInt64 then x ^ y.toNat else minInt64)
  else if x = 0 then minInt64
  else if x = 1 then 1
  else if x = -1 then (if y % 2 = 0 then 1 else -1)
  else 0

/-! ## Data model (`ipac.go` lines 24-69) -/

/-- The record of one address: Go `type Ip struct`. -/
structure Ip where
  Addr : GoString := []
  Authed : Bool := false
  Warn : Bool := false
  Blocked : Bool := false
  LastAccess : Time := 0
  OriginalAccess : Time := 0
  LastAuth : Time := 0
  UnauthedNewConnections : Int := 0
  UnauthedAttempts : Int := 0
  AbsurdAuthAttempts : Int := 0
deriving DecidableEq, Repr

/-- One IPv6 subnet group: Go `type Ipv6Subnet struct`. -/
structure Ipv6Subnet where
  Group : GoString := []
  IpBans : Int := 0
  BlockedTs : Time := 0
deriving DecidableEq, Repr

/-- The engine: Go `type Ipac struct`.  `NotifyClosure` is `true` when the
closure field is not `nil`. -/
structure Ipac where
  CleanupLoopSeconds : Int := 0
  BlockForSeconds : Int := 0
  BlockIpv6SubnetsGroupDepth : Int := 0
  BlockIpv6SubnetsBreach : Int := 0
  WarnAfterNewConnections : Int := 0
  WarnAfterUnauthedAttempts : Int := 0
  BlockAfterNewConnections : Int := 0
  BlockAfterUnauthedAttempts : Int := 0
  NotifyAfterAbsurdAuthAttempts : Int := 0
  NotifyClosure : Bool := false
  Purge : Bool := false
  LastCleanup : Time := 0
  LastNotifyAbsurd : Time := 0
  NextNotifyBlockedIps : List GoString := []
  NextNotifyAbsurdIps : List GoString := []
  Ips : List Ip := []
  Ipv6Subnets : List Ipv6Subnet := []
  TotalCount : Int := 0
  BlockedCount : Int := 0
  WarnCount : Int := 0
  BlockedSubnetCount : Int := 0
  NeverBlock : Bool := false
deriving DecidableEq, Repr

/-- What a call does to the world outside the engine state. -/
inductive Event where
  /-- A call `modify_ip_block_os(o, block, i)`. -/
  | modify_ip_block_os (block : Bool) (i : Ip)
  /-- A call `ipv6_modify_subnet_block_os(o, block, subnet)`; `rule` is the
  `iptables_subnet_string` it builds. -/
  | ipv6_modify_subnet_block_os (block : Bool) (subnet : GoString) (rule : GoString)
  /-- The flush of the chain `goipac` of `iptables` and `ip6tables` made by `Purge`. -/
  | flush_chains
  /-- The rebuild of the chain `goipac` of `iptables` and `ip6tables` made by `Init`. -/
  | reset_chains
  /-- A call `go NotifyClosure(event, info, ips)`. -/
  | notify (event : GoString) (info : GoString) (ips : List GoString)
  /-- A call `fmt.Println(text)`. -/
  | println (text : GoString)
deriving DecidableEq, Repr

/-- How a call ends. -/
inductive Completion (α : Type) where
  /-- The call returns `v` to its caller. -/
  | returned (v : α)
  /-- The call panics (index out of range). -/
  | panicked
  /-- The call ends the process with `os.Exit(code)`. -/
  | exited (code : Int)
deriving DecidableEq, Repr

/-- The result of running a function of the package: the engine state when the call
ends (for a panic or an exit: the state at that point), the events of the call in
order, and how the call ended. -/
structure Run (α : Type) where
  o : Ipac
  events : List Event
  result : Completion α
deriving DecidableEq, Repr

/-! ## Operating-system hooks (`ipac.go` lines 418-497) -/

/-- The group `0000`. -/
def zero_group : GoString := ['0', '0', '0', '0']

/-- The string `iptables_subnet_string` built by `ipv6_modify_subnet_block_os`
(lines 425-443): for `c = 0 .. 7` it appends `0000:` when `len(groups) <= c + 1`
and `groups[c] + ":"` otherwise, then trims the trailing colons. -/
def iptables_subnet_string (subnet : GoString) : GoString :=
  let groups := strings_Split subnet ':'
  strings_TrimRight
    ((List.range 8).foldl
      (fun s c =>
        if groups.length ≤ c + 1 then s ++ (zero_group ++ [':'])
        else s ++ (groups.getD c [] ++ [':']))
      [])
    [':']

/-- Go `ipv6_modify_subnet_block_os(o, block, subnet)`: the call and the rule string it uses. -/
def ipv6_modify_subnet_block_os (block : Bool) (subnet : GoString) : Event :=
  Event.ipv6_modify_subnet_block_os block subnet (iptables_subnet_string subnet)

/-- Go `modify_ip_block_os(o, block, i)`. -/
def modify_ip_block_os (block : Bool) (i : Ip) : Event :=
  Event.modify_ip_block_os block i

/-- The commands (program and arguments) that an event runs through `comm`;
`linux` is the test `runtime.GOOS == "linux"`. -/
def os_commands (linux : Bool) : Event → List (GoString × List GoString)
  | Event.modify_ip_block_os block i =>
    if linux then
      [(if strings_Index i.Addr ':' > -1 then "ip6tables".toList else "iptables".toList,
        [(if block then "-I" else "-D").toList, "goipac".toList, "-s".toList, i.Addr,
          "-j".toList, "DROP".toList])]
    else []
  | Event.ipv6_modify_subnet_block_os block _ rule =>
    if linux then
      [("ip6tables".toList,
        [(if block then "-I" else "-D").toList, "goipac".toList, "-s".toList, rule,
          "-j".toList, "DROP".toList])]
    else []
  | Event.flush_chains =>
    if linux then
      [("iptables".toList, ["-F".toList, "goipac".toList]),
       ("ip6tables".toList, ["-F".toList, "goipac".toList])]
    else []
  | Event.reset_chains =>
    if linux then
      (["iptables".toList, "ip6tables".toList].map (fun c =>
        [(c, ["-F".toList, "goipac".toList]), (c, ["-X".toList, "goipac".toList]),
         (c, ["-N".toList, "goipac".toList]),
         (c, ["-D".toList, "INPUT".toList, "-j".toList, "goipac".toList]),
         (c, ["-A".toList, "INPUT".toList, "-j".toList, "goipac".toList])])).flatten
    else []
  | Event.notify _ _ _ => []
  | Event.println _ => []

/-! ## IPv6 group ranking (`ipac.go` lines 341-416) -/

/-- One pass of the inner loop of lines 367-373:
`groups = append(groups[:g+1], groups[g:]...)` followed by `groups[g+1] = "0000"`. -/
def insert_zero_group (groups : List GoString) (g : Nat) : List GoString :=
  (groups.take (g + 1) ++ groups.drop g).set (g + 1) zero_group

/-- The loop of lines 360-376: at the first empty group `g` (if any), set it to
`0000`, insert `8 - len(groups)` further groups `0000` after it, and stop. -/
def expand_empty_group (groups : List GoString) : List GoString :=
  match groups.findIdx? (fun s => decide (s.length = 0)) with
  | none => groups
  | some g =>
    (fun gs => insert_zero_group gs g)^[8 - groups.length] (groups.set g zero_group)

/-- The loop of lines 381-385: a group `0` becomes `0000`. -/
def expand_zero_shorthand (groups : List GoString) : List GoString :=
  groups.map (fun s => if s = ['0'] then zero_group else s)

/-- The loop of lines 390-399: a group shorter than 4 bytes is left-padded with `0`. -/
def pad_groups (groups : List GoString) : List GoString :=
  groups.map (fun s => if s.length < 4 then List.replicate (4 - s.length) '0' ++ s else s)

/-- The groups of `addr` after the three loops of lines 353-399. -/
def canonical_groups (addr : GoString) : List GoString :=
  pad_groups (expand_zero_shorthand (expand_empty_group (strings_Split addr ':')))

/-- The inner loop of lines 405-408 for `n` passes: `pfx += groups[a] + ":"` for
`a = 0 .. n-1`; `none` is the index-out-of-range panic. -/
def ranked_group_string (groups : List GoString) (n : Nat) : Option GoString :=
  (List.range n).foldlM (fun pfx a => (groups[a]?).map (fun x => pfx ++ (x ++ [':']))) []

/-- Go `ipv6_get_ranked_groups(o, addr)`; `none` is the index-out-of-range panic.
The outer loop runs for `g = 0 .. 8 - depth - 1`, the inner one for
`a = 0 .. 8 - depth + g - 1`. -/
def ipv6_get_ranked_groups (o : Ipac) (addr : GoString) : Option (List GoString) :=
  let groups := canonical_groups addr
  (List.range (wrap64 (8 - o.BlockIpv6SubnetsGroupDepth)).toNat).mapM
    (fun (g : Nat) =>
      (ranked_group_string groups
        (wrap64 (wrap64 (8 - o.BlockIpv6SubnetsGroupDepth) + (g : Int))).toNat).map
        (fun pfx => strings_TrimRight pfx [':']))

/-! ## Lookups (`ipac.go` lines 499-522) -/

/-- Go `IpDetails(o, addr)`: the first record whose `Addr` is `addr`, else the zero record. -/
def IpDetails (o : Ipac) (addr : GoString) : Ip :=
  match o.Ips.find? (fun e => decide (e.Addr = addr)) with
  | some e => e
  | none => {}

/-- Go `TestIpWarn(o, addr)`. -/
def TestIpWarn (o : Ipac) (addr : GoString) : Bool :=
  (IpDetails o addr).Warn

/-- The write-back loop of lines 641-646 and 747-752: the first record whose `Addr`
is `addr` is replaced by `entry`. -/
def update_ips : List Ip → GoString → Ip → List Ip
  | [], _, _ => []
  | e :: rest, addr, entry =>
    if e.Addr = addr then entry :: rest else e :: update_ips rest addr entry

/-! ## Admission (`ipac.go` lines 524-666) -/

/-- The loop of lines 597-605 when it finds the group: the first subnet whose
`Group` is `group` gets `IpBans += 1`. -/
def increment_IpBans : List Ipv6Subnet → GoString → List Ipv6Subnet
  | [], _ => []
  | s :: rest, group =>
    if group = s.Group then { s with IpBans := wrap64 (s.IpBans + 1) } :: rest
    else s :: increment_IpBans rest group

/-- Lines 596-610 for one ranked group: increment the group when it exists, else append it. -/
def add_ranked_group (subnets : List Ipv6Subnet) (group : GoString) : List Ipv6Subnet :=
  if subnets.any (fun s => decide (group = s.Group)) then increment_IpBans subnets group
  else subnets ++ [{ Group := group, IpBans := 1, BlockedTs := 0 }]

/-- Lines 557-569: count the connection of an unauthenticated address and set `Warn`. -/
def count_and_warn (o : Ipac) (entry : Ip) : Ip :=
  let entry :=
    if entry.Authed = false then
      { entry with UnauthedNewConnections := wrap64 (entry.UnauthedNewConnections + 1) }
    else entry
  if entry.UnauthedNewConnections ≥ o.WarnAfterNewConnections ∧ entry.Warn = false then
    { entry with Warn := true }
  else if entry.UnauthedAttempts ≥ o.WarnAfterUnauthedAttempts ∧ entry.Warn = false then
    { entry with Warn := true }
  else entry

/-- Lines 545-551: set `LastAccess`, and `OriginalAccess` when it is still zero. -/
def touch (now : Time) (entry : Ip) : Ip :=
  let entry := { entry with LastAccess := now }
  if Time_IsZero entry.OriginalAccess = true then { entry with OriginalAccess := now }
  else entry

/-- Lines 639-647 and 660-664: write `entry` back and return `!entry.Blocked`. -/
def store_and_answer (o : Ipac) (events : List Event) (addr : GoString) (entry : Ip) : Run Bool :=
  { o := { o with Ips := update_ips o.Ips addr entry },
    events := events,
    result := Completion.returned (if entry.Blocked = true then false else true) }

/-- Lines 581-586: queue the address for the next `ips_blocked` notification. -/
def note_blocked (o : Ipac) (entry : Ip) : Ipac :=
  if o.NotifyClosure = true then
    { o with NextNotifyBlockedIps := o.NextNotifyBlockedIps ++ [entry.Addr] }
  else o

/-- Lines 593-612: add every ranked group to `Ipv6Subnets`. -/
def add_ranked_groups (o : Ipac) (ranked_groups : List GoString) : Ipac :=
  { o with Ipv6Subnets := ranked_groups.foldl add_ranked_group o.Ipv6Subnets }

/-- Lines 575-614, then the write-back: block the address, queue the notification,
and for an address with a colon add its ranked groups to `Ipv6Subnets`. -/
def block_entry (o : Ipac) (addr : GoString) (entry : Ip) : Run Bool :=
  let entry := { entry with Blocked := true }
  let events := [modify_ip_block_os true entry]
  let o := note_blocked o entry
  if strings_Index addr ':' ≠ -1 then
    match ipv6_get_ranked_groups o addr with
    | none => { o := o, events := events, result := Completion.panicked }
    | some ranked_groups =>
      store_and_answer (add_ranked_groups o ranked_groups) events addr entry
  else store_and_answer o events addr entry

/-- Lines 620-635: queue the address, once, for the next absurd-attempts notification. -/
def note_absurd (o : Ipac) (entry : Ip) : Ipac :=
  if o.NotifyClosure = true ∧ entry.Addr ∉ o.NextNotifyAbsurdIps then
    { o with NextNotifyAbsurdIps := o.NextNotifyAbsurdIps ++ [entry.Addr] }
  else o

/-- Lines 553-647: the branch `entry.Addr == addr`. -/
def found_entry (o : Ipac) (addr : GoString) (entry : Ip) : Run Bool :=
  let entry := count_and_warn o entry
  if (entry.UnauthedNewConnections ≥ o.BlockAfterNewConnections
        ∨ entry.UnauthedAttempts ≥ o.BlockAfterUnauthedAttempts)
      ∧ entry.Blocked = false then
    block_entry o addr entry
  else if entry.AbsurdAuthAttempts ≥ o.NotifyAfterAbsurdAuthAttempts then
    store_and_answer (note_absurd o entry) [] addr entry
  else store_and_answer o [] addr entry

/-- Lines 649-664: the branch of a new address. -/
def new_entry (o : Ipac) (addr : GoString) (entry : Ip) : Run Bool :=
  let entry := { entry with Addr := addr }
  { o := { o with Ips := o.Ips ++ [entry] },
    events := [],
    result := Completion.returned (if entry.Blocked = true then false else true) }

/-- Go `TestIpAllowed(o, addr)`, called at the instant `now`, with no step of another
call between its locked read (line 534) and its locked write-back (lines 640-647).
`TestIpAllowed_finish` and `lock_step` keep the two steps apart. -/
def TestIpAllowed (o : Ipac) (now : Time) (addr : GoString) : Run Bool :=
  if o.NeverBlock = true then
    { o := o, events := [], result := Completion.returned true }
  else
    let entry := IpDetails o addr
    if o.Purge = true then
      { o := o, events := [],
        result := Completion.returned (if entry.Blocked = true then false else true) }
    else
      let entry := touch now entry
      if entry.Addr = addr then found_entry o addr entry
      else new_entry o addr entry

/-! ## Authentication events (`ipac.go` lines 668-758) -/

/-- Go `Purge(o)`. -/
def Purge (o : Ipac) : Run Unit :=
  { o := { o with Purge := true }, events := [Event.flush_chains],
    result := Completion.returned () }

/-- The event name `logout`. -/
def ev_logout : GoString := "logout".toList

/-- The event name `invalid_login`. -/
def ev_invalid_login : GoString := "invalid_login".toList

/-- The event name `valid_login`. -/
def ev_valid_login : GoString := "valid_login".toList

/-- The text printed by `ModifyAuth` before `os.Exit(1)` (line 736). -/
def invalid_authed_text : GoString :=
  "ipac.ModifyAuth called with invalid authed string.  Only logout, invalid_login and valid_login are allowed.".toList

/-- Lines 741-756: set `LastAuth`, write `entry` back and return. -/
def store_auth (o : Ipac) (now : Time) (addr : GoString) (entry : Ip) : Run Unit :=
  { o := { o with Ips := update_ips o.Ips addr { entry with LastAuth := now } },
    events := [],
    result := Completion.returned () }

/-- Lines 699-739: the change an event makes to the record; `none` is the last
branch, which prints and calls `os.Exit(1)`. -/
def auth_entry (entry : Ip) (authed : GoString) : Option Ip :=
  if entry.Authed = true ∧ authed = ev_invalid_login then
    some { entry with AbsurdAuthAttempts := wrap64 (entry.AbsurdAuthAttempts + 1) }
  else if authed = ev_valid_login then
    some { entry with Blocked := false, Warn := false, Authed := true }
  else if authed = ev_invalid_login then
    some { entry with UnauthedAttempts := wrap64 (entry.UnauthedAttempts + 1) }
  else if authed = ev_logout then
    some { entry with Authed := false }
  else none

/-- Go `ModifyAuth(o, authed, addr)`, called at the instant `now`, with no step of
another call between its locked read (line 695) and its locked write-back (lines
744-754).  `ModifyAuth_finish` and `auth_step` keep the two steps apart. -/
def ModifyAuth (o : Ipac) (now : Time) (authed : GoString) (addr : GoString) : Run Unit :=
  if o.Purge = true then
    { o := o, events := [], result := Completion.returned () }
  else if o.NeverBlock = true then
    { o := o, events := [], result := Completion.returned () }
  else
    match auth_entry (IpDetails o addr) authed with
    | some entry => store_auth o now addr entry
    | none =>
      { o := o, events := [Event.println invalid_authed_text],
        result := Completion.exited 1 }

/-! ## Initialisation and the cleanup tick (`ipac.go` lines 90-339) -/

/-- Go `Init(o)`, called at the instant `now`.  The goroutine `go clean(o)` it
starts is the sequence of later `clean` ticks. -/
def Init (o : Ipac) (now : Time) : Run Unit :=
  let o := if o.CleanupLoopSeconds = 0 then { o with CleanupLoopSeconds := 60 } else o
  let o := if o.BlockForSeconds = 0 then { o with BlockForSeconds := 60 * 60 } else o
  let o :=
    if o.BlockIpv6SubnetsGroupDepth = 0 then { o with BlockIpv6SubnetsGroupDepth := 4 } else o
  let o := if o.BlockIpv6SubnetsBreach = 0 then { o with BlockIpv6SubnetsBreach := 40 } else o
  let o := if o.WarnAfterNewConnections = 0 then { o with WarnAfterNewConnections := 80 } else o
  let o :=
    if o.WarnAfterUnauthedAttempts = 0 then { o with WarnAfterUnauthedAttempts := 5 } else o
  let o :=
    if o.BlockAfterNewConnections = 0 then { o with BlockAfterNewConnections := 600 } else o
  let o :=
    if o.BlockAfterUnauthedAttempts = 0 then { o with BlockAfterUnauthedAttempts := 30 } else o
  let o :=
    if o.NotifyAfterAbsurdAuthAttempts = 0 then { o with NotifyAfterAbsurdAuthAttempts := 20 }
    else o
  { o := { o with Purge := false, LastCleanup := now },
    events := [Event.reset_chains],
    result := Completion.returned () }

/-- Line 172: `seconds_since_last_cleanup`. -/
def seconds_since_last_cleanup (o : Ipac) (now : Time) : Int :=
  Duration_Seconds_int (Time_Sub now o.LastCleanup)

/-- Line 174: `expire_older_than = BlockForSeconds - seconds_since_last_cleanup`. -/
def expire_older_than (o : Ipac) (now : Time) : Int :=
  wrap64 (o.BlockForSeconds - seconds_since_last_cleanup o now)

/-- Line 214: `age_of_ip`. -/
def age_of_ip (now : Time) (entry : Ip) : Int :=
  Duration_Seconds_int (Time_Sub now entry.OriginalAccess)

/-- The local variables of the record sweep: the slice `Ips`, the events made so
far, and `ctotal`, `cblocked`, `cwarn`. -/
structure IpSweep where
  ips : List Ip
  events : List Event
  ctotal : Int
  cblocked : Int
  cwarn : Int
deriving DecidableEq, Repr

/-- The loop of lines 210-239, `for i := len(Ips)-1; i >= 0; i--`: the first argument
is `i + 1`; `none` is the index-out-of-range panic.  The counters count elements of
a slice, so their increments cannot overflow.  Every reading of the clock gives `now`. -/
def clean_ips_loop (now : Time) (expire : Int) : Nat → IpSweep → Option IpSweep
  | 0, st => some st
  | i + 1, st =>
    match st.ips[i]? with
    | none => none
    | some entry =>
      if age_of_ip now entry > expire then
        clean_ips_loop now expire i
          { st with
            events :=
              if entry.Blocked = true then st.events ++ [modify_ip_block_os false entry]
              else st.events,
            ips := st.ips.eraseIdx i }
      else
        clean_ips_loop now expire i
          { st with
            ctotal := st.ctotal + 1,
            cblocked := if entry.Blocked = true then st.cblocked + 1 else st.cblocked,
            cwarn := if entry.Warn = true then st.cwarn + 1 else st.cwarn }

/-- Line 282: `ip_count_to_breach_subnet` for a subnet group. -/
def ip_count_to_breach_subnet (o : Ipac) (group : GoString) : Int :=
  math_Pow_int o.BlockIpv6SubnetsBreach
    (wrap64 (wrap64 (o.BlockIpv6SubnetsGroupDepth - ((strings_Split group ':').length : Int)) + 1))

/-- The local variables of the subnet sweep: the slice `Ipv6Subnets`, the events
made so far, and `cblocked_subnet`. -/
structure SubnetSweep where
  subnets : List Ipv6Subnet
  events : List Event
  cblocked_subnet : Int
deriving DecidableEq, Repr

/-- Lines 286-299: the events of the branch taken when `IpBans` has reached the
breach count.  As in the source, `ipv6_modify_subnet_block_os` is passed `false`. -/
def breach_events (o : Ipac) (s : Ipv6Subnet) : List Event :=
  [ipv6_modify_subnet_block_os false s.Group] ++
    (if o.NotifyClosure = true then
      [Event.notify "subnet_blocked".toList "IPv6 Subnet Blocked".toList [s.Group]]
    else [])

/-- The loop of lines 250-303, `for i := len(Ipv6Subnets)-1; i >= 0; i--`: the first
argument is `i + 1`; `none` is the index-out-of-range panic.  As in the source, the
first branch is taken when `BlockedTs.IsZero()` is true.  The counter counts elements
of a slice, so its increments cannot overflow. -/
def clean_subnets_loop (o : Ipac) (now : Time) (expire : Int) : Nat → SubnetSweep → Option SubnetSweep
  | 0, st => some st
  | i + 1, st =>
    match st.subnets[i]? with
    | none => none
    | some s =>
      if Time_IsZero s.BlockedTs = true then
        if Duration_Seconds_int (Time_Sub now s.BlockedTs) > expire then
          clean_subnets_loop o now expire i
            { st with
              events := st.events ++ [ipv6_modify_subnet_block_os false s.Group],
              subnets := st.subnets.eraseIdx i }
        else
          clean_subnets_loop o now expire i
            { st with cblocked_subnet := st.cblocked_subnet + 1 }
      else if s.IpBans ≥ ip_count_to_breach_subnet o s.Group then
        clean_subnets_loop o now expire i
          { subnets := st.subnets.set i { s with BlockedTs := now },
            events := st.events ++ breach_events o s,
            cblocked_subnet := st.cblocked_subnet + 1 }
      else clean_subnets_loop o now expire i st

/-- Line 320: `LastNotifyAbsurd.Before(time.Now().Add(-time.Duration(BlockForSeconds) * time.Second))`. -/
def absurd_notify_due (o : Ipac) (now : Time) : Bool :=
  decide (o.LastNotifyAbsurd < now + wrap64 (wrap64 (-o.BlockForSeconds) * 1000000000))

/-- Lines 310-318: send and empty the list of blocked addresses. -/
def flush_blocked_ips (o : Ipac) : Ipac × List Event :=
  if o.NextNotifyBlockedIps.length > 0 then
    ({ o with NextNotifyBlockedIps := [] },
      [Event.notify "ips_blocked".toList "IP addresses blocked.".toList o.NextNotifyBlockedIps])
  else (o, [])

/-- Lines 320-331: send and empty the list of absurd-attempt addresses, at most once
per `BlockForSeconds`. -/
def flush_absurd_ips (o : Ipac) (now : Time) : Ipac × List Event :=
  if o.NextNotifyAbsurdIps.length > 0 ∧ absurd_notify_due o now = true then
    ({ o with NextNotifyAbsurdIps := [], LastNotifyAbsurd := now },
      [Event.notify "ips_exceeded_absurd_auth_attempts".toList
        "Too many failed login attempts from IP Addresses that are already authenticated.".toList
        o.NextNotifyAbsurdIps])
  else (o, [])

/-- Lines 308-333: flush the pending notification lists. -/
def clean_notify (o : Ipac) (now : Time) : Ipac × List Event :=
  if o.NotifyClosure = true then
    ((flush_absurd_ips (flush_blocked_ips o).1 now).1,
      (flush_blocked_ips o).2 ++ (flush_absurd_ips (flush_blocked_ips o).1 now).2)
  else (o, [])

/-- One tick of Go `clean(o)` (after its `time.Sleep`) in which every call of
`time.Now()` returns the same instant `now`; the `go clean(o)` at its end is the next
tick.  `clean_clocked` keeps the readings of the clock apart. -/
def clean (o : Ipac) (now : Time) : Run Unit :=
  let expire := expire_older_than o now
  if o.Purge = true then
    { o := { o with Ips := [], Ipv6Subnets := [], Purge := false },
      events := [],
      result := Completion.returned () }
  else
    match clean_ips_loop now expire o.Ips.length
        { ips := o.Ips, events := [], ctotal := 0, cblocked := 0, cwarn := 0 } with
    | none => { o := o, events := [], result := Completion.panicked }
    | some a =>
      let o1 : Ipac :=
        { o with
          Ips := a.ips, TotalCount := a.ctotal, BlockedCount := a.cblocked,
          WarnCount := a.cwarn, LastCleanup := now }
      match clean_subnets_loop o1 now expire o1.Ipv6Subnets.length
          { subnets := o1.Ipv6Subnets, events := a.events, cblocked_subnet := 0 } with
      | none => { o := o1, events := a.events, result := Completion.panicked }
      | some b =>
        let o2 : Ipac := { o1 with Ipv6Subnets := b.subnets, BlockedSubnetCount := b.cblocked_subnet }
        let n := clean_notify o2 now
        { o := n.1, events := b.events ++ n.2, result := Completion.returned () }

/-- The readings of `time.Now()` during one tick of `clean`: `clock k` is what the
call number `k` returns, numbered from 0 in the order in which the tick makes them. -/
abbrev Clock := Nat → Time

/-- The loop of lines 210-239 with its readings of the clock: the first argument is
`i + 1`, the second the number of the next call of `time.Now()`.  Every iteration
makes one call, at line 214, for the age of its record. -/
def clean_ips_loop_clocked (clock : Clock) (expire : Int) : Nat → Nat → IpSweep → Option IpSweep
  | 0, _, st => some st
  | i + 1, k, st =>
    match st.ips[i]? with
    | none => none
    | some entry =>
      if age_of_ip (clock k) entry > expire then
        clean_ips_loop_clocked clock expire i (k + 1)
          { st with
            events :=
              if entry.Blocked = true then st.events ++ [modify_ip_block_os false entry]
              else st.events,
            ips := st.ips.eraseIdx i }
      else
        clean_ips_loop_clocked clock expire i (k + 1)
          { st with
            ctotal := st.ctotal + 1,
            cblocked := if entry.Blocked = true then st.cblocked + 1 else st.cblocked,
            cwarn := if entry.Warn = true then st.cwarn + 1 else st.cwarn }

/-- The loop of lines 250-303 with its readings of the clock: the first argument is
`i + 1`, the second the number of the next call of `time.Now()`; the result also
gives the number of the next call after the loop.  An iteration calls `time.Now()`
at line 257 for a group whose `BlockedTs` is zero, at line 289 for a group that
reached its breach count, and not at all otherwise. -/
def clean_subnets_loop_clocked (o : Ipac) (clock : Clock) (expire : Int) :
    Nat → Nat → SubnetSweep → Option (Nat × SubnetSweep)
  | 0, k, st => some (k, st)
  | i + 1, k, st =>
    match st.subnets[i]? with
    | none => none
    | some s =>
      if Time_IsZero s.BlockedTs = true then
        if Duration_Seconds_int (Time_Sub (clock k) s.BlockedTs) > expire then
          clean_subnets_loop_clocked o clock expire i (k + 1)
            { st with
              events := st.events ++ [ipv6_modify_subnet_block_os false s.Group],
              subnets := st.subnets.eraseIdx i }
        else
          clean_subnets_loop_clocked o clock expire i (k + 1)
            { st with cblocked_subnet := st.cblocked_subnet + 1 }
      else if s.IpBans ≥ ip_count_to_breach_subnet o s.Group then
        clean_subnets_loop_clocked o clock expire i (k + 1)
          { subnets := st.subnets.set i { s with BlockedTs := clock k },
            events := st.events ++ breach_events o s,
            cblocked_subnet := st.cblocked_subnet + 1 }
      else clean_subnets_loop_clocked o clock expire i k st

/-- Lines 320-331 with their readings of the clock: the call number `k` is made at
line 320 when the list is not empty, the call number `k + 1` at line 329. -/
def flush_absurd_ips_clocked (o : Ipac) (clock : Clock) (k : Nat) : Ipac × List Event :=
  if o.NextNotifyAbsurdIps.length > 0 ∧ absurd_notify_due o (clock k) = true then
    ({ o with NextNotifyAbsurdIps := [], LastNotifyAbsurd := clock (k + 1) },
      [Event.notify "ips_exceeded_absurd_auth_attempts".toList
        "Too many failed login attempts from IP Addresses that are already authenticated.".toList
        o.NextNotifyAbsurdIps])
  else (o, [])

/-- Lines 308-333 with their readings of the clock. -/
def clean_notify_clocked (o : Ipac) (clock : Clock) (k : Nat) : Ipac × List Event :=
  if o.NotifyClosure = true then
    ((flush_absurd_ips_clocked (flush_blocked_ips o).1 clock k).1,
      (flush_blocked_ips o).2 ++ (flush_absurd_ips_clocked (flush_blocked_ips o).1 clock k).2)
  else (o, [])

/-- One tick of Go `clean(o)` (after its `time.Sleep`) with every reading of the clock
kept apart.  The call number 0 is the one of line 172, made before the lock is taken;
the calls number `1` to `len(Ips)` are made by the record loop, last record first;
the call number `len(Ips) + 1` is the one of line 246; the subnet loop and the
notifications make the calls after that. -/
def clean_clocked (o : Ipac) (clock : Clock) : Run Unit :=
  let expire := expire_older_than o (clock 0)
  if o.Purge = true then
    { o := { o with Ips := [], Ipv6Subnets := [], Purge := false },
      events := [],
      result := Completion.returned () }
  else
    match clean_ips_loop_clocked clock expire o.Ips.length 1
        { ips := o.Ips, events := [], ctotal := 0, cblocked := 0, cwarn := 0 } with
    | none => { o := o, events := [], result := Completion.panicked }
    | some a =>
      let o1 : Ipac :=
        { o with
          Ips := a.ips, TotalCount := a.ctotal, BlockedCount := a.cblocked,
          WarnCount := a.cwarn, LastCleanup := clock (o.Ips.length + 1) }
      match clean_subnets_loop_clocked o1 clock expire o1.Ipv6Subnets.length (o.Ips.length + 2)
          { subnets := o1.Ipv6Subnets, events := a.events, cblocked_subnet := 0 } with
      | none => { o := o1, events := a.events, result := Completion.panicked }
      | some b =>
        let o2 : Ipac :=
          { o1 with Ipv6Subnets := b.2.subnets, BlockedSubnetCount := b.2.cblocked_subnet }
        let n := clean_notify_clocked o2 clock b.1
        { o := n.1, events := b.2.events ++ n.2, result := Completion.returned () }

/-! ## Definitions used to state the claims -/

/-- Consecutive calls `TestIpAllowed(o, addr)`, one at each instant of the list: the
engine state after the last call and how each call ended, in order. -/
def TestIpAllowed_calls (o : Ipac) (addr : GoString) : List Time → Ipac × List (Completion Bool)
  | [] => (o, [])
  | now :: rest =>
    let r := TestIpAllowed o now addr
    let t := TestIpAllowed_calls r.o addr rest
    (t.1, r.result :: t.2)

/-- Every record of the first list is still at its place in the second list, with
the same `Addr`, and neither its `Blocked` nor its `Warn` went from true to false. -/
def flags_kept : List Ip → List Ip → Bool
  | [], _ => true
  | _ :: _, [] => false
  | r :: rs, r' :: rs' =>
    decide (r'.Addr = r.Addr) && (!r.Blocked || r'.Blocked) && (!r.Warn || r'.Warn)
      && flags_kept rs rs'

/-- The two engine states have the same options, purge flag and `NeverBlock`. -/
def same_settings (o o' : Ipac) : Prop :=
  o'.CleanupLoopSeconds = o.CleanupLoopSeconds
  ∧ o'.BlockForSeconds = o.BlockForSeconds
  ∧ o'.BlockIpv6SubnetsGroupDepth = o.BlockIpv6SubnetsGroupDepth
  ∧ o'.BlockIpv6SubnetsBreach = o.BlockIpv6SubnetsBreach
  ∧ o'.WarnAfterNewConnections = o.WarnAfterNewConnections
  ∧ o'.WarnAfterUnauthedAttempts = o.WarnAfterUnauthedAttempts
  ∧ o'.BlockAfterNewConnections = o.BlockAfterNewConnections
  ∧ o'.BlockAfterUnauthedAttempts = o.BlockAfterUnauthedAttempts
  ∧ o'.NotifyAfterAbsurdAuthAttempts = o.NotifyAfterAbsurdAuthAttempts
  ∧ o'.NotifyClosure = o.NotifyClosure
  ∧ o'.Purge = o.Purge
  ∧ o'.NeverBlock = o.NeverBlock

/-- The engine is active and the record of `addr` exists, is unauthenticated and not
blocked, has `k` counted connections and no invalid login. -/
def counting (o : Ipac) (addr : GoString) (k : Int) : Prop :=
  o.NeverBlock = false ∧ o.Purge = false ∧ (∃ e ∈ o.Ips, e.Addr = addr)
  ∧ (IpDetails o addr).Authed = false ∧ (IpDetails o addr).Blocked = false
  ∧ (IpDetails o addr).UnauthedNewConnections = k ∧ (IpDetails o addr).UnauthedAttempts = 0

/-- The caller keeps control after the call: the call returned or panicked (a panic
can be recovered by the caller) and did not end the process. -/
def Completion.recoverable {α : Type} : Completion α → Bool
  | Completion.exited _ => false
  | _ => true

/-- The byte is a hexadecimal digit. -/
def is_hex_digit (c : Char) : Bool :=
  c ∈ "0123456789abcdefABCDEF".toList

/-- The groups joined with colons. -/
def join_groups (gs : List GoString) : GoString := List.intercalate [':'] gs

/-- The event is a call of `modify_ip_block_os`. -/
def is_ip_hook : Event → Bool
  | Event.modify_ip_block_os _ _ => true
  | _ => false

/-- The record is kept by the sweep of the tick at `now`: its age is at most
`expire_older_than`. -/
def survives (o : Ipac) (now : Time) (entry : Ip) : Bool :=
  decide (age_of_ip now entry ≤ expire_older_than o now)

/-- One operation on the engine. -/
inductive Op where
  /-- A call `TestIpAllowed(o, addr)` at the instant `now`. -/
  | test (now : Time) (addr : GoString)
  /-- A call `ModifyAuth(o, authed, addr)` at the instant `now`. -/
  | auth (now : Time) (authed : GoString) (addr : GoString)
  /-- A call `Purge(o)`. -/
  | purge
  /-- A tick of `clean(o)` at the instant `now`. -/
  | tick (now : Time)
deriving DecidableEq, Repr

/-- The engine state after one operation (for a panic or an exit: the state at that point). -/
def apply_op (o : Ipac) : Op → Ipac
  | Op.test now addr => (TestIpAllowed o now addr).o
  | Op.auth now authed addr => (ModifyAuth o now authed addr).o
  | Op.purge => (Purge o).o
  | Op.tick now => (clean o now).o

/-- The engine state after a sequence of operations run one after the other. -/
def run_ops (o : Ipac) (ops : List Op) : Ipac := ops.foldl apply_op o

/-- What an operation may do to the list of records, told by the `Addr` fields:
`TestIpAllowed` keeps every `Addr` at its place and may append one record for its
address, `ModifyAuth` keeps every `Addr` at its place, `Purge` keeps the list, and a
tick keeps a sublist of the records, each unmodified. -/
def addrs_kept : Op → List Ip → List Ip → Prop
  | Op.test _ addr, before, after =>
    after.map (fun e => e.Addr) = before.map (fun e => e.Addr)
    ∨ after.map (fun e => e.Addr) = before.map (fun e => e.Addr) ++ [addr]
  | Op.auth _ _ _, before, after => after.map (fun e => e.Addr) = before.map (fun e => e.Addr)
  | Op.purge, before, after => after = before
  | Op.tick _, before, after => List.Sublist after before

/-- The rest of `TestIpAllowed(o, addr)` after the locked read of line 534 gave
`entry`: lines 536-666, run on the engine state `o` of that later moment. -/
def TestIpAllowed_finish (o : Ipac) (now : Time) (addr : GoString) (entry : Ip) : Run Bool :=
  if o.Purge = true then
    { o := o, events := [],
      result := Completion.returned (if entry.Blocked = true then false else true) }
  else
    let entry := touch now entry
    if entry.Addr = addr then found_entry o addr entry
    else new_entry o addr entry

/-- One step of concurrent `TestIpAllowed(o, addr)` calls: a caller takes the lock and
reads the record (line 534), or a caller that has read finishes its call with the
locked write-back (lines 536-666) at the instant `now`. -/
inductive LockStep where
  | read (caller : Nat)
  | write (caller : Nat) (now : Time)
deriving DecidableEq, Repr

/-- The shared engine state and the local variable `entry` of each caller that has read. -/
structure Interleaving where
  o : Ipac
  entries : List (Nat × Ip)
deriving DecidableEq, Repr

/-- The effect of one step; a caller that finds `NeverBlock` set returns before
reading, and a write step of a caller that has not read does nothing. -/
def lock_step (addr : GoString) (s : Interleaving) : LockStep → Interleaving
  | LockStep.read caller =>
    if s.o.NeverBlock = true then s
    else { s with entries := (caller, IpDetails s.o addr) :: s.entries }
  | LockStep.write caller now =>
    match s.entries.lookup caller with
    | none => s
    | some entry => { s with o := (TestIpAllowed_finish s.o now addr entry).o }

/-- The engine state after the steps of concurrent `TestIpAllowed(o, addr)` calls,
taken in the given order. -/
def run_interleaving (o : Ipac) (addr : GoString) (steps : List LockStep) : Ipac :=
  (steps.foldl (lock_step addr) { o := o, entries := [] }).o

/-- What the loops of lines 381-399 make of one group: `0` becomes `0000`, and a group
shorter than 4 bytes is left-padded with `0`. -/
def canon_group (s : GoString) : GoString :=
  let s1 := if s = ['0'] then zero_group else s
  if s1.length < 4 then List.replicate (4 - s1.length) '0' ++ s1 else s1

/-- The group `s` is the 4-digit group `g` with leading zeros dropped (none, some, or
all but the last digit; an all-zero group may so be written `0`). -/
def drops_leading_zeros (s g : GoString) : Bool :=
  decide (s ≠ [] ∧ s.length ≤ 4 ∧ List.replicate (4 - s.length) '0' ++ s = g)

/-- A shorthand text: the groups `ss` joined with colons, where `run = some (i, r)`
replaces the `r` groups from index `i` on by `::`. -/
def shorthand (ss : List GoString) (run : Option (Nat × Nat)) : GoString :=
  match run with
  | none => join_groups ss
  | some (i, r) => join_groups (ss.take i) ++ [':', ':'] ++ join_groups (ss.drop (i + r))

/-- The groups `ss` with the run `run` are a shorthand spelling of the full groups
`gs`: every group of `ss` is the group of `gs` with leading zeros dropped, and a run
replaces one or more groups of `gs` that are all `0000`. -/
def is_shorthand_of (gs ss : List GoString) (run : Option (Nat × Nat)) : Bool :=
  decide (ss.length = gs.length)
    && (List.zipWith drops_leading_zeros ss gs).all id
    && (match run with
        | none => true
        | some (i, r) =>
          decide (1 ≤ r) && decide (i + r ≤ gs.length)
            && ((gs.drop i).take r).all (fun g => decide (g = zero_group)))

/-- The hook calls, notifications and prints that one operation makes from the state `o`. -/
def op_events (o : Ipac) : Op → List Event
  | Op.test now addr => (TestIpAllowed o now addr).events
  | Op.auth now authed addr => (ModifyAuth o now authed addr).events
  | Op.purge => (Purge o).events
  | Op.tick now => (clean o now).events

/-- The events of a sequence of operations run one after the other, in order. -/
def run_events (o : Ipac) : List Op → List Event
  | [] => []
  | op :: rest => op_events o op ++ run_events (apply_op o op) rest

/-- A call `ipv6_modify_subnet_block_os(o, true, subnet)`. -/
def is_subnet_block : Event → Bool
  | Event.ipv6_modify_subnet_block_os true _ _ => true
  | _ => false

/-- The test of the claim C10 in the words of the specification, for a record paired
with the number of the `time.Now()` call made for it: its age, the seconds from its
`OriginalAccess` to that reading, is at most `expireOlderThan`, which is
`BlockForSeconds` less the seconds from `LastCleanup` to the reading number 0. -/
def age_at_most_expire (o : Ipac) (clock : Clock) (p : Nat × Ip) : Bool :=
  decide (Duration_Seconds_int (Time_Sub (clock p.1) p.2.OriginalAccess)
    ≤ wrap64 (o.BlockForSeconds - Duration_Seconds_int (Time_Sub (clock 0) o.LastCleanup)))

/-- The rest of `ModifyAuth(o, authed, addr)` after the locked read of line 695 gave
`entry`: lines 697-758, run on the engine state `o` of that later moment. -/
def ModifyAuth_finish (o : Ipac) (now : Time) (authed : GoString) (addr : GoString)
    (entry : Ip) : Run Unit :=
  match auth_entry entry authed with
  | some entry => store_auth o now addr entry
  | none =>
    { o := o, events := [Event.println invalid_authed_text],
      result := Completion.exited 1 }

/-- One step of concurrent `ModifyAuth(o, authed, addr)` calls: a caller takes the lock
and reads the record (line 695), or a caller that has read finishes its call with the
locked write-back (lines 697-758) for the event `authed`, with `now` the reading of
line 697. -/
inductive AuthStep where
  | read (caller : Nat)
  | write (caller : Nat) (now : Time) (authed : GoString)
deriving DecidableEq, Repr

/-- The effect of one step of a `ModifyAuth` call; a caller that finds `Purge` or
`NeverBlock` set returns before reading, and a write step of a caller that has not
read does nothing. -/
def auth_step (addr : GoString) (s : Interleaving) : AuthStep → Interleaving
  | AuthStep.read caller =>
    if s.o.Purge = true then s
    else if s.o.NeverBlock = true then s
    else { s with entries := (caller, IpDetails s.o addr) :: s.entries }
  | AuthStep.write caller now authed =>
    match s.entries.lookup caller with
    | none => s
    | some entry => { s with o := (ModifyAuth_finish s.o now authed addr entry).o }

/-- One step of concurrent calls on the address `addr`: a step of a `TestIpAllowed`
call or a step of a `ModifyAuth` call.  Callers have distinct numbers. -/
inductive CallStep where
  | test (step : LockStep)
  | auth (step : AuthStep)
deriving DecidableEq, Repr

/-- The effect of one step of either kind. -/
def call_step (addr : GoString) (s : Interleaving) : CallStep → Interleaving
  | CallStep.test step => lock_step addr s step
  | CallStep.auth step => auth_step addr s step

/-- The engine state after the steps of concurrent `TestIpAllowed(o, addr)` and
`ModifyAuth(o, authed, addr)` calls, taken in the given order. -/
def run_calls (o : Ipac) (addr : GoString) (steps : List CallStep) : Ipac :=
  (steps.foldl (call_step addr) { o := o, entries := [] }).o

/-! ## Concrete engines for the witnesses -/

/-- The engine after `Init` of the zero `Ipac`: every option has its default value. -/
def example_engine : Ipac := (Init {} 0).o

/-- The address 127.0.0.1. -/
def example_addr : GoString := "127.0.0.1".toList

/-- The default engine with one record: 127.0.0.1, blocked and warned after 600
counted connections. -/
def example_blocked_engine : Ipac :=
  { example_engine with
    Ips := [{ Addr := example_addr, Warn := true, Blocked := true, LastAccess := 5,
              OriginalAccess := 1, UnauthedNewConnections := 600 }] }

/-- The engine `example_blocked_engine` with `NeverBlock` set. -/
def example_never_block_engine : Ipac :=
  { example_blocked_engine with NeverBlock := true }

/-- The groups of the address 2001:0db8:0000:0000:0000:ff00:0042:8329. -/
def example_groups : List GoString :=
  ["2001".toList, "0db8".toList, "0000".toList, "0000".toList, "0000".toList, "ff00".toList,
   "0042".toList, "8329".toList]

/-- The default engine, last cleaned at second 7200, with four records first seen
at seconds 1, 7000, 2 and 7100. -/
def example_sweep_engine : Ipac :=
  { example_engine with
    LastCleanup := 7200000000000,
    Ips := [{ Addr := "10.0.0.1".toList, Blocked := true, Warn := true, OriginalAccess := 1000000000,
              UnauthedNewConnections := 600 },
            { Addr := "10.0.0.2".toList, Warn := true, OriginalAccess := 7000000000000,
              UnauthedNewConnections := 90 },
            { Addr := "10.0.0.3".toList, OriginalAccess := 2000000000 },
            { Addr := "10.0.0.4".toList, Blocked := true, Warn := true,
              OriginalAccess := 7100000000000, UnauthedNewConnections := 600 }] }

/-- The default engine with a notification closure and one record: 127.0.0.1,
blocked, with 20 absurd authentication attempts. -/
def example_absurd_engine : Ipac :=
  { example_engine with
    NotifyClosure := true,
    Ips := [{ Addr := example_addr, Warn := true, Blocked := true, LastAccess := 5,
              OriginalAccess := 1, UnauthedNewConnections := 600,
              AbsurdAuthAttempts := 20 }] }

/-- The default engine with one record: 127.0.0.1, authenticated, with 3 absurd
authentication attempts, and a second record for 10.0.0.2. -/
def example_authed_engine : Ipac :=
  { example_engine with
    Ips := [{ Addr := example_addr, Authed := true, LastAccess := 5, OriginalAccess := 1,
              LastAuth := 2, UnauthedNewConnections := 7, UnauthedAttempts := 1,
              AbsurdAuthAttempts := 3 },
            { Addr := "10.0.0.2".toList, LastAccess := 4, OriginalAccess := 4 }] }

/-- The default engine with one record: 127.0.0.1, not authenticated, with 5 counted
connections. -/
def example_counting_engine : Ipac :=
  { example_engine with
    Ips := [{ Addr := example_addr, LastAccess := 5, OriginalAccess := 1,
              UnauthedNewConnections := 5 }] }

/-- The default engine with a notification closure and one record: 127.0.0.1, not
blocked, with 599 counted connections and 20 absurd authentication attempts. -/
def example_threshold_engine : Ipac :=
  { example_engine with
    NotifyClosure := true,
    Ips := [{ Addr := example_addr, Warn := true, LastAccess := 5, OriginalAccess := 1,
              UnauthedNewConnections := 599, AbsurdAuthAttempts := 20 }] }

/-- The address 2001:0db8:0000:0000:0000:ff00:0042:8329. -/
def example_addr6 : GoString := "2001:0db8:0000:0000:0000:ff00:0042:8329".toList

/-- The default engine, last cleaned at second 63000000000, with one record: the
address `example_addr6`, first seen at second 63000000010, with 599 counted
connections. -/
def example_ipv6_engine : Ipac :=
  { example_engine with
    LastCleanup := 63000000000000000000,
    Ips := [{ Addr := example_addr6, Warn := true, LastAccess := 63000000019000000000,
              OriginalAccess := 63000000010000000000, UnauthedNewConnections := 599 }] }

/-- The engine `example_ipv6_engine` after one more `TestIpAllowed` of the address at
second 63000000020: the call blocks the address and creates its four subnet groups. -/
def example_subnet_engine : Ipac :=
  (TestIpAllowed example_ipv6_engine 63000000020000000000 example_addr6).o

/-- The default engine, last cleaned at second 63000000000, with one subnet group
that has 40 bans and a `BlockedTs` of second 62999990000. -/
def example_stamped_engine : Ipac :=
  { example_engine with
    LastCleanup := 63000000000000000000,
    Ipv6Subnets :=
      [{ Group := "2001:0db8:ffff:0000".toList, IpBans := 40,
         BlockedTs := 62999990000000000000 }] }

/-- The groups of `example_groups` with their leading zeros dropped. -/
def example_short_groups : List GoString :=
  ["2001".toList, "db8".toList, "0".toList, "0".toList, "0".toList, "ff00".toList,
   "42".toList, "8329".toList]

/-- The groups of the address 0000:0db8:0000:0001:0002:0003:0004:0005. -/
def example_zero_start_groups : List GoString :=
  ["0000".toList, "0db8".toList, "0000".toList, "0001".toList, "0002".toList, "0003".toList,
   "0004".toList, "0005".toList]

/-- The groups of `example_zero_start_groups` with their leading zeros dropped. -/
def example_zero_start_short_groups : List GoString :=
  ["0".toList, "db8".toList, "0".toList, "1".toList, "2".toList, "3".toList,
   "4".toList, "5".toList]

/-- Four operations on `example_ipv6_engine`: a `TestIpAllowed` that blocks
`example_addr6`, a tick, a `valid_login` of the address, and a `TestIpAllowed` that
blocks it again. -/
def example_subnet_ops : List Op :=
  [Op.test 63000000020000000000 example_addr6,
   Op.tick 63000000021000000000,
   Op.auth 63000000022000000000 ev_valid_login example_addr6,
   Op.test 63000000023000000000 example_addr6]

/-- A clock that starts 75 seconds after second 63000000000 and advances by one
millisecond from each reading to the next. -/
def example_clock : Clock := fun k => 63000000075000000000 + 1000000 * (k : Int)

/-- The default engine, last cleaned at second 63000000000, with three records: two
blocked ones first seen at the same instant, 3525.9995 seconds before the reading
number 2 of `example_clock`, and one first seen 115 seconds before the tick. -/
def example_clock_engine : Ipac :=
  { example_engine with
    LastCleanup := 63000000000000000000,
    Ips := [{ Addr := "10.0.0.1".toList, Blocked := true, Warn := true,
              OriginalAccess := 62999996549002500000, UnauthedNewConnections := 600 },
            { Addr := "10.0.0.2".toList, Blocked := true, Warn := true,
              OriginalAccess := 62999996549002500000, UnauthedNewConnections := 600 },
            { Addr := "10.0.0.3".toList, OriginalAccess := 62999999960000000000 }] }

/-- The default engine with one record: 127.0.0.1, not authenticated, warned, with 598
counted connections. -/
def example_near_block_engine : Ipac :=
  { example_engine with
    Ips := [{ Addr := example_addr, Warn := true, LastAccess := 5, OriginalAccess := 1,
              UnauthedNewConnections := 598 }] }

/-- Three concurrent `TestIpAllowed` calls on 127.0.0.1: caller 0 reads, then callers 1
and 2 each read and write back; the write-back of caller 0 is still to come. -/
def example_stale_steps : List LockStep :=
  [LockStep.read 0, LockStep.read 1, LockStep.write 1 8, LockStep.read 2, LockStep.write 2 9]

/-- The engine `example_blocked_engine` after `ModifyAuth("valid_login", "127.0.0.1")`:
the record is authenticated and not blocked, and still has 600 counted connections. -/
def example_relogin_engine : Ipac :=
  (ModifyAuth example_blocked_engine 9 ev_valid_login example_addr).o

/-- A `ModifyAuth` call (caller 0) reads the record of 127.0.0.1, then a
`TestIpAllowed` call (caller 1) reads and writes back; the write-back of caller 0 is
still to come. -/
def example_stale_auth_steps : List CallStep :=
  [CallStep.auth (AuthStep.read 0), CallStep.test (LockStep.read 1),
   CallStep.test (LockStep.write 1 10)]

theorem flags_kept_refl (ips : List Ip) : flags_kept ips ips = true := by
  induction ips with
  | nil => rfl
  | cons r rs ih => simp [flags_kept, ih]

theorem flags_kept_append (ips extra : List Ip) : flags_kept ips (ips ++ extra) = true := by
  induction ips with
  | nil => rfl
  | cons r rs ih => simp [flags_kept, ih]

theorem flags_kept_update (ips : List Ip) (addr : GoString) (entry : Ip)
    (h : ∀ e, ips.find? (fun e => decide (e.Addr = addr)) = some e →
      entry.Addr = e.Addr ∧ (e.Blocked = true → entry.Blocked = true)
        ∧ (e.Warn = true → entry.Warn = true)) :
    flags_kept ips (update_ips ips addr entry) = true := by
  induction ips with
  | nil => rfl
  | cons r rs ih =>
    by_cases hr : r.Addr = addr
    · have h1 := h r (by simp [List.find?, hr])
      simp only [update_ips, hr, if_true, flags_kept, flags_kept_refl, Bool.and_true]
      rcases h1 with ⟨ha, hb, hw⟩
      cases hB : r.Blocked <;> cases hW : r.Warn <;> simp_all
    · have h2 : ∀ e, rs.find? (fun e => decide (e.Addr = addr)) = some e →
          entry.Addr = e.Addr ∧ (e.Blocked = true → entry.Blocked = true)
            ∧ (e.Warn = true → entry.Warn = true) := by
        intro e he
        apply h e
        simp [List.find?, hr, he]
      simp [update_ips, hr, flags_kept, ih h2]

theorem IpDetails_eq_of_find (o : Ipac) (addr : GoString) (e : Ip)
    (h : o.Ips.find? (fun e => decide (e.Addr = addr)) = some e) : IpDetails o addr = e := by
  simp [IpDetails, h]

theorem IpDetails_cases (o : Ipac) (addr : GoString) :
    (o.Ips.find? (fun e => decide (e.Addr = addr)) = some (IpDetails o addr)
      ∧ (IpDetails o addr).Addr = addr)
    ∨ (o.Ips.find? (fun e => decide (e.Addr = addr)) = none ∧ IpDetails o addr = {}) := by
  unfold IpDetails
  cases h : o.Ips.find? (fun e => decide (e.Addr = addr)) with
  | none => right; simp
  | some e =>
    left
    have := List.find?_some h
    simp at this
    simp [this]

theorem touch_Addr (now : Time) (e : Ip) : (touch now e).Addr = e.Addr := by
  unfold touch; simp only []; split_ifs <;> rfl

theorem touch_Blocked (now : Time) (e : Ip) : (touch now e).Blocked = e.Blocked := by
  unfold touch; simp only []; split_ifs <;> rfl

theorem touch_Warn (now : Time) (e : Ip) : (touch now e).Warn = e.Warn := by
  unfold touch; simp only []; split_ifs <;> rfl

theorem touch_Authed (now : Time) (e : Ip) : (touch now e).Authed = e.Authed := by
  unfold touch; simp only []; split_ifs <;> rfl

theorem touch_UnauthedNewConnections (now : Time) (e : Ip) :
    (touch now e).UnauthedNewConnections = e.UnauthedNewConnections := by
  unfold touch; simp only []; split_ifs <;> rfl

theorem touch_UnauthedAttempts (now : Time) (e : Ip) :
    (touch now e).UnauthedAttempts = e.UnauthedAttempts := by
  unfold touch; simp only []; split_ifs <;> rfl

theorem count_and_warn_Addr (o : Ipac) (e : Ip) : (count_and_warn o e).Addr = e.Addr := by
  unfold count_and_warn; simp only []; split_ifs <;> rfl

theorem count_and_warn_Blocked (o : Ipac) (e : Ip) : (count_and_warn o e).Blocked = e.Blocked := by
  unfold count_and_warn; simp only []; split_ifs <;> rfl

theorem count_and_warn_Authed (o : Ipac) (e : Ip) : (count_and_warn o e).Authed = e.Authed := by
  unfold count_and_warn; simp only []; split_ifs <;> rfl

theorem count_and_warn_UnauthedAttempts (o : Ipac) (e : Ip) :
    (count_and_warn o e).UnauthedAttempts = e.UnauthedAttempts := by
  unfold count_and_warn; simp only []; split_ifs <;> rfl

theorem count_and_warn_Warn (o : Ipac) (e : Ip) (h : e.Warn = true) :
    (count_and_warn o e).Warn = true := by
  unfold count_and_warn; simp only []; split_ifs <;> simp_all

theorem count_and_warn_count (o : Ipac) (e : Ip) :
    (count_and_warn o e).UnauthedNewConnections
      = if e.Authed = false then wrap64 (e.UnauthedNewConnections + 1)
        else e.UnauthedNewConnections := by
  unfold count_and_warn; simp only []; split_ifs <;> rfl

theorem note_blocked_Ips (o : Ipac) (e : Ip) : (note_blocked o e).Ips = o.Ips := by
  unfold note_blocked; split_ifs <;> rfl

theorem note_absurd_Ips (o : Ipac) (e : Ip) : (note_absurd o e).Ips = o.Ips := by
  unfold note_absurd; split_ifs <;> rfl

theorem store_and_answer_Ips (o : Ipac) (ev : List Event) (addr : GoString) (entry : Ip) :
    (store_and_answer o ev addr entry).o.Ips = update_ips o.Ips addr entry := rfl

theorem store_and_answer_result (o : Ipac) (ev : List Event) (addr : GoString) (entry : Ip) :
    (store_and_answer o ev addr entry).result
      = Completion.returned (if entry.Blocked = true then false else true) := rfl

theorem add_ranked_groups_Ips (o : Ipac) (r : List GoString) :
    (add_ranked_groups o r).Ips = o.Ips := rfl

/-- The records after `block_entry`: untouched (panic) or the write-back of the blocked entry. -/
theorem block_entry_Ips (o : Ipac) (addr : GoString) (entry : Ip) :
    (block_entry o addr entry).o.Ips = o.Ips
    ∨ (block_entry o addr entry).o.Ips = update_ips o.Ips addr { entry with Blocked := true } := by
  unfold block_entry
  simp only []
  split_ifs
  · split
    · left; exact note_blocked_Ips _ _
    · right; rw [store_and_answer_Ips, add_ranked_groups_Ips, note_blocked_Ips]
  · right; rw [store_and_answer_Ips, note_blocked_Ips]

/-- The records after `found_entry`: untouched, or the write-back of an entry with the
same `Addr` whose flags were only raised. -/
theorem found_entry_Ips (o : Ipac) (addr : GoString) (entry : Ip) :
    (found_entry o addr entry).o.Ips = o.Ips
    ∨ ∃ e : Ip, e.Addr = entry.Addr ∧ (entry.Blocked = true → e.Blocked = true)
        ∧ (entry.Warn = true → e.Warn = true)
        ∧ (found_entry o addr entry).o.Ips = update_ips o.Ips addr e := by
  unfold found_entry
  simp only []
  split_ifs
  · rcases block_entry_Ips o addr (count_and_warn o entry) with h | h
    · left; exact h
    · right
      exact ⟨{ count_and_warn o entry with Blocked := true }, count_and_warn_Addr o entry,
        fun _ => rfl, count_and_warn_Warn o entry, h⟩
  · right
    refine ⟨count_and_warn o entry, count_and_warn_Addr o entry, ?_, count_and_warn_Warn o entry, ?_⟩
    · rw [count_and_warn_Blocked]; exact id
    · rw [store_and_answer_Ips, note_absurd_Ips]
  · right
    refine ⟨count_and_warn o entry, count_and_warn_Addr o entry, ?_, count_and_warn_Warn o entry, ?_⟩
    · rw [count_and_warn_Blocked]; exact id
    · rw [store_and_answer_Ips]

theorem TestIpAllowed_never (o : Ipac) (now : Time) (addr : GoString)
    (hN : o.NeverBlock = true) :
    TestIpAllowed o now addr = { o := o, events := [], result := Completion.returned true } := by
  unfold TestIpAllowed; rw [if_pos hN]

theorem TestIpAllowed_purge (o : Ipac) (now : Time) (addr : GoString)
    (hN : o.NeverBlock = false) (hP : o.Purge = true) :
    TestIpAllowed o now addr
      = { o := o, events := [],
          result := Completion.returned (if (IpDetails o addr).Blocked = true then false else true) } := by
  unfold TestIpAllowed
  rw [if_neg (by simp [hN])]
  simp only []
  rw [if_pos hP]

theorem TestIpAllowed_found (o : Ipac) (now : Time) (addr : GoString)
    (hN : o.NeverBlock = false) (hP : o.Purge = false) (ha : (IpDetails o addr).Addr = addr) :
    TestIpAllowed o now addr = found_entry o addr (touch now (IpDetails o addr)) := by
  unfold TestIpAllowed
  rw [if_neg (by simp [hN])]
  simp only []
  rw [if_neg (by simp [hP]), if_pos (by rw [touch_Addr]; exact ha)]

theorem TestIpAllowed_new (o : Ipac) (now : Time) (addr : GoString)
    (hN : o.NeverBlock = false) (hP : o.Purge = false) (ha : (IpDetails o addr).Addr ≠ addr) :
    TestIpAllowed o now addr = new_entry o addr (touch now (IpDetails o addr)) := by
  unfold TestIpAllowed
  rw [if_neg (by simp [hN])]
  simp only []
  rw [if_neg (by simp [hP]), if_neg (by rw [touch_Addr]; exact ha)]

theorem TestIpAllowed_flags_kept (o : Ipac) (now : Time) (addr : GoString) :
    flags_kept o.Ips (TestIpAllowed o now addr).o.Ips = true := by
  cases hN : o.NeverBlock
  swap
  · rw [TestIpAllowed_never o now addr hN]; exact flags_kept_refl _
  cases hP : o.Purge
  swap
  · rw [TestIpAllowed_purge o now addr hN hP]; exact flags_kept_refl _
  by_cases ha : (IpDetails o addr).Addr = addr
  · rw [TestIpAllowed_found o now addr hN hP ha]
    rcases found_entry_Ips o addr (touch now (IpDetails o addr)) with h | ⟨e, ha, hb, hw, h⟩
    · rw [h]; exact flags_kept_refl _
    · rw [h]
      apply flags_kept_update
      intro e0 he0
      rw [IpDetails_eq_of_find o addr e0 he0, touch_Addr] at ha
      rw [IpDetails_eq_of_find o addr e0 he0, touch_Blocked] at hb
      rw [IpDetails_eq_of_find o addr e0 he0, touch_Warn] at hw
      exact ⟨ha, hb, hw⟩
  · rw [TestIpAllowed_new o now addr hN hP ha]
    exact flags_kept_append _ _

theorem auth_entry_keeps (entry e : Ip) (authed : GoString)
    (hev : authed = ev_logout ∨ authed = ev_invalid_login)
    (h : auth_entry entry authed = some e) :
    e.Addr = entry.Addr ∧ e.Blocked = entry.Blocked ∧ e.Warn = entry.Warn := by
  have hne1 : ev_logout ≠ ev_valid_login := by decide
  have hne2 : ev_invalid_login ≠ ev_valid_login := by decide
  have hv : authed ≠ ev_valid_login := by
    rcases hev with h1 | h1 <;> rw [h1] <;> assumption
  unfold auth_entry at h
  split_ifs at h <;> (cases h; exact ⟨rfl, rfl, rfl⟩)

theorem store_auth_Ips (o : Ipac) (now : Time) (addr : GoString) (entry : Ip) :
    (store_auth o now addr entry).o.Ips = update_ips o.Ips addr { entry with LastAuth := now } :=
  rfl

theorem ModifyAuth_idle (o : Ipac) (now : Time) (authed addr : GoString)
    (h : o.Purge = true ∨ o.NeverBlock = true) :
    ModifyAuth o now authed addr = { o := o, events := [], result := Completion.returned () } := by
  unfold ModifyAuth
  split_ifs with h1 h2
  · rfl
  · rfl
  · rcases h with h | h <;> contradiction

theorem ModifyAuth_active (o : Ipac) (now : Time) (authed addr : GoString)
    (hN : o.NeverBlock = false) (hP : o.Purge = false) :
    ModifyAuth o now authed addr
      = match auth_entry (IpDetails o addr) authed with
        | some entry => store_auth o now addr entry
        | none =>
          { o := o, events := [Event.println invalid_authed_text],
            result := Completion.exited 1 } := by
  unfold ModifyAuth
  rw [if_neg (by simp [hP]), if_neg (by simp [hN])]

theorem ModifyAuth_flags_kept (o : Ipac) (now : Time) (authed addr : GoString)
    (hev : authed = ev_logout ∨ authed = ev_invalid_login) :
    flags_kept o.Ips (ModifyAuth o now authed addr).o.Ips = true := by
  by_cases hidle : o.Purge = true ∨ o.NeverBlock = true
  · rw [ModifyAuth_idle o now authed addr hidle]; exact flags_kept_refl _
  · have hP : o.Purge = false := by cases h : o.Purge <;> simp_all
    have hN : o.NeverBlock = false := by cases h : o.NeverBlock <;> simp_all
    rw [ModifyAuth_active o now authed addr hN hP]
    cases he : auth_entry (IpDetails o addr) authed with
    | none => exact flags_kept_refl _
    | some e =>
      show flags_kept o.Ips (store_auth o now addr e).o.Ips = true
      rw [store_auth_Ips]
      apply flags_kept_update
      intro e0 he0
      rw [IpDetails_eq_of_find o addr e0 he0] at he
      obtain ⟨ha, hb, hw⟩ := auth_entry_keeps e0 e authed hev he
      exact ⟨ha, fun h => by simpa [hb] using h, fun h => by simpa [hw] using h⟩

theorem found_entry_blocked (o : Ipac) (addr : GoString) (entry : Ip)
    (hb : entry.Blocked = true) :
    (found_entry o addr entry).result = Completion.returned false := by
  unfold found_entry
  simp only []
  have hcb : (count_and_warn o entry).Blocked = true := by rw [count_and_warn_Blocked]; exact hb
  split_ifs with h1 h2
  · rw [hcb] at h1; simp at h1
  · rw [store_and_answer_result, hcb]; rfl
  · rw [store_and_answer_result, hcb]; rfl

theorem TestIpAllowed_blocked (o : Ipac) (now : Time) (addr : GoString)
    (hN : o.NeverBlock = false) (hb : (IpDetails o addr).Blocked = true) :
    (TestIpAllowed o now addr).result = Completion.returned false := by
  cases hP : o.Purge
  swap
  · rw [TestIpAllowed_purge o now addr hN hP]; simp [hb]
  rcases IpDetails_cases o addr with ⟨_, ha⟩ | ⟨_, hz⟩
  · rw [TestIpAllowed_found o now addr hN hP ha]
    exact found_entry_blocked o addr _ (by rw [touch_Blocked]; exact hb)
  · rw [hz] at hb; cases hb

theorem find_update_ips (ips : List Ip) (addr : GoString) (entry : Ip)
    (h : ∃ e ∈ ips, e.Addr = addr) (hA : entry.Addr = addr) :
    (update_ips ips addr entry).find? (fun e => decide (e.Addr = addr)) = some entry := by
  induction ips with
  | nil => simp at h
  | cons r rs ih =>
    by_cases hr : r.Addr = addr
    · simp [update_ips, hr, List.find?, hA]
    · have h2 : ∃ e ∈ rs, e.Addr = addr := by
        obtain ⟨e, he, hea⟩ := h
        rcases List.mem_cons.mp he with h1 | h1
        · subst h1; exact absurd hea hr
        · exact ⟨e, h1, hea⟩
      simp [update_ips, hr, List.find?, ih h2]

theorem IpDetails_update (o : Ipac) (addr : GoString) (entry : Ip)
    (h : ∃ e ∈ o.Ips, e.Addr = addr) (hA : entry.Addr = addr) :
    IpDetails { o with Ips := update_ips o.Ips addr entry } addr = entry := by
  apply IpDetails_eq_of_find
  exact find_update_ips o.Ips addr entry h hA

theorem IpDetails_Addr_of_mem (o : Ipac) (addr : GoString) (h : ∃ e ∈ o.Ips, e.Addr = addr) :
    (IpDetails o addr).Addr = addr := by
  rcases IpDetails_cases o addr with ⟨_, ha⟩ | ⟨hn, _⟩
  · exact ha
  · obtain ⟨e, he, hea⟩ := h
    have := List.find?_eq_none.mp hn e he
    simp [hea] at this

theorem same_settings_refl (o : Ipac) : same_settings o o := by
  simp [same_settings]

theorem same_settings_trans {a b c : Ipac} (h1 : same_settings a b) (h2 : same_settings b c) :
    same_settings a c := by
  simp only [same_settings] at *
  simp_all

theorem note_blocked_settings (o : Ipac) (e : Ip) : same_settings o (note_blocked o e) := by
  unfold note_blocked; split_ifs <;> simp [same_settings]

theorem note_absurd_settings (o : Ipac) (e : Ip) : same_settings o (note_absurd o e) := by
  unfold note_absurd; split_ifs <;> simp [same_settings]

theorem store_and_answer_settings (o : Ipac) (ev : List Event) (addr : GoString) (e : Ip) :
    same_settings o (store_and_answer o ev addr e).o := by
  simp [same_settings, store_and_answer]

theorem add_ranked_groups_settings (o : Ipac) (r : List GoString) :
    same_settings o (add_ranked_groups o r) := by
  simp [same_settings, add_ranked_groups]

theorem block_entry_settings (o : Ipac) (addr : GoString) (e : Ip) :
    same_settings o (block_entry o addr e).o := by
  unfold block_entry
  simp only []
  split_ifs
  · split
    · exact note_blocked_settings _ _
    · exact same_settings_trans (note_blocked_settings o _)
        (same_settings_trans (add_ranked_groups_settings _ _) (store_and_answer_settings _ _ _ _))
  · exact same_settings_trans (note_blocked_settings o _) (store_and_answer_settings _ _ _ _)

theorem found_entry_settings (o : Ipac) (addr : GoString) (e : Ip) :
    same_settings o (found_entry o addr e).o := by
  unfold found_entry
  simp only []
  split_ifs
  · exact block_entry_settings _ _ _
  · exact same_settings_trans (note_absurd_settings o _) (store_and_answer_settings _ _ _ _)
  · exact store_and_answer_settings _ _ _ _

theorem new_entry_settings (o : Ipac) (addr : GoString) (e : Ip) :
    same_settings o (new_entry o addr e).o := by
  simp [same_settings, new_entry]

theorem TestIpAllowed_settings (o : Ipac) (now : Time) (addr : GoString) :
    same_settings o (TestIpAllowed o now addr).o := by
  unfold TestIpAllowed
  simp only []
  split_ifs
  · exact same_settings_refl _
  · exact same_settings_refl _
  · exact same_settings_refl _
  · exact found_entry_settings _ _ _
  · exact new_entry_settings _ _ _

theorem wrap64_of_range (x : Int) (h1 : minInt64 ≤ x) (h2 : x ≤ maxInt64) : wrap64 x = x := by
  unfold wrap64
  unfold minInt64 at h1
  unfold maxInt64 at h2
  omega

theorem ipv6_get_ranked_groups_congr (o o' : Ipac) (addr : GoString)
    (h : o'.BlockIpv6SubnetsGroupDepth = o.BlockIpv6SubnetsGroupDepth) :
    ipv6_get_ranked_groups o' addr = ipv6_get_ranked_groups o addr := by
  unfold ipv6_get_ranked_groups
  rw [h]

theorem block_entry_result (o : Ipac) (addr : GoString) (entry : Ip)
    (h6 : strings_Index addr ':' ≠ -1 → (ipv6_get_ranked_groups o addr).isSome = true) :
    (block_entry o addr entry).result = Completion.returned false := by
  unfold block_entry
  simp only []
  split_ifs with hc
  · have hs := h6 hc
    rw [← ipv6_get_ranked_groups_congr o (note_blocked o { entry with Blocked := true }) addr
      (note_blocked_settings o _).2.2.1] at hs
    split
    · rename_i hnone; rw [hnone] at hs; cases hs
    · rfl
  · rfl

theorem found_entry_below (o : Ipac) (addr : GoString) (entry : Ip)
    (h : ¬ (((count_and_warn o entry).UnauthedNewConnections ≥ o.BlockAfterNewConnections
        ∨ (count_and_warn o entry).UnauthedAttempts ≥ o.BlockAfterUnauthedAttempts)
      ∧ (count_and_warn o entry).Blocked = false)) :
    ∃ o' : Ipac, o'.Ips = o.Ips ∧ same_settings o o'
      ∧ found_entry o addr entry = store_and_answer o' [] addr (count_and_warn o entry) := by
  unfold found_entry
  simp only []
  rw [if_neg h]
  split_ifs
  · exact ⟨note_absurd o _, note_absurd_Ips _ _, note_absurd_settings _ _, rfl⟩
  · exact ⟨o, rfl, same_settings_refl o, rfl⟩

theorem first_call_counts (o : Ipac) (now : Time) (addr : GoString)
    (hne : addr ≠ []) (hnew : ∀ e ∈ o.Ips, e.Addr ≠ addr)
    (hN : o.NeverBlock = false) (hP : o.Purge = false) :
    (TestIpAllowed o now addr).result = Completion.returned true
    ∧ counting (TestIpAllowed o now addr).o addr 0 := by
  have hfind : o.Ips.find? (fun e => decide (e.Addr = addr)) = none := by
    rw [List.find?_eq_none]
    intro e he
    simpa using hnew e he
  have hz : IpDetails o addr = {} := by simp [IpDetails, hfind]
  have ha : (IpDetails o addr).Addr ≠ addr := by
    rw [hz]; exact fun h => hne h.symm
  rw [TestIpAllowed_new o now addr hN hP ha, hz]
  have hd : IpDetails (new_entry o addr (touch now {})).o addr
      = { touch now {} with Addr := addr } := by
    apply IpDetails_eq_of_find
    show (o.Ips ++ [{ touch now {} with Addr := addr }]).find? _ = _
    rw [List.find?_append, hfind]
    simp [List.find?]
  refine ⟨?_, hN, hP, ⟨{ touch now {} with Addr := addr }, ?_, rfl⟩, ?_, ?_, ?_, ?_⟩
  · show Completion.returned (if (touch now {}).Blocked = true then false else true) = _
    rw [touch_Blocked]; rfl
  · show _ ∈ o.Ips ++ [_]
    simp
  · rw [hd]; show (touch now {}).Authed = false; rw [touch_Authed]
  · rw [hd]; show (touch now {}).Blocked = false; rw [touch_Blocked]
  · rw [hd]; show (touch now {}).UnauthedNewConnections = 0; rw [touch_UnauthedNewConnections]
  · rw [hd]; show (touch now {}).UnauthedAttempts = 0; rw [touch_UnauthedAttempts]

theorem counting_entry (o : Ipac) (now : Time) (addr : GoString) (k : Int)
    (h : counting o addr k) (hk0 : 0 ≤ k) (hk : k < maxInt64) :
    (count_and_warn o (touch now (IpDetails o addr))).Addr = addr
    ∧ (count_and_warn o (touch now (IpDetails o addr))).Authed = false
    ∧ (count_and_warn o (touch now (IpDetails o addr))).Blocked = false
    ∧ (count_and_warn o (touch now (IpDetails o addr))).UnauthedNewConnections = k + 1
    ∧ (count_and_warn o (touch now (IpDetails o addr))).UnauthedAttempts = 0 := by
  obtain ⟨_, _, hrec, hAu, hBl, hc, hUA⟩ := h
  refine ⟨?_, ?_, ?_, ?_, ?_⟩
  · rw [count_and_warn_Addr, touch_Addr]; exact IpDetails_Addr_of_mem o addr hrec
  · rw [count_and_warn_Authed, touch_Authed]; exact hAu
  · rw [count_and_warn_Blocked, touch_Blocked]; exact hBl
  · rw [count_and_warn_count, touch_Authed, touch_UnauthedNewConnections, if_pos hAu, hc]
    apply wrap64_of_range
    · unfold minInt64; omega
    · omega
  · rw [count_and_warn_UnauthedAttempts, touch_UnauthedAttempts]; exact hUA

theorem counting_step (o : Ipac) (now : Time) (addr : GoString) (k : Int)
    (h : counting o addr k) (hk0 : 0 ≤ k) (hk : k + 1 < o.BlockAfterNewConnections)
    (hB : o.BlockAfterNewConnections ≤ maxInt64) (hBA : 0 < o.BlockAfterUnauthedAttempts) :
    (TestIpAllowed o now addr).result = Completion.returned true
    ∧ counting (TestIpAllowed o now addr).o addr (k + 1) := by
  obtain ⟨hA, hAu, hBl, hc, hUA⟩ := counting_entry o now addr k h hk0 (by omega)
  obtain ⟨hN, hP, hrec, _⟩ := h
  rw [TestIpAllowed_found o now addr hN hP (IpDetails_Addr_of_mem o addr hrec)]
  obtain ⟨o', hIps, hset, hrun⟩ := found_entry_below o addr (touch now (IpDetails o addr))
    (by rw [hc, hUA]; intro hcon; rcases hcon.1 with h1 | h1 <;> omega)
  rw [hrun]
  have hrec' : ∃ e ∈ o'.Ips, e.Addr = addr := by rw [hIps]; exact hrec
  have hd := IpDetails_update o' addr _ hrec' hA
  have hmem := List.mem_of_find?_eq_some (find_update_ips o'.Ips addr _ hrec' hA)
  refine ⟨?_, ?_, ?_, ⟨_, hmem, hA⟩, ?_, ?_, ?_, ?_⟩
  · rw [store_and_answer_result, hBl]; rfl
  · show o'.NeverBlock = false
    rw [hset.2.2.2.2.2.2.2.2.2.2.2]; exact hN
  · show o'.Purge = false
    rw [hset.2.2.2.2.2.2.2.2.2.2.1]; exact hP
  · show (IpDetails { o' with Ips := _ } addr).Authed = false
    rw [hd]; exact hAu
  · show (IpDetails { o' with Ips := _ } addr).Blocked = false
    rw [hd]; exact hBl
  · show (IpDetails { o' with Ips := _ } addr).UnauthedNewConnections = k + 1
    rw [hd]; exact hc
  · show (IpDetails { o' with Ips := _ } addr).UnauthedAttempts = 0
    rw [hd]; exact hUA

theorem counting_block (o : Ipac) (now : Time) (addr : GoString) (k : Int)
    (h : counting o addr k) (hk0 : 0 ≤ k) (hk : k + 1 = o.BlockAfterNewConnections)
    (hB : o.BlockAfterNewConnections ≤ maxInt64)
    (h6 : strings_Index addr ':' ≠ -1 → (ipv6_get_ranked_groups o addr).isSome = true) :
    (TestIpAllowed o now addr).result = Completion.returned false := by
  obtain ⟨hA, hAu, hBl, hc, hUA⟩ := counting_entry o now addr k h hk0 (by omega)
  obtain ⟨hN, hP, hrec, _⟩ := h
  rw [TestIpAllowed_found o now addr hN hP (IpDetails_Addr_of_mem o addr hrec)]
  unfold found_entry
  simp only []
  rw [if_pos ⟨Or.inl (by rw [hc]; omega), hBl⟩]
  exact block_entry_result o addr _ h6

theorem TestIpAllowed_calls_append (o : Ipac) (addr : GoString) (l1 l2 : List Time) :
    TestIpAllowed_calls o addr (l1 ++ l2)
      = ((TestIpAllowed_calls (TestIpAllowed_calls o addr l1).1 addr l2).1,
         (TestIpAllowed_calls o addr l1).2
           ++ (TestIpAllowed_calls (TestIpAllowed_calls o addr l1).1 addr l2).2) := by
  induction l1 generalizing o with
  | nil => rfl
  | cons t rest ih =>
    show TestIpAllowed_calls o addr (t :: (rest ++ l2)) = _
    simp only [TestIpAllowed_calls]
    rw [ih]
    rfl

theorem counting_calls (addr : GoString) (nows : List Time) :
    ∀ (o : Ipac) (k : Int), counting o addr k → 0 ≤ k →
      k + (nows.length : Int) < o.BlockAfterNewConnections →
      o.BlockAfterNewConnections ≤ maxInt64 → 0 < o.BlockAfterUnauthedAttempts →
      (TestIpAllowed_calls o addr nows).2
          = List.replicate nows.length (Completion.returned true)
      ∧ counting (TestIpAllowed_calls o addr nows).1 addr (k + (nows.length : Int))
      ∧ same_settings o (TestIpAllowed_calls o addr nows).1 := by
  induction nows with
  | nil =>
    intro o k h _ _ _ _
    refine ⟨rfl, ?_, same_settings_refl o⟩
    simpa [TestIpAllowed_calls] using h
  | cons t rest ih =>
    intro o k h hk0 hk hB hBA
    simp only [List.length_cons, Nat.cast_add, Nat.cast_one] at hk
    obtain ⟨hr, hc⟩ := counting_step o t addr k h hk0 (by omega) hB hBA
    have hs := TestIpAllowed_settings o t addr
    have hB1 : (TestIpAllowed o t addr).o.BlockAfterNewConnections = o.BlockAfterNewConnections :=
      hs.2.2.2.2.2.2.1
    have hBA1 : (TestIpAllowed o t addr).o.BlockAfterUnauthedAttempts
        = o.BlockAfterUnauthedAttempts := hs.2.2.2.2.2.2.2.1
    obtain ⟨r1, r2, r3⟩ := ih (TestIpAllowed o t addr).o (k + 1) hc (by omega)
      (by rw [hB1]; omega) (by rw [hB1]; exact hB) (by rw [hBA1]; exact hBA)
    refine ⟨?_, ?_, same_settings_trans hs r3⟩
    · simp only [TestIpAllowed_calls, List.length_cons, List.replicate_succ]
      rw [hr, r1]
    · simp only [TestIpAllowed_calls, List.length_cons, Nat.cast_add, Nat.cast_one]
      have : k + ((rest.length : Int) + 1) = k + 1 + (rest.length : Int) := by ring
      rw [this]; exact r2

theorem fresh_calls (o : Ipac) (addr : GoString) (nows : List Time)
    (hne : addr ≠ []) (hnew : ∀ e ∈ o.Ips, e.Addr ≠ addr)
    (hN : o.NeverBlock = false) (hP : o.Purge = false)
    (hBmax : o.BlockAfterNewConnections ≤ maxInt64)
    (hBA : 0 < o.BlockAfterUnauthedAttempts)
    (hlen : (nows.length : Int) ≤ o.BlockAfterNewConnections) :
    (TestIpAllowed_calls o addr nows).2
        = List.replicate nows.length (Completion.returned true)
    ∧ same_settings o (TestIpAllowed_calls o addr nows).1
    ∧ (nows ≠ [] → counting (TestIpAllowed_calls o addr nows).1 addr ((nows.length : Int) - 1)) := by
  cases nows with
  | nil => exact ⟨rfl, same_settings_refl o, fun h => absurd rfl h⟩
  | cons t rest =>
    simp only [List.length_cons, Nat.cast_add, Nat.cast_one] at hlen
    obtain ⟨hr, hc⟩ := first_call_counts o t addr hne hnew hN hP
    have hs := TestIpAllowed_settings o t addr
    have hB1 : (TestIpAllowed o t addr).o.BlockAfterNewConnections = o.BlockAfterNewConnections :=
      hs.2.2.2.2.2.2.1
    have hBA1 : (TestIpAllowed o t addr).o.BlockAfterUnauthedAttempts
        = o.BlockAfterUnauthedAttempts := hs.2.2.2.2.2.2.2.1
    obtain ⟨r1, r2, r3⟩ := counting_calls addr rest (TestIpAllowed o t addr).o 0 hc (le_refl 0)
      (by rw [hB1]; omega) (by rw [hB1]; exact hBmax) (by rw [hBA1]; exact hBA)
    refine ⟨?_, same_settings_trans hs r3, fun _ => ?_⟩
    · simp only [TestIpAllowed_calls, List.length_cons, List.replicate_succ]
      rw [hr, r1]
    · simp only [TestIpAllowed_calls, List.length_cons, Nat.cast_add, Nat.cast_one]
      have : (rest.length : Int) + 1 - 1 = 0 + (rest.length : Int) := by ring
      rw [this]; exact r2

theorem ranked_group_string_of_le (groups : List GoString) (n : Nat) (h : n ≤ groups.length) :
    ranked_group_string groups n
      = some ((groups.take n).map (fun x => x ++ [':'])).flatten := by
  unfold ranked_group_string
  induction n with
  | zero => rfl
  | succ n ih =>
    have hn : n < groups.length := h
    rw [List.range_succ, List.foldlM_append, ih (Nat.le_of_lt hn), List.take_succ,
      List.getElem?_eq_getElem hn]
    simp only [Option.toList, List.map_append, List.flatten_append, List.map_cons, List.map_nil,
      List.flatten_cons, List.flatten_nil, List.append_nil, Option.some_bind, Option.bind_eq_bind,
      List.foldlM_cons, List.foldlM_nil, List.getElem?_eq_getElem hn, Option.map_some',
      Option.pure_def]

theorem flatten_colon_eq_join (gs : List GoString) (h : gs ≠ []) :
    (gs.map (fun x => x ++ [':'])).flatten = join_groups gs ++ [':'] := by
  induction gs with
  | nil => exact absurd rfl h
  | cons g rest ih =>
    cases rest with
    | nil => simp [join_groups, List.intercalate]
    | cons g2 rest2 =>
      have := ih (List.cons_ne_nil _ _)
      simp only [List.map_cons, List.flatten_cons] at this ⊢
      rw [this]
      simp [join_groups, List.intercalate]

theorem join_groups_getLast (gs : List GoString) (h : gs ≠ [])
    (hg : ∀ g ∈ gs, g ≠ [] ∧ ':' ∉ g) :
    ∀ hne : join_groups gs ≠ [], (join_groups gs).getLast hne ≠ ':' := by
  induction gs with
  | nil => exact absurd rfl h
  | cons g rest ih =>
    cases rest with
    | nil =>
      intro hne
      have hj : join_groups [g] = g := by simp [join_groups, List.intercalate]
      have hni : ':' ∉ join_groups [g] := by
        rw [hj]; exact (hg g (List.mem_singleton.mpr rfl)).2
      exact fun hc => hni (hc ▸ List.getLast_mem hne)
    | cons g2 rest2 =>
      intro hne
      have hj : join_groups (g :: g2 :: rest2) = (g ++ [':']) ++ join_groups (g2 :: rest2) := by
        simp [join_groups, List.intercalate]
      have hg2 : ∀ x ∈ g2 :: rest2, x ≠ [] ∧ ':' ∉ x :=
        fun x hx => hg x (List.mem_cons_of_mem _ hx)
      have hne2 : join_groups (g2 :: rest2) ≠ [] := by
        have h2 := (hg2 g2 (List.mem_cons_self _ _)).1
        cases rest2 with
        | nil => simpa [join_groups, List.intercalate] using h2
        | cons g3 r3 => simp [join_groups, List.intercalate]
      have := ih (List.cons_ne_nil _ _) hg2 hne2
      have hl : (join_groups (g :: g2 :: rest2)).getLast hne
          = (join_groups (g2 :: rest2)).getLast hne2 := by
        simp only [hj]
        exact List.getLast_append_right hne2
      rw [hl]; exact this

theorem trim_flatten_colon (gs : List GoString) (h : gs ≠ [])
    (hg : ∀ g ∈ gs, g ≠ [] ∧ ':' ∉ g) :
    strings_TrimRight ((gs.map (fun x => x ++ [':'])).flatten) [':'] = join_groups gs := by
  rw [flatten_colon_eq_join gs h]
  unfold strings_TrimRight
  rw [List.rdropWhile_concat_pos _ _ _ (by simp)]
  rw [List.rdropWhile_eq_self_iff]
  intro hne
  have := join_groups_getLast gs h hg hne
  simpa using this

theorem expand_empty_group_id (gs : List GoString) (h : ∀ g ∈ gs, g.length ≠ 0) :
    expand_empty_group gs = gs := by
  unfold expand_empty_group
  have : gs.findIdx? (fun s => decide (s.length = 0)) = none := by
    rw [List.findIdx?_eq_none_iff]
    intro x hx
    simpa using h x hx
  rw [this]

theorem expand_zero_shorthand_id (gs : List GoString) (h : ∀ g ∈ gs, g ≠ ['0']) :
    expand_zero_shorthand gs = gs := by
  unfold expand_zero_shorthand
  conv_rhs => rw [← List.map_id gs]
  apply List.map_congr_left
  intro g hg
  simp [h g hg]

theorem pad_groups_id (gs : List GoString) (h : ∀ g ∈ gs, 4 ≤ g.length) :
    pad_groups gs = gs := by
  unfold pad_groups
  conv_rhs => rw [← List.map_id gs]
  apply List.map_congr_left
  intro g hg
  have := h g hg
  simp
  omega

theorem canonical_groups_full (gs : List GoString) (hne : gs ≠ [])
    (hg : ∀ g ∈ gs, g.length = 4 ∧ ':' ∉ g) :
    canonical_groups (join_groups gs) = gs := by
  unfold canonical_groups strings_Split join_groups
  rw [List.splitOn_intercalate gs ':' (fun l hl => (hg l hl).2) hne]
  rw [expand_empty_group_id gs (fun g h => by rw [(hg g h).1]; decide)]
  rw [expand_zero_shorthand_id gs (fun g h hc => by
    have := (hg g h).1; rw [hc] at this; cases this)]
  exact pad_groups_id gs (fun g h => by rw [(hg g h).1])

theorem hex_digit_not_colon (g : GoString) (h : ∀ c ∈ g, is_hex_digit c = true) : ':' ∉ g := by
  intro hc
  have := h ':' hc
  revert this
  decide

theorem mapM_pointwise {α β : Type} (f : α → Option β) (g : α → β) (l : List α)
    (h : ∀ a ∈ l, f a = some (g a)) : l.mapM f = some (l.map g) := by
  induction l with
  | nil => rfl
  | cons a rest ih =>
    rw [List.mapM_cons, h a (List.mem_cons_self _ _),
      ih (fun b hb => h b (List.mem_cons_of_mem _ hb))]
    rfl

theorem clean_ips_loop_spec (now : Time) (expire : Int) (pre : List Ip) :
    ∀ (suf : List Ip) (ev : List Event) (ct cb cw : Int),
    clean_ips_loop now expire pre.length
        { ips := pre ++ suf, events := ev, ctotal := ct, cblocked := cb, cwarn := cw }
      = some
        { ips := pre.filter (fun e => decide (age_of_ip now e ≤ expire)) ++ suf,
          events := ev ++ (pre.reverse.filter
            (fun e => !decide (age_of_ip now e ≤ expire) && e.Blocked)).map
              (modify_ip_block_os false),
          ctotal := ct + ((pre.filter (fun e => decide (age_of_ip now e ≤ expire))).length : Int),
          cblocked := cb + (((pre.filter (fun e => decide (age_of_ip now e ≤ expire))).filter
            (fun e => e.Blocked)).length : Int),
          cwarn := cw + (((pre.filter (fun e => decide (age_of_ip now e ≤ expire))).filter
            (fun e => e.Warn)).length : Int) } := by
  induction pre using List.reverseRecOn with
  | nil => intro suf ev ct cb cw; simp [clean_ips_loop]
  | append_singleton init x ih =>
    intro suf ev ct cb cw
    have hget : (init ++ [x] ++ suf)[init.length]? = some x := by
      rw [List.append_assoc, List.getElem?_append_right (le_refl _)]
      simp
    rw [List.length_append, List.length_singleton]
    unfold clean_ips_loop
    simp only [hget]
    by_cases hage : age_of_ip now x > expire
    · have hk : decide (age_of_ip now x ≤ expire) = false := by
        simp; omega
      have herase : (init ++ [x] ++ suf).eraseIdx init.length = init ++ suf := by
        rw [List.append_assoc, List.eraseIdx_append_of_length_le (le_refl _)]
        simp
      rw [if_pos hage]
      simp only [herase]
      rw [ih]
      cases hb : x.Blocked <;>
        simp [List.filter_append, List.filter_cons, hk, hb, List.reverse_append]
    · have hk : decide (age_of_ip now x ≤ expire) = true := by
        simp; omega
      rw [if_neg hage]
      have happ : init ++ [x] ++ suf = init ++ (x :: suf) := by simp
      simp only [happ]
      rw [ih]
      cases hb : x.Blocked <;> cases hw : x.Warn <;>
        simp [List.filter_append, List.filter_cons, hk, hb, hw, List.reverse_append] <;> omega

theorem breach_events_no_ip_hook (o : Ipac) (s : Ipv6Subnet) :
    (breach_events o s).filter is_ip_hook = [] := by
  unfold breach_events
  split_ifs <;> simp [ipv6_modify_subnet_block_os, is_ip_hook]

theorem clean_subnets_loop_total (o : Ipac) (now : Time) (expire : Int) :
    ∀ (n : Nat) (st : SubnetSweep), n ≤ st.subnets.length →
      ∃ st', clean_subnets_loop o now expire n st = some st'
        ∧ st'.events.filter is_ip_hook = st.events.filter is_ip_hook := by
  intro n
  induction n with
  | zero => intro st _; exact ⟨st, rfl, rfl⟩
  | succ i ih =>
    intro st hle
    have hi : i < st.subnets.length := hle
    unfold clean_subnets_loop
    simp only [List.getElem?_eq_getElem hi]
    split_ifs
    · obtain ⟨st', h1, h2⟩ := ih
        { st with
          events := st.events ++ [ipv6_modify_subnet_block_os false st.subnets[i].Group],
          subnets := st.subnets.eraseIdx i }
        (by simp only [List.length_eraseIdx, hi, if_true]; omega)
      refine ⟨st', h1, ?_⟩
      rw [h2]
      simp [List.filter_append, ipv6_modify_subnet_block_os, is_ip_hook]
    · exact ih { st with cblocked_subnet := st.cblocked_subnet + 1 } (Nat.le_of_lt hi)
    · obtain ⟨st', h1, h2⟩ := ih
        { subnets := st.subnets.set i { st.subnets[i] with BlockedTs := now },
          events := st.events ++ breach_events o st.subnets[i],
          cblocked_subnet := st.cblocked_subnet + 1 }
        (by simp only [List.length_set]; omega)
      refine ⟨st', h1, ?_⟩
      rw [h2]
      simp only [List.filter_append, breach_events_no_ip_hook, List.append_nil]
    · exact ih st (Nat.le_of_lt hi)

theorem flush_blocked_ips_keeps (o : Ipac) :
    (flush_blocked_ips o).1.Ips = o.Ips
    ∧ (flush_blocked_ips o).1.TotalCount = o.TotalCount
    ∧ (flush_blocked_ips o).1.BlockedCount = o.BlockedCount
    ∧ (flush_blocked_ips o).1.WarnCount = o.WarnCount
    ∧ (flush_blocked_ips o).2.filter is_ip_hook = [] := by
  unfold flush_blocked_ips
  split_ifs <;> simp [is_ip_hook]

theorem flush_absurd_ips_keeps (o : Ipac) (now : Time) :
    (flush_absurd_ips o now).1.Ips = o.Ips
    ∧ (flush_absurd_ips o now).1.TotalCount = o.TotalCount
    ∧ (flush_absurd_ips o now).1.BlockedCount = o.BlockedCount
    ∧ (flush_absurd_ips o now).1.WarnCount = o.WarnCount
    ∧ (flush_absurd_ips o now).2.filter is_ip_hook = [] := by
  unfold flush_absurd_ips
  split_ifs <;> simp [is_ip_hook]

theorem clean_notify_keeps (o : Ipac) (now : Time) :
    (clean_notify o now).1.Ips = o.Ips
    ∧ (clean_notify o now).1.TotalCount = o.TotalCount
    ∧ (clean_notify o now).1.BlockedCount = o.BlockedCount
    ∧ (clean_notify o now).1.WarnCount = o.WarnCount
    ∧ (clean_notify o now).2.filter is_ip_hook = [] := by
  obtain ⟨a1, a2, a3, a4, a5⟩ := flush_blocked_ips_keeps o
  obtain ⟨b1, b2, b3, b4, b5⟩ := flush_absurd_ips_keeps (flush_blocked_ips o).1 now
  unfold clean_notify
  split_ifs
  · refine ⟨b1.trans a1, b2.trans a2, b3.trans a3, b4.trans a4, ?_⟩
    simp only [List.filter_append, a5, b5, List.append_nil]
  · exact ⟨rfl, rfl, rfl, rfl, rfl⟩

theorem filter_ip_hook_map (l : List Ip) :
    (l.map (modify_ip_block_os false)).filter is_ip_hook = l.map (modify_ip_block_os false) := by
  induction l with
  | nil => rfl
  | cons a rest ih => simp [List.filter_cons, modify_ip_block_os, is_ip_hook]

theorem update_ips_of_unseen (ips : List Ip) (addr : GoString) (entry : Ip)
    (h : ∀ e ∈ ips, e.Addr ≠ addr) : update_ips ips addr entry = ips := by
  induction ips with
  | nil => rfl
  | cons r rs ih =>
    have hr : r.Addr ≠ addr := h r (List.mem_cons_self _ _)
    simp only [update_ips, if_neg hr]
    rw [ih (fun e he => h e (List.mem_cons_of_mem _ he))]

/-- For an address without a record `ModifyAuth` never changes the record list,
whatever the event. -/
theorem ModifyAuth_of_unseen (o : Ipac) (now : Time) (authed addr : GoString)
    (h : ∀ e ∈ o.Ips, e.Addr ≠ addr) : (ModifyAuth o now authed addr).o.Ips = o.Ips := by
  unfold ModifyAuth
  split_ifs
  · rfl
  · rfl
  · split
    · rw [store_auth_Ips]; exact update_ips_of_unseen o.Ips addr _ h
    · rfl

/-- A record whose counters are at a block threshold is blocked again by the first
`TestIpAllowed` that follows `ModifyAuth("valid_login")`. -/
theorem TestIpAllowed_after_valid_login (o : Ipac) (now later : Time) (addr : GoString)
    (hN : o.NeverBlock = false) (hP : o.Purge = false) (hrec : ∃ e ∈ o.Ips, e.Addr = addr)
    (hc : (IpDetails o addr).UnauthedNewConnections ≥ o.BlockAfterNewConnections
      ∨ (IpDetails o addr).UnauthedAttempts ≥ o.BlockAfterUnauthedAttempts)
    (h6 : strings_Index addr ':' ≠ -1 → (ipv6_get_ranked_groups o addr).isSome = true) :
    (TestIpAllowed (ModifyAuth o now ev_valid_login addr).o later addr).result
      = Completion.returned false := by
  have hne : ev_valid_login ≠ ev_invalid_login := by decide
  have hae : auth_entry (IpDetails o addr) ev_valid_login
      = some { IpDetails o addr with Blocked := false, Warn := false, Authed := true } := by
    unfold auth_entry
    rw [if_neg (fun h => hne h.2), if_pos rfl]
  have hrun : ModifyAuth o now ev_valid_login addr
      = store_auth o now addr
          { IpDetails o addr with Blocked := false, Warn := false, Authed := true } := by
    rw [ModifyAuth_active o now ev_valid_login addr hN hP, hae]
  have hA := IpDetails_Addr_of_mem o addr hrec
  rw [hrun]
  have hd : IpDetails (store_auth o now addr
      { IpDetails o addr with Blocked := false, Warn := false, Authed := true }).o addr
      = { IpDetails o addr with
          Blocked := false, Warn := false, Authed := true, LastAuth := now } :=
    IpDetails_update o addr _ hrec hA
  have hN1 : (store_auth o now addr
      { IpDetails o addr with Blocked := false, Warn := false, Authed := true }).o.NeverBlock
      = false := hN
  have hP1 : (store_auth o now addr
      { IpDetails o addr with Blocked := false, Warn := false, Authed := true }).o.Purge
      = false := hP
  rw [TestIpAllowed_found _ later addr hN1 hP1 (by rw [hd]; exact hA), hd]
  unfold found_entry
  simp only []
  rw [if_pos]
  · exact block_entry_result _ addr _ h6
  · refine ⟨?_, ?_⟩
    · rw [count_and_warn_count, count_and_warn_UnauthedAttempts, touch_Authed,
        touch_UnauthedNewConnections, touch_UnauthedAttempts]
      exact hc
    · rw [count_and_warn_Blocked, touch_Blocked]

theorem round_to_even_bounds (a b : Nat) (hb : 0 < b) :
    a / b ≤ round_to_even a b ∧ 2 * (round_to_even a b * b) ≤ 2 * a + b := by
  have hdm : b * (a / b) + a % b = a := Nat.div_add_mod a b
  have hcomm : a / b * b = b * (a / b) := Nat.mul_comm _ _
  have hsucc : (a / b + 1) * b = b * (a / b) + b := by rw [Nat.add_mul, hcomm, Nat.one_mul]
  unfold round_to_even
  split_ifs
  · exact ⟨le_refl _, by rw [hcomm]; omega⟩
  · exact ⟨Nat.le_succ _, by rw [hsucc]; omega⟩
  · exact ⟨le_refl _, by rw [hcomm]; omega⟩
  · exact ⟨Nat.le_succ _, by rw [hsucc]; omega⟩

theorem float64_shift_ge (a b : Nat) : ∀ (fuel k : Nat), k ≤ float64_shift a b fuel k := by
  intro fuel
  induction fuel with
  | zero => intro k; exact le_refl _
  | succ f ih =>
    intro k
    unfold float64_shift
    split_ifs
    · exact le_refl _
    · exact le_trans (Nat.le_succ k) (ih (k + 1))

theorem float64_drop_le (n u : Nat) (hn : n < 2 ^ (53 + u)) :
    ∀ (fuel t : Nat), t ≤ u → float64_drop n fuel t ≤ u := by
  intro fuel
  induction fuel with
  | zero => intro t ht; exact ht
  | succ f ih =>
    intro t ht
    unfold float64_drop
    split_ifs with h
    · exact ht
    · apply ih
      rcases Nat.lt_or_ge t u with hlt | hge
      · exact hlt
      · have : t = u := le_antisymm ht hge
        rw [this] at h
        exact absurd hn h

/-- Below `2^24` seconds the `float64` detour of `Seconds` loses nothing: the integer
part is the whole number of seconds. -/
theorem Duration_Seconds_trunc_exact (n : Nat) (h : n / 1000000000 < 2 ^ 24) :
    Duration_Seconds_trunc n = n / 1000000000 := by
  unfold Duration_Seconds_trunc
  simp only []
  split_ifs with h0
  · rfl
  have hns : n % 1000000000 < 1000000000 := Nat.mod_lt _ (by norm_num)
  generalize hsec : n / 1000000000 = sec at h ⊢
  generalize hnsec : n % 1000000000 = nsec at h0 hns ⊢
  have hk := float64_shift_ge nsec 1000000000 30 53
  generalize float64_shift nsec 1000000000 30 53 = k at hk ⊢
  obtain ⟨_, hm⟩ := round_to_even_bounds (nsec * 2 ^ k) 1000000000 (by norm_num)
  generalize round_to_even (nsec * 2 ^ k) 1000000000 = m at hm ⊢
  -- the powers of two
  have hK53 : 2 ^ 53 ≤ 2 ^ k := Nat.pow_le_pow_right (by norm_num) hk
  have hnK : nsec * 2 ^ k ≤ 999999999 * 2 ^ k := Nat.mul_le_mul_right _ (by omega)
  have hmK : m < 2 ^ k := by
    have h53 : (2 : Nat) ^ 53 = 9007199254740992 := by norm_num
    omega
  have hN : sec * 2 ^ k + m < 2 ^ (53 + (k - 29)) := by
    have e1 : 53 + (k - 29) = 24 + k := by omega
    rw [e1, Nat.pow_add]
    have : (sec + 1) * 2 ^ k ≤ 2 ^ 24 * 2 ^ k := Nat.mul_le_mul_right _ h
    rw [Nat.add_mul, Nat.one_mul] at this
    omega
  have ht := float64_drop_le (sec * 2 ^ k + m) (k - 29) hN 70 0 (Nat.zero_le _)
  generalize float64_drop (sec * 2 ^ k + m) 70 0 = t at ht ⊢
  have hTpos : 0 < 2 ^ t := Nat.two_pow_pos t
  obtain ⟨hlo, hhi⟩ := round_to_even_bounds (sec * 2 ^ k + m) (2 ^ t) hTpos
  generalize round_to_even (sec * 2 ^ k + m) (2 ^ t) = M at hlo hhi ⊢
  -- `2^k = 2^t * c` with `c ≥ 2^29`
  have hkt : 2 ^ k = 2 ^ t * 2 ^ (k - t) := by rw [← Nat.pow_add]; congr 1; omega
  have hc : 2 ^ 29 ≤ 2 ^ (k - t) := Nat.pow_le_pow_right (by norm_num) (by omega)
  have hTK : 2 ^ t * 2 ^ 29 ≤ 2 ^ k := by rw [hkt]; exact Nat.mul_le_mul_left _ hc
  apply Nat.div_eq_of_lt_le
  · -- lower bound: the rounded value is at least `sec`
    have h1 : sec * 2 ^ (k - t) ≤ (sec * 2 ^ k + m) / 2 ^ t := by
      rw [Nat.le_div_iff_mul_le hTpos]
      have : sec * 2 ^ (k - t) * 2 ^ t = sec * 2 ^ k := by rw [hkt]; ring
      rw [this]
      exact Nat.le_add_right _ _
    have h2 : sec * 2 ^ (k - t) * 2 ^ t ≤ M * 2 ^ t := Nat.mul_le_mul_right _ (le_trans h1 hlo)
    have : sec * 2 ^ (k - t) * 2 ^ t = sec * 2 ^ k := by rw [hkt]; ring
    rw [this] at h2
    exact h2
  · -- upper bound: the sum does not round up to `sec + 1`
    show M * 2 ^ t < (sec + 1) * 2 ^ k
    rw [Nat.add_mul, Nat.one_mul]
    have h29 : (2 : Nat) ^ 29 = 536870912 := by norm_num
    have h53 : (2 : Nat) ^ 53 = 9007199254740992 := by norm_num
    rw [h29] at hTK
    rw [h53] at hK53
    generalize 2 ^ t = T at hTK hhi hTpos ⊢
    generalize 2 ^ k = K at hTK hhi hm hnK hmK hK53 ⊢
    generalize sec * K = sK at hhi ⊢
    generalize M * T = MT at hhi ⊢
    generalize nsec * K = nK at hm hnK
    omega

theorem Duration_Seconds_int_exact (d : Int)
    (h1 : -16777216000000000 < d) (h2 : d < 16777216000000000) :
    Duration_Seconds_int d = Int.tdiv d 1000000000 := by
  have hlt : d.natAbs / 1000000000 < 2 ^ 24 := by
    rw [Nat.div_lt_iff_lt_mul (by norm_num)]
    have h24 : (2 : Nat) ^ 24 = 16777216 := by norm_num
    rw [h24]
    omega
  unfold Duration_Seconds_int
  rw [Duration_Seconds_trunc_exact _ hlt]
  split_ifs with hd
  · obtain ⟨n, rfl⟩ := Int.eq_ofNat_of_zero_le hd
    rfl
  · obtain ⟨n, hn⟩ := Int.exists_eq_neg_ofNat (le_of_lt (not_le.mp hd))
    subst hn
    rw [Int.neg_tdiv, Int.natAbs_neg]
    rfl

theorem round_to_even_le (a b : Nat) : round_to_even a b ≤ a / b + 1 := by
  unfold round_to_even
  split_ifs <;> omega

/-- The search of `float64_shift` finds the binary exponent: when the test holds for
`k + fuel` and fails for `k - 1`, the result `r` passes the test and `r - 1` fails it. -/
theorem float64_shift_found (a b : Nat) :
    ∀ (fuel k : Nat), 2 ^ 52 * b ≤ a * 2 ^ (k + fuel) → a * 2 ^ k < 2 ^ 53 * b →
      2 ^ 52 * b ≤ a * 2 ^ float64_shift a b fuel k
      ∧ a * 2 ^ float64_shift a b fuel k < 2 ^ 53 * b := by
  intro fuel
  induction fuel with
  | zero => intro k h1 h2; exact ⟨h1, h2⟩
  | succ f ih =>
    intro k h1 h2
    unfold float64_shift
    split_ifs with h
    · exact ⟨h, h2⟩
    · apply ih (k + 1)
      · rw [show k + 1 + f = k + (f + 1) by omega]; exact h1
      · calc a * 2 ^ (k + 1) = a * 2 ^ k * 2 := by ring
          _ < 2 ^ 52 * b * 2 := Nat.mul_lt_mul_of_pos_right (Nat.lt_of_not_le h) (by norm_num)
          _ = 2 ^ 53 * b := by ring

/-- For a nanosecond part `0 < a < 10^9` the quotient `a / 10^9` lies in the binade that
`float64_shift` returns. -/
theorem float64_shift_spec (a : Nat) (h0 : 0 < a) (h1 : a < 1000000000) :
    2 ^ 52 * 1000000000 ≤ a * 2 ^ float64_shift a 1000000000 30 53
    ∧ a * 2 ^ float64_shift a 1000000000 30 53 < 2 ^ 53 * 1000000000 := by
  apply float64_shift_found
  · have : 2 ^ 52 * 1000000000 ≤ 1 * 2 ^ (53 + 30) := by norm_num
    exact le_trans this (Nat.mul_le_mul_right _ h0)
  · calc a * 2 ^ 53 < 1000000000 * 2 ^ 53 := Nat.mul_lt_mul_of_pos_right h1 (by norm_num)
      _ = 2 ^ 53 * 1000000000 := by ring

/-- The search of `float64_drop` finds the number of dropped bits: when the test holds
for `t + fuel`, the result `r` passes the test, and `r = t` or `r - 1` fails it. -/
theorem float64_drop_found (n : Nat) :
    ∀ (fuel t : Nat), n < 2 ^ (53 + (t + fuel)) →
      n < 2 ^ (53 + float64_drop n fuel t)
      ∧ (float64_drop n fuel t = t ∨ 2 ^ (52 + float64_drop n fuel t) ≤ n) := by
  intro fuel
  induction fuel with
  | zero => intro t h; exact ⟨h, Or.inl rfl⟩
  | succ f ih =>
    intro t h
    unfold float64_drop
    split_ifs with ht
    · exact ⟨ht, Or.inl rfl⟩
    · obtain ⟨h1, h2⟩ := ih (t + 1) (by rw [show t + 1 + f = t + (f + 1) by omega]; exact h)
      refine ⟨h1, Or.inr ?_⟩
      rcases h2 with h2 | h2
      · rw [h2, show 52 + (t + 1) = 53 + t by omega]
        exact Nat.le_of_not_lt ht
      · exact h2

/-- For every duration of at most `2^63` nanoseconds the integer part of `Seconds` is the
whole number of seconds or one more. -/
theorem Duration_Seconds_trunc_bounds (n : Nat) (h : n ≤ 2 ^ 63) :
    n / 1000000000 ≤ Duration_Seconds_trunc n
    ∧ Duration_Seconds_trunc n ≤ n / 1000000000 + 1 := by
  unfold Duration_Seconds_trunc
  simp only []
  split_ifs with h0
  · exact ⟨le_refl _, Nat.le_succ _⟩
  have hsecb : n / 1000000000 < 2 ^ 34 := by
    rw [Nat.div_lt_iff_lt_mul (by norm_num)]
    have h63 : (2 : Nat) ^ 63 = 9223372036854775808 := by norm_num
    have h34 : (2 : Nat) ^ 34 = 17179869184 := by norm_num
    omega
  have hns : n % 1000000000 < 1000000000 := Nat.mod_lt _ (by norm_num)
  generalize n / 1000000000 = sec at hsecb ⊢
  generalize n % 1000000000 = nsec at h0 hns ⊢
  have hk := float64_shift_ge nsec 1000000000 30 53
  generalize float64_shift nsec 1000000000 30 53 = k at hk ⊢
  obtain ⟨_, hm⟩ := round_to_even_bounds (nsec * 2 ^ k) 1000000000 (by norm_num)
  generalize round_to_even (nsec * 2 ^ k) 1000000000 = m at hm ⊢
  have hK53 : 2 ^ 53 ≤ 2 ^ k := Nat.pow_le_pow_right (by norm_num) hk
  have hnK : nsec * 2 ^ k ≤ 999999999 * 2 ^ k := Nat.mul_le_mul_right _ (by omega)
  have hmK : m < 2 ^ k := by
    have h53 : (2 : Nat) ^ 53 = 9007199254740992 := by norm_num
    omega
  have hN : sec * 2 ^ k + m < 2 ^ (53 + (k - 19)) := by
    have e1 : 53 + (k - 19) = 34 + k := by omega
    rw [e1, Nat.pow_add]
    have : (sec + 1) * 2 ^ k ≤ 2 ^ 34 * 2 ^ k := Nat.mul_le_mul_right _ hsecb
    rw [Nat.add_mul, Nat.one_mul] at this
    omega
  have ht := float64_drop_le (sec * 2 ^ k + m) (k - 19) hN 70 0 (Nat.zero_le _)
  generalize float64_drop (sec * 2 ^ k + m) 70 0 = t at ht ⊢
  have hTpos : 0 < 2 ^ t := Nat.two_pow_pos t
  obtain ⟨hlo, _⟩ := round_to_even_bounds (sec * 2 ^ k + m) (2 ^ t) hTpos
  have hup := round_to_even_le (sec * 2 ^ k + m) (2 ^ t)
  generalize round_to_even (sec * 2 ^ k + m) (2 ^ t) = M at hlo hup ⊢
  have hkt : 2 ^ k = 2 ^ t * 2 ^ (k - t) := by rw [← Nat.pow_add]; congr 1; omega
  have hsK : sec * 2 ^ (k - t) * 2 ^ t = sec * 2 ^ k := by rw [hkt]; ring
  have hKpos : 0 < 2 ^ k := Nat.two_pow_pos k
  constructor
  · rw [Nat.le_div_iff_mul_le hKpos]
    have h1 : sec * 2 ^ (k - t) ≤ (sec * 2 ^ k + m) / 2 ^ t := by
      rw [Nat.le_div_iff_mul_le hTpos, hsK]
      exact Nat.le_add_right _ _
    have h2 : sec * 2 ^ (k - t) * 2 ^ t ≤ M * 2 ^ t :=
      Nat.mul_le_mul_right _ (le_trans h1 hlo)
    rwa [hsK] at h2
  · -- the sum is below `(sec + 1) * 2^k`, a multiple of `2^t`
    have h3 : (sec * 2 ^ k + m) / 2 ^ t < (sec + 1) * 2 ^ (k - t) := by
      rw [Nat.div_lt_iff_lt_mul hTpos]
      have : (sec + 1) * 2 ^ (k - t) * 2 ^ t = (sec + 1) * 2 ^ k := by rw [hkt]; ring
      rw [this, Nat.add_mul, Nat.one_mul]
      omega
    have h4 : M * 2 ^ t ≤ (sec + 1) * 2 ^ (k - t) * 2 ^ t :=
      Nat.mul_le_mul_right _ (by omega)
    have h5 : (sec + 1) * 2 ^ (k - t) * 2 ^ t = (sec + 1) * 2 ^ k := by rw [hkt]; ring
    rw [h5] at h4
    calc M * 2 ^ t / 2 ^ k ≤ (sec + 1) * 2 ^ k / 2 ^ k := Nat.div_le_div_right h4
      _ = sec + 1 := Nat.mul_div_cancel _ hKpos

theorem clean_ips_loop_clocked_const (now : Time) (expire : Int) :
    ∀ (n k : Nat) (st : IpSweep),
      clean_ips_loop_clocked (fun _ => now) expire n k st = clean_ips_loop now expire n st := by
  intro n
  induction n with
  | zero => intro k st; rfl
  | succ i ih =>
    intro k st
    unfold clean_ips_loop_clocked clean_ips_loop
    cases st.ips[i]? with
    | none => rfl
    | some entry =>
      simp only []
      split_ifs <;> exact ih _ _

theorem clean_subnets_loop_clocked_const (o : Ipac) (now : Time) (expire : Int) :
    ∀ (n k : Nat) (st : SubnetSweep),
      (clean_subnets_loop_clocked o (fun _ => now) expire n k st).map Prod.snd
        = clean_subnets_loop o now expire n st := by
  intro n
  induction n with
  | zero => intro k st; rfl
  | succ i ih =>
    intro k st
    unfold clean_subnets_loop_clocked clean_subnets_loop
    cases st.subnets[i]? with
    | none => rfl
    | some s =>
      simp only []
      split_ifs <;> exact ih _ _

theorem clean_notify_clocked_const (o : Ipac) (now : Time) (k : Nat) :
    clean_notify_clocked o (fun _ => now) k = clean_notify o now := rfl

/-- A tick in which every reading of the clock gives the same instant is `clean`. -/
theorem clean_clocked_const (o : Ipac) (now : Time) :
    clean_clocked o (fun _ => now) = clean o now := by
  unfold clean_clocked clean
  simp only [clean_ips_loop_clocked_const]
  split_ifs
  · rfl
  · cases clean_ips_loop now (expire_older_than o now) o.Ips.length
        { ips := o.Ips, events := [], ctotal := 0, cblocked := 0, cwarn := 0 } with
    | none => rfl
    | some a =>
      simp only []
      have h := clean_subnets_loop_clocked_const
        { o with
          Ips := a.ips, TotalCount := a.ctotal, BlockedCount := a.cblocked,
          WarnCount := a.cwarn, LastCleanup := now }
        now (expire_older_than o now) o.Ipv6Subnets.length (o.Ips.length + 2)
        { subnets := o.Ipv6Subnets, events := a.events, cblocked_subnet := 0 }
      revert h
      cases clean_subnets_loop_clocked _ (fun _ => now) (expire_older_than o now)
        o.Ipv6Subnets.length (o.Ips.length + 2)
        { subnets := o.Ipv6Subnets, events := a.events, cblocked_subnet := 0 } with
      | none => intro h; rw [← h]; rfl
      | some b => intro h; rw [← h]; rfl

theorem clean_ips_loop_clocked_spec (clock : Clock) (expire : Int) (pre : List Ip) :
    ∀ (k : Nat) (suf : List Ip) (ev : List Event) (ct cb cw : Int),
    clean_ips_loop_clocked clock expire pre.length k
        { ips := pre ++ suf, events := ev, ctotal := ct, cblocked := cb, cwarn := cw }
      = some
        { ips := (((pre.reverse.enumFrom k).filter
            (fun p => decide (age_of_ip (clock p.1) p.2 ≤ expire))).map Prod.snd).reverse ++ suf,
          events := ev ++ ((pre.reverse.enumFrom k).filter
            (fun p => !decide (age_of_ip (clock p.1) p.2 ≤ expire) && p.2.Blocked)).map
              (fun p => modify_ip_block_os false p.2),
          ctotal := ct + ((((pre.reverse.enumFrom k).filter
            (fun p => decide (age_of_ip (clock p.1) p.2 ≤ expire))).map Prod.snd).length : Int),
          cblocked := cb + (((((pre.reverse.enumFrom k).filter
            (fun p => decide (age_of_ip (clock p.1) p.2 ≤ expire))).map Prod.snd).filter
              (fun e => e.Blocked)).length : Int),
          cwarn := cw + (((((pre.reverse.enumFrom k).filter
            (fun p => decide (age_of_ip (clock p.1) p.2 ≤ expire))).map Prod.snd).filter
              (fun e => e.Warn)).length : Int) } := by
  induction pre using List.reverseRecOn with
  | nil => intro k suf ev ct cb cw; simp [clean_ips_loop_clocked]
  | append_singleton init x ih =>
    intro k suf ev ct cb cw
    have hget : (init ++ [x] ++ suf)[init.length]? = some x := by
      rw [List.append_assoc, List.getElem?_append_right (le_refl _)]
      simp
    have hrev : (init ++ [x]).reverse.enumFrom k = (k, x) :: init.reverse.enumFrom (k + 1) := by
      rw [List.reverse_append, List.reverse_singleton, List.singleton_append, List.enumFrom_cons]
    rw [List.length_append, List.length_singleton, hrev]
    unfold clean_ips_loop_clocked
    simp only [hget]
    by_cases hage : age_of_ip (clock k) x > expire
    · have hk : decide (age_of_ip (clock k) x ≤ expire) = false := by
        simp; omega
      have herase : (init ++ [x] ++ suf).eraseIdx init.length = init ++ suf := by
        rw [List.append_assoc, List.eraseIdx_append_of_length_le (le_refl _)]
        simp
      rw [if_pos hage]
      simp only [herase]
      rw [ih]
      cases hb : x.Blocked <;>
        simp [List.filter_cons, hk, hb]
    · have hk : decide (age_of_ip (clock k) x ≤ expire) = true := by
        simp; omega
      rw [if_neg hage]
      have happ : init ++ [x] ++ suf = init ++ (x :: suf) := by simp
      simp only [happ]
      rw [ih]
      cases hb : x.Blocked <;> cases hw : x.Warn <;>
        simp [List.filter_cons, hk, hb, hw] <;> omega

theorem clean_subnets_loop_clocked_total (o : Ipac) (clock : Clock) (expire : Int) :
    ∀ (n k : Nat) (st : SubnetSweep), n ≤ st.subnets.length →
      ∃ r, clean_subnets_loop_clocked o clock expire n k st = some r
        ∧ r.2.events.filter is_ip_hook = st.events.filter is_ip_hook := by
  intro n
  induction n with
  | zero => intro k st _; exact ⟨(k, st), rfl, rfl⟩
  | succ i ih =>
    intro k st hle
    have hi : i < st.subnets.length := hle
    unfold clean_subnets_loop_clocked
    simp only [List.getElem?_eq_getElem hi]
    split_ifs
    · obtain ⟨r, h1, h2⟩ := ih (k + 1)
        { st with
          events := st.events ++ [ipv6_modify_subnet_block_os false st.subnets[i].Group],
          subnets := st.subnets.eraseIdx i }
        (by simp only [List.length_eraseIdx, hi, if_true]; omega)
      refine ⟨r, h1, ?_⟩
      rw [h2]
      simp [List.filter_append, ipv6_modify_subnet_block_os, is_ip_hook]
    · exact ih (k + 1) { st with cblocked_subnet := st.cblocked_subnet + 1 } (Nat.le_of_lt hi)
    · obtain ⟨r, h1, h2⟩ := ih (k + 1)
        { subnets := st.subnets.set i { st.subnets[i] with BlockedTs := clock k },
          events := st.events ++ breach_events o st.subnets[i],
          cblocked_subnet := st.cblocked_subnet + 1 }
        (by simp only [List.length_set]; omega)
      refine ⟨r, h1, ?_⟩
      rw [h2]
      simp only [List.filter_append, breach_events_no_ip_hook, List.append_nil]
    · exact ih k st (Nat.le_of_lt hi)

theorem flush_absurd_ips_clocked_keeps (o : Ipac) (clock : Clock) (k : Nat) :
    (flush_absurd_ips_clocked o clock k).1.Ips = o.Ips
    ∧ (flush_absurd_ips_clocked o clock k).1.TotalCount = o.TotalCount
    ∧ (flush_absurd_ips_clocked o clock k).1.BlockedCount = o.BlockedCount
    ∧ (flush_absurd_ips_clocked o clock k).1.WarnCount = o.WarnCount
    ∧ (flush_absurd_ips_clocked o clock k).2.filter is_ip_hook = [] := by
  unfold flush_absurd_ips_clocked
  split_ifs <;> simp [is_ip_hook]

theorem clean_notify_clocked_keeps (o : Ipac) (clock : Clock) (k : Nat) :
    (clean_notify_clocked o clock k).1.Ips = o.Ips
    ∧ (clean_notify_clocked o clock k).1.TotalCount = o.TotalCount
    ∧ (clean_notify_clocked o clock k).1.BlockedCount = o.BlockedCount
    ∧ (clean_notify_clocked o clock k).1.WarnCount = o.WarnCount
    ∧ (clean_notify_clocked o clock k).2.filter is_ip_hook = [] := by
  obtain ⟨a1, a2, a3, a4, a5⟩ := flush_blocked_ips_keeps o
  obtain ⟨b1, b2, b3, b4, b5⟩ := flush_absurd_ips_clocked_keeps (flush_blocked_ips o).1 clock k
  unfold clean_notify_clocked
  split_ifs
  · refine ⟨b1.trans a1, b2.trans a2, b3.trans a3, b4.trans a4, ?_⟩
    simp only [List.filter_append, a5, b5, List.append_nil]
  · exact ⟨rfl, rfl, rfl, rfl, rfl⟩

theorem filter_ip_hook_map_snd (l : List (Nat × Ip)) :
    (l.map (fun p => modify_ip_block_os false p.2)).filter is_ip_hook
      = l.map (fun p => modify_ip_block_os false p.2) := by
  rw [List.filter_eq_self]
  intro e he
  obtain ⟨p, _, rfl⟩ := List.mem_map.mp he
  rfl

theorem age_at_most_expire_eq (o : Ipac) (clock : Clock) :
    age_at_most_expire o clock
      = fun p => decide (age_of_ip (clock p.1) p.2 ≤ expire_older_than o (clock 0)) := rfl

/-- In the range of an `int` nothing is lost by `Sub`, and below `2^24` seconds nothing
by `Seconds`: the test is then a comparison of whole seconds. -/
theorem age_at_most_expire_iff (o : Ipac) (clock : Clock) (p : Nat × Ip)
    (ha1 : -16777216000000000 < clock p.1 - p.2.OriginalAccess)
    (ha2 : clock p.1 - p.2.OriginalAccess < 16777216000000000)
    (hc1 : -16777216000000000 < clock 0 - o.LastCleanup)
    (hc2 : clock 0 - o.LastCleanup < 16777216000000000)
    (hb1 : -4611686018427387904 ≤ o.BlockForSeconds)
    (hb2 : o.BlockForSeconds ≤ 4611686018427387904) :
    age_at_most_expire o clock p = true
      ↔ Int.tdiv (clock p.1 - p.2.OriginalAccess) 1000000000
          ≤ o.BlockForSeconds - Int.tdiv (clock 0 - o.LastCleanup) 1000000000 := by
  have hsub : ∀ x : Int, -16777216000000000 < x → x < 16777216000000000 →
      max minInt64 (min maxInt64 x) = x := by
    intro x h1 h2
    unfold minInt64 maxInt64
    omega
  have hq : ∀ x : Int, -16777216000000000 < x → x < 16777216000000000 →
      -16777216 ≤ Int.tdiv x 1000000000 ∧ Int.tdiv x 1000000000 ≤ 16777216 := by
    intro x h1 h2
    rcases le_or_lt 0 x with hx | hx
    · rw [Int.tdiv_eq_ediv hx (by norm_num)]
      omega
    · have hneg : x = -(-x) := by omega
      rw [hneg, Int.neg_tdiv, Int.tdiv_eq_ediv (by omega) (by norm_num)]
      omega
  unfold age_at_most_expire Time_Sub
  rw [hsub _ ha1 ha2, hsub _ hc1 hc2, Duration_Seconds_int_exact _ ha1 ha2,
    Duration_Seconds_int_exact _ hc1 hc2]
  obtain ⟨q1, q2⟩ := hq _ hc1 hc2
  rw [wrap64_of_range _ (by unfold minInt64; omega) (by unfold maxInt64; omega)]
  exact decide_eq_true_iff

/-! ## Claim C1 -/

/-- Claim C1, as amended: for a non-empty address with no record, `NeverBlock` false, no
purge pending, `B = BlockAfterNewConnections` positive (and a Go `int`),
`BlockAfterUnauthedAttempts` positive, and an address on which the group ranking does
not fail when it contains a colon: of `B + 1` consecutive `TestIpAllowed` calls (at any
instants) the first `B` each return `true` and call number `B + 1` returns `false`.
The first call only creates the record, with a count of zero. -/
theorem fresh_address_blocked_after_threshold (o : Ipac) (addr : GoString) (nows : List Time)
    (hne : addr ≠ []) (hnew : ∀ e ∈ o.Ips, e.Addr ≠ addr)
    (hN : o.NeverBlock = false) (hP : o.Purge = false)
    (hB : 0 < o.BlockAfterNewConnections) (hBmax : o.BlockAfterNewConnections ≤ maxInt64)
    (hBA : 0 < o.BlockAfterUnauthedAttempts)
    (h6 : strings_Index addr ':' ≠ -1 → (ipv6_get_ranked_groups o addr).isSome = true)
    (hlen : (nows.length : Int) = o.BlockAfterNewConnections + 1) :
    (TestIpAllowed_calls o addr nows).2
      = List.replicate o.BlockAfterNewConnections.toNat (Completion.returned true)
          ++ [Completion.returned false] := by
  have hnil : nows ≠ [] := by
    intro h; rw [h] at hlen; simp at hlen; omega
  obtain ⟨first, last, rfl⟩ : ∃ first last, nows = first ++ [last] :=
    ⟨nows.dropLast, nows.getLast hnil, (List.dropLast_append_getLast hnil).symm⟩
  simp only [List.length_append, List.length_singleton, Nat.cast_add, Nat.cast_one] at hlen
  have hfl : (first.length : Int) = o.BlockAfterNewConnections := by omega
  have hfn : first ≠ [] := by
    intro h; rw [h] at hfl; simp at hfl; omega
  obtain ⟨r1, r2, r3⟩ := fresh_calls o addr first hne hnew hN hP hBmax hBA (by omega)
  have hc := r3 hfn
  have hB1 : (TestIpAllowed_calls o addr first).1.BlockAfterNewConnections
      = o.BlockAfterNewConnections := r2.2.2.2.2.2.2.1
  have hlast := counting_block (TestIpAllowed_calls o addr first).1 last addr
    ((first.length : Int) - 1) hc (by omega) (by rw [hB1]; omega) (by rw [hB1]; exact hBmax)
    (by rw [ipv6_get_ranked_groups_congr o _ addr r2.2.2.1]; exact h6)
  rw [TestIpAllowed_calls_append, r1]
  have htn : o.BlockAfterNewConnections.toNat = first.length := by omega
  rw [htn]
  simp only [TestIpAllowed_calls]
  rw [hlast]

/-- Claim C1, witness of the amended claim: the default engine (`B = 600`) and the
address 127.0.0.1; 600 calls return `true` and call number 601 returns `false`. -/
theorem fresh_address_blocked_after_threshold_witness :
    (TestIpAllowed_calls example_engine example_addr (List.replicate 601 0)).2
      = List.replicate 600 (Completion.returned true) ++ [Completion.returned false] :=
  fresh_address_blocked_after_threshold example_engine example_addr (List.replicate 601 0)
    (by decide) (by intro e he; cases he) (by decide) (by decide) (by decide) (by decide)
    (by decide) (by decide) (by rw [List.length_replicate]; decide)

/-- Claim C1, counterexample to the claim as stated: on the default engine
(`B = 600`) the first 600 calls for the fresh address 127.0.0.1 all return `true`;
call number 600 does not return `false`. -/
theorem call_number_600_is_allowed :
    (TestIpAllowed_calls example_engine example_addr (List.replicate 600 0)).2
        = List.replicate 600 (Completion.returned true)
    ∧ (TestIpAllowed_calls example_engine example_addr (List.replicate 600 0)).2
        ≠ List.replicate 599 (Completion.returned true) ++ [Completion.returned false] := by
  have h := (fresh_calls example_engine example_addr (List.replicate 600 0)
    (by decide) (by intro e he; cases he) (by decide) (by decide) (by decide) (by decide)
    (by rw [List.length_replicate]; decide)).1
  rw [List.length_replicate] at h
  refine ⟨h, ?_⟩
  rw [h, show (600 : Nat) = 599 + 1 from rfl, List.replicate_succ']
  intro hcon
  have := List.append_cancel_left hcon
  simp at this

/-! ## Claim C2 -/

/-- Claim C2, the code at the failing input: the record of 127.0.0.1 is blocked with
600 counted connections (`B = 600`).  After `ModifyAuth("valid_login")` the stored
record is not blocked, yet the next `TestIpAllowed` blocks it again and returns
`false`, because the counters are still at the threshold. -/
theorem valid_login_then_blocked_again :
    (IpDetails (ModifyAuth example_blocked_engine 9 ev_valid_login example_addr).o
        example_addr).Blocked = false
    ∧ (TestIpAllowed (ModifyAuth example_blocked_engine 9 ev_valid_login example_addr).o 10
        example_addr).result = Completion.returned false := by
  decide

/-! ## Claim C3 -/

/-- Calls that run alone, with no step of another call between read and write-back: a
`TestIpAllowed` call, and a `ModifyAuth` call with event `logout` or `invalid_login`,
keep every record at its place with its `Addr` and do not turn its `Blocked` or `Warn`
from true to false; and `TestIpAllowed(addr)` returns `false` when the record of
`addr` is blocked and `NeverBlock` is false. -/
theorem call_alone_keeps_flags (o : Ipac) (now : Time) (authed addr : GoString) :
    flags_kept o.Ips (TestIpAllowed o now addr).o.Ips = true
    ∧ ((authed = ev_logout ∨ authed = ev_invalid_login) →
        flags_kept o.Ips (ModifyAuth o now authed addr).o.Ips = true)
    ∧ (o.NeverBlock = false → (IpDetails o addr).Blocked = true →
        (TestIpAllowed o now addr).result = Completion.returned false) :=
  ⟨TestIpAllowed_flags_kept o now addr, ModifyAuth_flags_kept o now authed addr,
    TestIpAllowed_blocked o now addr⟩

/-- The lemma above on an engine whose record of 127.0.0.1 is blocked and warned. -/
theorem call_alone_keeps_flags_example :
    flags_kept example_blocked_engine.Ips
        (TestIpAllowed example_blocked_engine 9 example_addr).o.Ips = true
    ∧ flags_kept example_blocked_engine.Ips
        (ModifyAuth example_blocked_engine 9 ev_logout example_addr).o.Ips = true
    ∧ (TestIpAllowed example_blocked_engine 9 example_addr).result = Completion.returned false :=
  ⟨(call_alone_keeps_flags example_blocked_engine 9 ev_logout example_addr).1,
   (call_alone_keeps_flags example_blocked_engine 9 ev_logout example_addr).2.1
      (Or.inl rfl),
   (call_alone_keeps_flags example_blocked_engine 9 ev_logout example_addr).2.2
      (by decide) (by decide)⟩

/-- Claim C3, the code at the failing input.  Three `TestIpAllowed` calls on an address
with 598 counted connections: caller 0 reads the record, callers 1 and 2 each read and
write back, which brings the count to 600 and blocks the record; then caller 0 writes
back the copy it read, with the count 599 and `Blocked` false.  The record goes from
blocked to not blocked, and caller 0 is answered `true` although the record was
blocked when its write-back began. -/
theorem stale_write_back_unblocks :
    (IpDetails (run_interleaving example_near_block_engine example_addr example_stale_steps)
        example_addr).Blocked = true
    ∧ (IpDetails (run_interleaving example_near_block_engine example_addr example_stale_steps)
        example_addr).UnauthedNewConnections = 600
    ∧ (TestIpAllowed_finish
        (run_interleaving example_near_block_engine example_addr example_stale_steps) 10
        example_addr (IpDetails example_near_block_engine example_addr)).result
      = Completion.returned true
    ∧ (IpDetails (run_interleaving example_near_block_engine example_addr
        (example_stale_steps ++ [LockStep.write 0 10])) example_addr).Blocked = false
    ∧ (IpDetails (run_interleaving example_near_block_engine example_addr
        (example_stale_steps ++ [LockStep.write 0 10])) example_addr).UnauthedNewConnections = 599
    ∧ flags_kept
        (run_interleaving example_near_block_engine example_addr example_stale_steps).Ips
        (run_interleaving example_near_block_engine example_addr
          (example_stale_steps ++ [LockStep.write 0 10])).Ips = false := by
  decide

/-! ## Claim C4 -/

/-- Claim C4: for an address that has a record, with `NeverBlock` false and no purge
pending, `ModifyAuth("valid_login", addr)` returns and afterwards `IpDetails(addr)` is
the record of `addr` with `Blocked = false`, `Warn = false` and `Authed = true`. -/
theorem valid_login_resets_record (o : Ipac) (now : Time) (addr : GoString)
    (hN : o.NeverBlock = false) (hP : o.Purge = false) (hrec : ∃ e ∈ o.Ips, e.Addr = addr) :
    (ModifyAuth o now ev_valid_login addr).result = Completion.returned ()
    ∧ (IpDetails (ModifyAuth o now ev_valid_login addr).o addr).Addr = addr
    ∧ (IpDetails (ModifyAuth o now ev_valid_login addr).o addr).Blocked = false
    ∧ (IpDetails (ModifyAuth o now ev_valid_login addr).o addr).Warn = false
    ∧ (IpDetails (ModifyAuth o now ev_valid_login addr).o addr).Authed = true := by
  have hne : ev_valid_login ≠ ev_invalid_login := by decide
  have hae : auth_entry (IpDetails o addr) ev_valid_login
      = some { IpDetails o addr with Blocked := false, Warn := false, Authed := true } := by
    unfold auth_entry
    rw [if_neg (fun h => hne h.2), if_pos rfl]
  have hrun : ModifyAuth o now ev_valid_login addr
      = store_auth o now addr
          { IpDetails o addr with Blocked := false, Warn := false, Authed := true } := by
    rw [ModifyAuth_active o now ev_valid_login addr hN hP, hae]
  have hA := IpDetails_Addr_of_mem o addr hrec
  have hd : IpDetails (ModifyAuth o now ev_valid_login addr).o addr
      = { IpDetails o addr with Blocked := false, Warn := false, Authed := true, LastAuth := now } := by
    rw [hrun]
    exact IpDetails_update o addr _ hrec hA
  rw [hd, hrun]
  exact ⟨rfl, hA, rfl, rfl, rfl⟩

/-- Claim C4, witness: an engine whose record of 127.0.0.1 is blocked and warned. -/
theorem valid_login_resets_record_witness :
    (ModifyAuth example_blocked_engine 9 ev_valid_login example_addr).result
      = Completion.returned ()
    ∧ (IpDetails (ModifyAuth example_blocked_engine 9 ev_valid_login example_addr).o
        example_addr).Addr = example_addr
    ∧ (IpDetails (ModifyAuth example_blocked_engine 9 ev_valid_login example_addr).o
        example_addr).Blocked = false
    ∧ (IpDetails (ModifyAuth example_blocked_engine 9 ev_valid_login example_addr).o
        example_addr).Warn = false
    ∧ (IpDetails (ModifyAuth example_blocked_engine 9 ev_valid_login example_addr).o
        example_addr).Authed = true :=
  valid_login_resets_record example_blocked_engine 9 example_addr (by decide) (by decide)
    ⟨_, List.mem_singleton.mpr rfl, rfl⟩

/-! ## Claim C5 -/

/-- Claim C5: when `NeverBlock` is true, `TestIpAllowed` returns `true`, `ModifyAuth`
returns for every event string, and both leave the whole engine state unchanged and
make no call to the operating system or the notification closure. -/
theorem never_block_changes_nothing (o : Ipac) (now : Time) (authed addr : GoString)
    (hN : o.NeverBlock = true) :
    TestIpAllowed o now addr = { o := o, events := [], result := Completion.returned true }
    ∧ ModifyAuth o now authed addr = { o := o, events := [], result := Completion.returned () } :=
  ⟨TestIpAllowed_never o now addr hN, ModifyAuth_idle o now authed addr (Or.inr hN)⟩

/-- Claim C5, witness: an engine with `NeverBlock` set, a blocked record, and an
event string that is not one of the three valid ones. -/
theorem never_block_changes_nothing_witness :
    TestIpAllowed example_never_block_engine 9 example_addr
        = { o := example_never_block_engine, events := [], result := Completion.returned true }
    ∧ ModifyAuth example_never_block_engine 9 "login".toList example_addr
        = { o := example_never_block_engine, events := [], result := Completion.returned () } :=
  never_block_changes_nothing example_never_block_engine 9 "login".toList example_addr
    (by decide)

/-! ## Claim C6 -/

/-- Claim C6, the code at the failing input: on the default engine with an empty
record store, `ModifyAuth` with `valid_login`, `invalid_login` or `logout` for
127.0.0.1 leaves the store empty; afterwards `IpDetails` gives the zero record
(`Authed = false`, `UnauthedAttempts = 0`). -/
theorem modify_auth_creates_no_record :
    (ModifyAuth example_engine 1 ev_valid_login example_addr).o.Ips = []
    ∧ (IpDetails (ModifyAuth example_engine 1 ev_valid_login example_addr).o example_addr).Authed
        = false
    ∧ (ModifyAuth example_engine 1 ev_invalid_login example_addr).o.Ips = []
    ∧ (IpDetails (ModifyAuth example_engine 1 ev_invalid_login example_addr).o
        example_addr).UnauthedAttempts = 0
    ∧ (ModifyAuth example_engine 1 ev_logout example_addr).o.Ips = [] := by
  decide

/-! ## Claim C7 -/

/-- Claim C7, as amended: with `NeverBlock` false and no purge pending, an event
string other than `logout`, `invalid_login` and `valid_login` makes `ModifyAuth` print
its usage text and end the process with `os.Exit(1)`, the engine state unchanged; with
one of the three valid event strings `ModifyAuth` returns. -/
theorem modify_auth_event_check (o : Ipac) (now : Time) (authed addr : GoString)
    (hN : o.NeverBlock = false) (hP : o.Purge = false) :
    ((authed ≠ ev_logout ∧ authed ≠ ev_invalid_login ∧ authed ≠ ev_valid_login) →
      ModifyAuth o now authed addr
        = { o := o, events := [Event.println invalid_authed_text],
            result := Completion.exited 1 })
    ∧ ((authed = ev_logout ∨ authed = ev_invalid_login ∨ authed = ev_valid_login) →
      (ModifyAuth o now authed addr).result = Completion.returned ()) := by
  rw [ModifyAuth_active o now authed addr hN hP]
  constructor
  · rintro ⟨h1, h2, h3⟩
    have : auth_entry (IpDetails o addr) authed = none := by
      unfold auth_entry
      rw [if_neg (fun h => h2 h.2), if_neg h3, if_neg h2, if_neg h1]
    rw [this]
  · intro h
    have : ∃ e, auth_entry (IpDetails o addr) authed = some e := by
      unfold auth_entry
      split_ifs with a b c d
      · exact ⟨_, rfl⟩
      · exact ⟨_, rfl⟩
      · exact ⟨_, rfl⟩
      · exact ⟨_, rfl⟩
      · rcases h with h | h | h <;> contradiction
    obtain ⟨e, he⟩ := this
    rw [he]
    rfl

/-- Claim C7, witness of the amended claim: the event strings `login` and `logout` on
the default engine. -/
theorem modify_auth_event_check_witness :
    ModifyAuth example_engine 1 "login".toList example_addr
        = { o := example_engine, events := [Event.println invalid_authed_text],
            result := Completion.exited 1 }
    ∧ (ModifyAuth example_engine 1 ev_logout example_addr).result = Completion.returned () :=
  ⟨(modify_auth_event_check example_engine 1 "login".toList example_addr (by decide)
      (by decide)).1 (by decide),
   (modify_auth_event_check example_engine 1 ev_logout example_addr (by decide)
      (by decide)).2 (Or.inl rfl)⟩

/-- Claim C7, counterexample to the claim as stated: for the event string `login` the
call ends the process with exit code 1; the caller gets no recoverable error. -/
theorem unknown_event_ends_process :
    (ModifyAuth example_engine 1 "login".toList example_addr).result = Completion.exited 1
    ∧ (ModifyAuth example_engine 1 "login".toList example_addr).result.recoverable = false := by
  decide

/-! ## Claim C8 -/

/-- Claim C9: with `BlockIpv6SubnetsGroupDepth = 4`, for an address written as 8
colon-separated groups of 4 hex digits, `ipv6_get_ranked_groups` returns exactly the
four strings made of the first 4, 5, 6 and 7 groups, colon-joined, in this order. -/
theorem ranked_groups_of_full_address (o : Ipac) (gs : List GoString)
    (hd : o.BlockIpv6SubnetsGroupDepth = 4) (hlen : gs.length = 8)
    (hg : ∀ g ∈ gs, g.length = 4 ∧ ∀ c ∈ g, is_hex_digit c = true) :
    ipv6_get_ranked_groups o (join_groups gs)
      = some [join_groups (gs.take 4), join_groups (gs.take 5), join_groups (gs.take 6),
              join_groups (gs.take 7)] := by
  have hne : gs ≠ [] := by intro h; rw [h] at hlen; cases hlen
  have hg2 : ∀ g ∈ gs, g.length = 4 ∧ ':' ∉ g :=
    fun g h => ⟨(hg g h).1, hex_digit_not_colon g (hg g h).2⟩
  have hg3 : ∀ n, ∀ g ∈ gs.take n, g ≠ [] ∧ ':' ∉ g := by
    intro n g h
    have hm := hg2 g (List.mem_of_mem_take h)
    refine ⟨?_, hm.2⟩
    intro hc; rw [hc] at hm; cases hm.1
  have hstr : ∀ n, 0 < n → n ≤ 8 →
      (ranked_group_string gs n).map (fun pfx => strings_TrimRight pfx [':'])
        = some (join_groups (gs.take n)) := by
    intro n h0 h8
    have hl : (gs.take n).length = n := by rw [List.length_take]; omega
    have hn : gs.take n ≠ [] := by
      intro hc; rw [hc] at hl; simp at hl; omega
    rw [ranked_group_string_of_le gs n (by omega)]
    simp only [Option.map_some']
    rw [trim_flatten_colon (gs.take n) hn (hg3 n)]
  unfold ipv6_get_ranked_groups
  simp only []
  rw [canonical_groups_full gs hne hg2, hd]
  have h4 : (wrap64 (8 - 4)).toNat = 4 := by decide
  rw [h4, mapM_pointwise _ (fun g => join_groups (gs.take (4 + g)))]
  · rfl
  · intro g hg4
    have hlt : g < 4 := List.mem_range.mp hg4
    have hw : (wrap64 (wrap64 (8 - 4) + (g : Int))).toNat = 4 + g := by
      have h44 : wrap64 (8 - 4) = 4 := by decide
      rw [h44, wrap64_of_range _ (by unfold minInt64; omega) (by unfold maxInt64; omega)]
      omega
    rw [hw]
    exact hstr (4 + g) (by omega) (by omega)

/-- Claim C9, witness: the address 2001:0db8:0000:0000:0000:ff00:0042:8329. -/
theorem ranked_groups_of_full_address_witness :
    ipv6_get_ranked_groups example_engine "2001:0db8:0000:0000:0000:ff00:0042:8329".toList
      = some ["2001:0db8:0000:0000".toList, "2001:0db8:0000:0000:0000".toList,
              "2001:0db8:0000:0000:0000:ff00".toList,
              "2001:0db8:0000:0000:0000:ff00:0042".toList] :=
  ranked_groups_of_full_address example_engine example_groups (by decide) (by decide) (by decide)

/-! ## Claim C10 -/

/-- Claim C10: in a cleanup tick with no purge pending the tick returns.  Each record
is examined once, last record first, at its own reading of the clock: pair the record
examined as number `j` with the reading number `j`.  The record list afterwards is
the list of the records whose age at their reading is at most `expireOlderThan`
(`BlockForSeconds` less the seconds between `LastCleanup` and the reading number 0),
unmodified and in their original order; the calls of `modify_ip_block_os` made by the
tick are exactly one unblock call for each removed record that was blocked, in the
order of the sweep; and `TotalCount`, `BlockedCount` and `WarnCount` are the numbers
of surviving, surviving blocked and surviving warned records.  For times less than
`2^24` seconds apart the test compares whole seconds: `(t - OriginalAccess) / 10^9`
with `BlockForSeconds - (t0 - LastCleanup) / 10^9`. -/
theorem clean_sweeps_records (o : Ipac) (clock : Clock) (hP : o.Purge = false) :
    (clean_clocked o clock).result = Completion.returned ()
    ∧ (clean_clocked o clock).o.Ips
        = (((o.Ips.reverse.enumFrom 1).filter (age_at_most_expire o clock)).map Prod.snd).reverse
    ∧ List.Sublist (clean_clocked o clock).o.Ips o.Ips
    ∧ (clean_clocked o clock).events.filter is_ip_hook
        = ((o.Ips.reverse.enumFrom 1).filter
            (fun p => !age_at_most_expire o clock p && p.2.Blocked)).map
              (fun p => modify_ip_block_os false p.2)
    ∧ (clean_clocked o clock).o.TotalCount = ((clean_clocked o clock).o.Ips.length : Int)
    ∧ (clean_clocked o clock).o.BlockedCount
        = (((clean_clocked o clock).o.Ips.filter (fun e => e.Blocked)).length : Int)
    ∧ (clean_clocked o clock).o.WarnCount
        = (((clean_clocked o clock).o.Ips.filter (fun e => e.Warn)).length : Int)
    ∧ (∀ p : Nat × Ip,
        -16777216000000000 < clock p.1 - p.2.OriginalAccess →
        clock p.1 - p.2.OriginalAccess < 16777216000000000 →
        -16777216000000000 < clock 0 - o.LastCleanup →
        clock 0 - o.LastCleanup < 16777216000000000 →
        -4611686018427387904 ≤ o.BlockForSeconds →
        o.BlockForSeconds ≤ 4611686018427387904 →
        (age_at_most_expire o clock p = true
          ↔ Int.tdiv (clock p.1 - p.2.OriginalAccess) 1000000000
              ≤ o.BlockForSeconds - Int.tdiv (clock 0 - o.LastCleanup) 1000000000)) := by
  have hloop := clean_ips_loop_clocked_spec clock (expire_older_than o (clock 0)) o.Ips 1 [] [] 0 0 0
  simp only [List.append_nil, List.nil_append, zero_add] at hloop
  have hK : (fun p : Nat × Ip =>
      decide (age_of_ip (clock p.1) p.2 ≤ expire_older_than o (clock 0)))
      = age_at_most_expire o clock := rfl
  have hK2 : (fun p : Nat × Ip =>
      !decide (age_of_ip (clock p.1) p.2 ≤ expire_older_than o (clock 0)) && p.2.Blocked)
      = (fun p => !age_at_most_expire o clock p && p.2.Blocked) := rfl
  rw [hK, hK2] at hloop
  have hres : ∃ b n, clean_clocked o clock
      = { o := n, events := b, result := Completion.returned () }
      ∧ n.Ips = (((o.Ips.reverse.enumFrom 1).filter
          (age_at_most_expire o clock)).map Prod.snd).reverse
      ∧ n.TotalCount = ((((o.Ips.reverse.enumFrom 1).filter
          (age_at_most_expire o clock)).map Prod.snd).length : Int)
      ∧ n.BlockedCount = (((((o.Ips.reverse.enumFrom 1).filter
          (age_at_most_expire o clock)).map Prod.snd).filter (fun e => e.Blocked)).length : Int)
      ∧ n.WarnCount = (((((o.Ips.reverse.enumFrom 1).filter
          (age_at_most_expire o clock)).map Prod.snd).filter (fun e => e.Warn)).length : Int)
      ∧ b.filter is_ip_hook = ((o.Ips.reverse.enumFrom 1).filter
          (fun p => !age_at_most_expire o clock p && p.2.Blocked)).map
            (fun p => modify_ip_block_os false p.2) := by
    unfold clean_clocked
    simp only []
    rw [if_neg (by simp [hP]), hloop]
    simp only []
    obtain ⟨r, hr, hev⟩ := clean_subnets_loop_clocked_total
      { o with
        Ips := (((o.Ips.reverse.enumFrom 1).filter
          (age_at_most_expire o clock)).map Prod.snd).reverse,
        TotalCount := ((((o.Ips.reverse.enumFrom 1).filter
          (age_at_most_expire o clock)).map Prod.snd).length : Int),
        BlockedCount := (((((o.Ips.reverse.enumFrom 1).filter
          (age_at_most_expire o clock)).map Prod.snd).filter (fun e => e.Blocked)).length : Int),
        WarnCount := (((((o.Ips.reverse.enumFrom 1).filter
          (age_at_most_expire o clock)).map Prod.snd).filter (fun e => e.Warn)).length : Int),
        LastCleanup := clock (o.Ips.length + 1) }
      clock (expire_older_than o (clock 0)) o.Ipv6Subnets.length (o.Ips.length + 2)
      { subnets := o.Ipv6Subnets,
        events := ((o.Ips.reverse.enumFrom 1).filter
          (fun p => !age_at_most_expire o clock p && p.2.Blocked)).map
            (fun p => modify_ip_block_os false p.2),
        cblocked_subnet := 0 }
      (le_refl _)
    rw [hr]
    simp only []
    obtain ⟨k1, k2, k3, k4, k5⟩ := clean_notify_clocked_keeps
      { o with
        Ips := (((o.Ips.reverse.enumFrom 1).filter
          (age_at_most_expire o clock)).map Prod.snd).reverse,
        TotalCount := ((((o.Ips.reverse.enumFrom 1).filter
          (age_at_most_expire o clock)).map Prod.snd).length : Int),
        BlockedCount := (((((o.Ips.reverse.enumFrom 1).filter
          (age_at_most_expire o clock)).map Prod.snd).filter (fun e => e.Blocked)).length : Int),
        WarnCount := (((((o.Ips.reverse.enumFrom 1).filter
          (age_at_most_expire o clock)).map Prod.snd).filter (fun e => e.Warn)).length : Int),
        LastCleanup := clock (o.Ips.length + 1),
        Ipv6Subnets := r.2.subnets, BlockedSubnetCount := r.2.cblocked_subnet } clock r.1
    refine ⟨_, _, rfl, k1, k2, k3, k4, ?_⟩
    rw [List.filter_append, k5, hev, List.append_nil]
    exact filter_ip_hook_map_snd _
  obtain ⟨b, n, hrun, h1, h2, h3, h4, h5⟩ := hres
  rw [hrun]
  refine ⟨rfl, h1, ?_, h5, ?_, ?_, ?_, ?_⟩
  · show List.Sublist n.Ips o.Ips
    rw [h1]
    have hs : List.Sublist (((o.Ips.reverse.enumFrom 1).filter
        (age_at_most_expire o clock)).map Prod.snd) o.Ips.reverse := by
      have := List.Sublist.map Prod.snd
        (List.filter_sublist (p := age_at_most_expire o clock) (o.Ips.reverse.enumFrom 1))
      rwa [List.enumFrom_map_snd] at this
    have := List.Sublist.reverse hs
    rwa [List.reverse_reverse] at this
  · show n.TotalCount = (n.Ips.length : Int)
    rw [h2, h1, List.length_reverse]
  · show n.BlockedCount = ((n.Ips.filter (fun e => e.Blocked)).length : Int)
    rw [h3, h1, List.filter_reverse, List.length_reverse]
  · show n.WarnCount = ((n.Ips.filter (fun e => e.Warn)).length : Int)
    rw [h4, h1, List.filter_reverse, List.length_reverse]
  · intro p a1 a2 c1 c2 b1 b2
    exact age_at_most_expire_iff o clock p a1 a2 c1 c2 b1 b2

/-- Claim C10, witness.  First a tick that starts 75 seconds after the last cleanup, so
that `expireOlderThan` is 3600 - 75 = 3525, and whose readings of the clock are one
millisecond apart: the first two records were first seen at the same instant; the
second, examined at the reading number 2, is 3525.9995 seconds old and is kept, the
first, examined at the reading number 3, is 3526.0005 seconds old and is removed and
unblocked.  Then a tick in which every reading gives second 7260, 60 seconds after the
last cleanup: of four records the first (blocked) and the third have expired. -/
theorem clean_sweeps_records_witness :
    (clean_clocked example_clock_engine example_clock).result = Completion.returned ()
    ∧ (clean_clocked example_clock_engine example_clock).o.Ips.map (fun e => e.Addr)
        = ["10.0.0.2".toList, "10.0.0.3".toList]
    ∧ (clean_clocked example_clock_engine example_clock).events.filter is_ip_hook
        = [Event.modify_ip_block_os false
            { Addr := "10.0.0.1".toList, Blocked := true, Warn := true,
              OriginalAccess := 62999996549002500000, UnauthedNewConnections := 600 }]
    ∧ (clean_clocked example_clock_engine example_clock).o.TotalCount = 2
    ∧ (clean_clocked example_clock_engine example_clock).o.BlockedCount = 1
    ∧ (clean_clocked example_clock_engine example_clock).o.WarnCount = 1
    ∧ (clean example_sweep_engine 7260000000000).o.Ips.map (fun e => e.Addr)
        = ["10.0.0.2".toList, "10.0.0.4".toList]
    ∧ (clean example_sweep_engine 7260000000000).events.filter is_ip_hook
        = [Event.modify_ip_block_os false
            { Addr := "10.0.0.1".toList, Blocked := true, Warn := true,
              OriginalAccess := 1000000000, UnauthedNewConnections := 600 }]
    ∧ (clean example_sweep_engine 7260000000000).o.TotalCount = 2
    ∧ (clean example_sweep_engine 7260000000000).o.BlockedCount = 1
    ∧ (clean example_sweep_engine 7260000000000).o.WarnCount = 2 := by
  have h := clean_sweeps_records example_clock_engine example_clock (by decide)
  have g := clean_sweeps_records example_sweep_engine (fun _ => 7260000000000) (by decide)
  rw [clean_clocked_const] at g
  refine ⟨h.1, ?_, ?_, ?_, ?_, ?_, ?_, ?_, ?_, ?_, ?_⟩
  · rw [h.2.1]; decide
  · rw [h.2.2.2.1]; decide
  · rw [h.2.2.2.2.1, h.2.1]; decide
  · rw [h.2.2.2.2.2.1, h.2.1]; decide
  · rw [h.2.2.2.2.2.2.1, h.2.1]; decide
  · rw [g.2.1]; decide
  · rw [g.2.2.2.1]; decide
  · rw [g.2.2.2.2.1, g.2.1]; decide
  · rw [g.2.2.2.2.2.1, g.2.1]; decide
  · rw [g.2.2.2.2.2.2.1, g.2.1]; decide

/-! ## Shared lemmas for the claims C11 to C20 -/

theorem IpDetails_congr (o o' : Ipac) (addr : GoString) (h : o'.Ips = o.Ips) :
    IpDetails o' addr = IpDetails o addr := by
  unfold IpDetails; rw [h]

theorem IpDetails_found_of_ne_zero (o : Ipac) (addr : GoString) (h : IpDetails o addr ≠ {}) :
    ∃ e ∈ o.Ips, e.Addr = addr := by
  rcases IpDetails_cases o addr with ⟨hf, ha⟩ | ⟨_, hz⟩
  · exact ⟨_, List.mem_of_find?_eq_some hf, ha⟩
  · exact absurd hz h

theorem update_ips_other (ips : List Ip) (addr : GoString) (entry : Ip) :
    ∀ (i : Nat) (e : Ip), ips[i]? = some e → e.Addr ≠ addr →
      (update_ips ips addr entry)[i]? = some e := by
  induction ips with
  | nil => intro i e h; simp at h
  | cons r rs ih =>
    intro i e h hne
    by_cases hr : r.Addr = addr
    · cases i with
      | zero =>
        simp only [List.getElem?_cons_zero, Option.some.injEq] at h
        subst h
        exact absurd hr hne
      | succ j =>
        simp only [update_ips, if_pos hr]
        simpa using h
    · simp only [update_ips, if_neg hr]
      cases i with
      | zero => simpa using h
      | succ j =>
        simp only [List.getElem?_cons_succ] at h ⊢
        exact ih j e h hne

theorem update_ips_map_Addr (ips : List Ip) (addr : GoString) (entry : Ip)
    (h : ∀ r ∈ ips, r.Addr = addr → entry.Addr = addr) :
    (update_ips ips addr entry).map (fun e => e.Addr) = ips.map (fun e => e.Addr) := by
  induction ips with
  | nil => rfl
  | cons r rs ih =>
    by_cases hr : r.Addr = addr
    · simp only [update_ips, if_pos hr, List.map_cons]
      rw [h r (List.mem_cons_self _ _) hr, hr]
    · simp only [update_ips, if_neg hr, List.map_cons]
      rw [ih (fun x hx => h x (List.mem_cons_of_mem _ hx))]

theorem auth_entry_Addr (entry e : Ip) (authed : GoString)
    (h : auth_entry entry authed = some e) : e.Addr = entry.Addr := by
  unfold auth_entry at h
  split_ifs at h <;> (cases h; rfl)

theorem count_and_warn_AbsurdAuthAttempts (o : Ipac) (e : Ip) :
    (count_and_warn o e).AbsurdAuthAttempts = e.AbsurdAuthAttempts := by
  unfold count_and_warn; simp only []; split_ifs <;> rfl

theorem touch_AbsurdAuthAttempts (now : Time) (e : Ip) :
    (touch now e).AbsurdAuthAttempts = e.AbsurdAuthAttempts := by
  unfold touch; simp only []; split_ifs <;> rfl

theorem note_blocked_absurd (o : Ipac) (e : Ip) :
    (note_blocked o e).NextNotifyAbsurdIps = o.NextNotifyAbsurdIps := by
  unfold note_blocked; split_ifs <;> rfl

theorem block_entry_absurd (o : Ipac) (addr : GoString) (entry : Ip) :
    (block_entry o addr entry).o.NextNotifyAbsurdIps = o.NextNotifyAbsurdIps := by
  unfold block_entry
  simp only []
  split_ifs
  · split
    · exact note_blocked_absurd _ _
    · exact note_blocked_absurd _ _
  · exact note_blocked_absurd _ _

theorem note_absurd_cases (o : Ipac) (e : Ip) :
    (note_absurd o e).NextNotifyAbsurdIps = o.NextNotifyAbsurdIps
    ∨ (note_absurd o e).NextNotifyAbsurdIps = o.NextNotifyAbsurdIps ++ [e.Addr] := by
  unfold note_absurd; split_ifs
  · right; rfl
  · left; rfl

/-- The absurd-attempt list after the branch `entry.Addr == addr`: unchanged, or
extended by the address in a pass that made no block and wrote the counted entry back. -/
theorem found_entry_absurd (o : Ipac) (addr : GoString) (entry : Ip) :
    (found_entry o addr entry).o.NextNotifyAbsurdIps = o.NextNotifyAbsurdIps
    ∨ ((found_entry o addr entry).o.NextNotifyAbsurdIps = o.NextNotifyAbsurdIps ++ [entry.Addr]
      ∧ (found_entry o addr entry).events = []
      ∧ (found_entry o addr entry).o.Ips = update_ips o.Ips addr (count_and_warn o entry)
      ∧ entry.AbsurdAuthAttempts ≥ o.NotifyAfterAbsurdAuthAttempts) := by
  unfold found_entry
  simp only []
  split_ifs with h1 h2
  · left; exact block_entry_absurd _ _ _
  · rcases note_absurd_cases o (count_and_warn o entry) with h | h
    · left; exact h
    · right
      refine ⟨?_, rfl, ?_, ?_⟩
      · rw [← count_and_warn_Addr o entry]; exact h
      · rw [store_and_answer_Ips, note_absurd_Ips]
      · rw [← count_and_warn_AbsurdAuthAttempts o entry]; exact h2
  · left; rfl

theorem IpDetails_after_update (o o' : Ipac) (addr : GoString) (entry : Ip)
    (hIps : o'.Ips = update_ips o.Ips addr entry) (hA : entry.Addr = addr)
    (hB : entry.Blocked = (IpDetails o addr).Blocked) :
    (IpDetails o' addr).Blocked = (IpDetails o addr).Blocked := by
  by_cases hrec : ∃ e ∈ o.Ips, e.Addr = addr
  · have : IpDetails o' addr = entry := by
      apply IpDetails_eq_of_find
      rw [hIps]
      exact find_update_ips o.Ips addr entry hrec hA
    rw [this, hB]
  · have hun : ∀ e ∈ o.Ips, e.Addr ≠ addr := fun e he hea => hrec ⟨e, he, hea⟩
    rw [update_ips_of_unseen o.Ips addr entry hun] at hIps
    rw [IpDetails_congr o o' addr hIps]

theorem IpDetails_mem_of_Authed (o : Ipac) (addr : GoString) (h : (IpDetails o addr).Authed = true) :
    ∃ e ∈ o.Ips, e.Addr = addr := by
  apply IpDetails_found_of_ne_zero
  intro hz
  rw [hz] at h
  cases h

theorem auth_entry_Authed (entry e : Ip) (authed : GoString) (hA : entry.Authed = true)
    (hne : authed ≠ ev_logout) (h : auth_entry entry authed = some e) : e.Authed = true := by
  unfold auth_entry at h
  split_ifs at h <;> cases h <;> first | exact hA | rfl

theorem found_entry_addrs (o : Ipac) (addr : GoString) (entry : Ip) (hA : entry.Addr = addr) :
    (found_entry o addr entry).o.Ips.map (fun e => e.Addr) = o.Ips.map (fun e => e.Addr) := by
  rcases found_entry_Ips o addr entry with h | ⟨e, ha, _, _, h⟩
  · rw [h]
  · rw [h]
    exact update_ips_map_Addr o.Ips addr e (fun _ _ _ => by rw [ha, hA])

/-- The records after a tick with no purge pending: those that survive the sweep. -/
theorem clean_records_kept (o : Ipac) (now : Time) (hP : o.Purge = false) :
    (clean o now).o.Ips = o.Ips.filter (survives o now) := by
  have hloop := clean_ips_loop_spec now (expire_older_than o now) o.Ips [] [] 0 0 0
  simp only [List.append_nil, List.nil_append, zero_add] at hloop
  unfold clean
  simp only []
  rw [if_neg (by simp [hP]), hloop]
  simp only []
  obtain ⟨b, hb, _⟩ := clean_subnets_loop_total
    { o with
      Ips := o.Ips.filter (fun e => decide (age_of_ip now e ≤ expire_older_than o now)),
      TotalCount := ((o.Ips.filter
        (fun e => decide (age_of_ip now e ≤ expire_older_than o now))).length : Int),
      BlockedCount := (((o.Ips.filter
        (fun e => decide (age_of_ip now e ≤ expire_older_than o now))).filter
          (fun e => e.Blocked)).length : Int),
      WarnCount := (((o.Ips.filter
        (fun e => decide (age_of_ip now e ≤ expire_older_than o now))).filter
          (fun e => e.Warn)).length : Int),
      LastCleanup := now }
    now (expire_older_than o now) o.Ipv6Subnets.length
    { subnets := o.Ipv6Subnets,
      events := (o.Ips.reverse.filter
        (fun e => !decide (age_of_ip now e ≤ expire_older_than o now) && e.Blocked)).map
          (modify_ip_block_os false),
      cblocked_subnet := 0 }
    (le_refl _)
  rw [hb]
  simp only []
  exact (clean_notify_keeps
    { o with
      Ips := o.Ips.filter (fun e => decide (age_of_ip now e ≤ expire_older_than o now)),
      TotalCount := ((o.Ips.filter
        (fun e => decide (age_of_ip now e ≤ expire_older_than o now))).length : Int),
      BlockedCount := (((o.Ips.filter
        (fun e => decide (age_of_ip now e ≤ expire_older_than o now))).filter
          (fun e => e.Blocked)).length : Int),
      WarnCount := (((o.Ips.filter
        (fun e => decide (age_of_ip now e ≤ expire_older_than o now))).filter
          (fun e => e.Warn)).length : Int),
      LastCleanup := now,
      Ipv6Subnets := b.subnets, BlockedSubnetCount := b.cblocked_subnet } now).1

/-- What one operation does to the `Addr` fields of the records, from any state. -/
theorem apply_op_addrs_kept (o : Ipac) (op : Op) : addrs_kept op o.Ips (apply_op o op).Ips := by
  cases op with
  | test now addr =>
    show _ ∨ _
    simp only [apply_op]
    cases hN : o.NeverBlock
    swap
    · left; rw [TestIpAllowed_never o now addr hN]
    cases hP : o.Purge
    swap
    · left; rw [TestIpAllowed_purge o now addr hN hP]
    by_cases ha : (IpDetails o addr).Addr = addr
    · left
      rw [TestIpAllowed_found o now addr hN hP ha]
      exact found_entry_addrs o addr _ (by rw [touch_Addr]; exact ha)
    · right
      rw [TestIpAllowed_new o now addr hN hP ha]
      simp [new_entry]
  | auth now authed addr =>
    show _ = _
    simp only [apply_op]
    by_cases hidle : o.Purge = true ∨ o.NeverBlock = true
    · rw [ModifyAuth_idle o now authed addr hidle]
    · have hP : o.Purge = false := by cases h : o.Purge <;> simp_all
      have hN : o.NeverBlock = false := by cases h : o.NeverBlock <;> simp_all
      rw [ModifyAuth_active o now authed addr hN hP]
      cases he : auth_entry (IpDetails o addr) authed with
      | none => rfl
      | some e =>
        show (store_auth o now addr e).o.Ips.map _ = _
        rw [store_auth_Ips]
        apply update_ips_map_Addr
        intro r hr hra
        show e.Addr = addr
        rw [auth_entry_Addr _ e authed he]
        exact IpDetails_Addr_of_mem o addr ⟨r, hr, hra⟩
  | purge => rfl
  | tick now =>
    show List.Sublist _ _
    simp only [apply_op]
    cases hP : o.Purge
    · rw [clean_records_kept o now hP]
      exact List.filter_sublist _
    · have : (clean o now).o.Ips = [] := by
        unfold clean
        simp only []
        rw [if_pos hP]
      rw [this]
      exact List.nil_sublist _

theorem apply_op_nodup (o : Ipac) (op : Op)
    (h : (o.Ips.map (fun e => e.Addr)).Nodup) :
    ((apply_op o op).Ips.map (fun e => e.Addr)).Nodup := by
  have hk := apply_op_addrs_kept o op
  cases op with
  | test now addr =>
    rcases hk with hk | hk
    · rw [hk]; exact h
    · rw [hk]
      -- a record is appended only by the branch of a new address
      have hnew : addr ∉ o.Ips.map (fun e => e.Addr) := by
        intro hmem
        obtain ⟨r, hr, hra⟩ := List.mem_map.mp hmem
        have hA := IpDetails_Addr_of_mem o addr ⟨r, hr, hra⟩
        have hlen := congrArg List.length hk
        simp only [List.length_map, List.length_append, List.length_singleton] at hlen
        simp only [apply_op] at hlen
        cases hN : o.NeverBlock
        swap
        · rw [TestIpAllowed_never o now addr hN] at hlen; simp at hlen
        cases hP : o.Purge
        swap
        · rw [TestIpAllowed_purge o now addr hN hP] at hlen; simp at hlen
        rw [TestIpAllowed_found o now addr hN hP hA] at hlen
        have := congrArg List.length
          (found_entry_addrs o addr (touch now (IpDetails o addr)) (by rw [touch_Addr]; exact hA))
        simp only [List.length_map] at this
        omega
      exact List.Nodup.append h (List.nodup_singleton _)
        (by simpa [List.Disjoint] using hnew)
  | auth now authed addr =>
    have hk' : (apply_op o (Op.auth now authed addr)).Ips.map (fun e => e.Addr)
        = o.Ips.map (fun e => e.Addr) := hk
    rw [hk']; exact h
  | purge =>
    have hk' : (apply_op o Op.purge).Ips = o.Ips := hk
    rw [hk']; exact h
  | tick now =>
    have hk' : List.Sublist (apply_op o (Op.tick now)).Ips o.Ips := hk
    exact List.Nodup.sublist (List.Sublist.map _ hk') h

theorem pad_expand_eq_map (l : List GoString) :
    pad_groups (expand_zero_shorthand l) = l.map canon_group := by
  unfold pad_groups expand_zero_shorthand
  rw [List.map_map]
  rfl

theorem canon_group_props (s : GoString) (h : ':' ∉ s) :
    canon_group s ≠ [] ∧ ':' ∉ canon_group s := by
  unfold canon_group
  simp only []
  by_cases h0 : s = ['0']
  · subst h0
    decide
  · rw [if_neg h0]
    split_ifs with hl
    · constructor
      · intro hc
        have := congrArg List.length hc
        simp at this
        omega
      · intro hc
        rcases List.mem_append.mp hc with h1 | h1
        · have := List.eq_of_mem_replicate h1
          revert this; decide
        · exact h h1
    · constructor
      · intro hc; rw [hc] at hl; simp at hl
      · exact h

theorem canonical_groups_of_groups (gs : List GoString) (hne : gs ≠ [])
    (hg : ∀ g ∈ gs, g ≠ [] ∧ ':' ∉ g) :
    canonical_groups (join_groups gs) = gs.map canon_group := by
  unfold canonical_groups strings_Split join_groups
  rw [List.splitOn_intercalate gs ':' (fun l hl => (hg l hl).2) hne]
  rw [expand_empty_group_id gs (fun g h hc => (hg g h).1 (List.length_eq_zero.mp hc))]
  exact pad_expand_eq_map gs

theorem mem_take_of_le {α : Type} (l : List α) (n m : Nat) (h : n ≤ m) (a : α)
    (ha : a ∈ l.take n) : a ∈ l.take m := by
  have : l.take n = (l.take m).take n := by
    rw [List.take_take, Nat.min_eq_left h]
  rw [this] at ha
  exact List.mem_of_mem_take ha

/-- The value of `ipv6_get_ranked_groups` when the outer loop makes `k` passes over
canonical groups `cs` that are long enough. -/
theorem ranked_groups_general (o : Ipac) (addr : GoString) (k : Nat)
    (hk : wrap64 (8 - o.BlockIpv6SubnetsGroupDepth) = (k : Int)) (hk8 : k ≤ 8)
    (cs : List GoString) (hcs : canonical_groups addr = cs)
    (hlen : 2 * k ≤ cs.length + 1)
    (hg : ∀ g ∈ cs.take (2 * k - 1), g ≠ [] ∧ ':' ∉ g) :
    ipv6_get_ranked_groups o addr
      = some ((List.range k).map (fun g => join_groups (cs.take (k + g)))) := by
  unfold ipv6_get_ranked_groups
  simp only []
  rw [hcs, hk]
  have hkn : ((k : Int)).toNat = k := Int.toNat_natCast k
  rw [hkn]
  apply mapM_pointwise
  intro g hgk
  have hlt : g < k := List.mem_range.mp hgk
  have hw : (wrap64 ((k : Int) + (g : Int))).toNat = k + g := by
    rw [wrap64_of_range _ (by unfold minInt64; omega) (by unfold maxInt64; omega)]
    omega
  rw [hw]
  have hle : k + g ≤ cs.length := by omega
  have hl : (cs.take (k + g)).length = k + g := by rw [List.length_take]; omega
  have hn : cs.take (k + g) ≠ [] := by
    intro hc; rw [hc] at hl; simp at hl; omega
  rw [ranked_group_string_of_le cs (k + g) hle]
  simp only [Option.map_some']
  rw [trim_flatten_colon (cs.take (k + g)) hn
    (fun x hx => hg x (mem_take_of_le cs (k + g) (2 * k - 1) (by omega) x hx))]

theorem join_groups_nil : join_groups [] = [] := rfl

theorem join_groups_single_nil : join_groups [[]] = [] := rfl

theorem join_groups_cons_cons (a b : GoString) (rest : List GoString) :
    join_groups (a :: b :: rest) = a ++ ':' :: join_groups (b :: rest) := by
  simp [join_groups, List.intercalate]

theorem join_groups_append (a b : List GoString) (ha : a ≠ []) (hb : b ≠ []) :
    join_groups (a ++ b) = join_groups a ++ ':' :: join_groups b := by
  induction a with
  | nil => exact absurd rfl ha
  | cons x rest ih =>
    cases rest with
    | nil =>
      cases b with
      | nil => exact absurd rfl hb
      | cons y ys =>
        show join_groups (x :: y :: ys) = _
        rw [join_groups_cons_cons]
        simp [join_groups, List.intercalate]
    | cons x2 rest2 =>
      show join_groups (x :: x2 :: (rest2 ++ b)) = _
      rw [join_groups_cons_cons, join_groups_cons_cons]
      have := ih (List.cons_ne_nil _ _)
      simp only [List.cons_append] at this
      rw [this]
      simp

/-- The groups that `strings.Split` gives for a text with a run `::`: an empty group
for the run, and one more empty group on a side where the text ends with the run. -/
theorem split_run (pre post : List GoString)
    (hpre : ∀ s ∈ pre, ':' ∉ s) (hpost : ∀ s ∈ post, ':' ∉ s) :
    strings_Split (join_groups pre ++ [':', ':'] ++ join_groups post) ':'
      = (if pre = [] then [[]] else pre) ++ [] :: (if post = [] then [[]] else post) := by
  have hP : join_groups (if pre = [] then [[]] else pre) = join_groups pre := by
    split_ifs with h
    · rw [h]; rfl
    · rfl
  have hQ : join_groups (if post = [] then [[]] else post) = join_groups post := by
    split_ifs with h
    · rw [h]; rfl
    · rfl
  have hPne : (if pre = [] then [[]] else pre) ≠ ([] : List GoString) := by
    split_ifs with h
    · exact List.cons_ne_nil _ _
    · exact h
  have hQne : (if post = [] then [[]] else post) ≠ ([] : List GoString) := by
    split_ifs with h
    · exact List.cons_ne_nil _ _
    · exact h
  have htext : join_groups pre ++ [':', ':'] ++ join_groups post
      = join_groups ((if pre = [] then [[]] else pre)
          ++ [] :: (if post = [] then [[]] else post)) := by
    rw [join_groups_append _ _ hPne (List.cons_ne_nil _ _)]
    obtain ⟨q, qs, hq⟩ := List.exists_cons_of_ne_nil hQne
    rw [hq, join_groups_cons_cons, ← hq, hP, hQ]
    simp
  rw [htext]
  unfold strings_Split join_groups
  apply List.splitOn_intercalate
  · intro l hl
    rcases List.mem_append.mp hl with h1 | h1
    · split_ifs at h1 with h
      · rw [List.mem_singleton.mp h1]; exact List.not_mem_nil _
      · exact hpre l h1
    · rcases List.mem_cons.mp h1 with h2 | h2
      · rw [h2]; exact List.not_mem_nil _
      · split_ifs at h2 with h
        · rw [List.mem_singleton.mp h2]; exact List.not_mem_nil _
        · exact hpost l h2
  · intro hc
    have := congrArg List.length hc
    simp at this

theorem findIdx_first_empty (A B : List GoString) (hA : ∀ a ∈ A, a ≠ []) :
    (A ++ [] :: B).findIdx? (fun s => decide (s.length = 0)) = some A.length := by
  induction A with
  | nil => rfl
  | cons a rest ih =>
    have ha : decide (a.length = 0) = false := by
      have := hA a (List.mem_cons_self _ _)
      simpa using this
    have h := ih (fun x hx => hA x (List.mem_cons_of_mem _ hx))
    show List.findIdx? _ (a :: (rest ++ [] :: B)) 0 = _
    rw [List.findIdx?_cons, ha, List.findIdx?_succ, h]
    rfl

theorem insert_zero_group_at (A R : List GoString) :
    insert_zero_group (A ++ zero_group :: R) A.length = A ++ zero_group :: zero_group :: R := by
  unfold insert_zero_group
  have h1 : (A ++ zero_group :: R).take (A.length + 1) = A ++ [zero_group] := by
    rw [List.take_append_eq_append_take]
    simp
  have h2 : (A ++ zero_group :: R).drop A.length = zero_group :: R := by
    rw [List.drop_append_eq_append_drop]
    simp
  rw [h1, h2]
  rw [List.set_append_right _ _ (by simp)]
  simp

theorem insert_zero_group_iterate (A : List GoString) (k : Nat) :
    ∀ R : List GoString,
      (fun gs => insert_zero_group gs A.length)^[k] (A ++ zero_group :: R)
        = A ++ zero_group :: (List.replicate k zero_group ++ R) := by
  induction k with
  | zero => intro R; rfl
  | succ k ih =>
    intro R
    rw [Function.iterate_succ_apply, insert_zero_group_at, ih (zero_group :: R)]
    rw [List.replicate_succ']
    simp

theorem expand_empty_group_run (A B : List GoString) (hA : ∀ a ∈ A, a ≠ []) :
    expand_empty_group (A ++ [] :: B)
      = A ++ zero_group
          :: (List.replicate (8 - (A.length + 1 + B.length)) zero_group ++ B) := by
  unfold expand_empty_group
  rw [findIdx_first_empty A B hA]
  simp only []
  have hset : (A ++ [] :: B).set A.length zero_group = A ++ zero_group :: B := by
    rw [List.set_append_right _ _ (le_refl _)]
    simp
  have hlen : (A ++ [] :: B).length = A.length + 1 + B.length := by
    simp; omega
  rw [hset, hlen]
  exact insert_zero_group_iterate A _ B

theorem drops_leading_zeros_canon (s g : GoString) (h : drops_leading_zeros s g = true) :
    canon_group s = g ∧ s ≠ [] ∧ (':' ∉ g → ':' ∉ s) := by
  unfold drops_leading_zeros at h
  simp only [decide_eq_true_eq] at h
  obtain ⟨hne, hlen, hg⟩ := h
  refine ⟨?_, hne, ?_⟩
  · unfold canon_group
    simp only []
    by_cases h0 : s = ['0']
    · subst h0
      rw [← hg]; rfl
    · rw [if_neg h0]
      split_ifs with hl
      · exact hg
      · have h4 : s.length = 4 := by omega
        rw [h4] at hg
        simpa using hg
  · intro hc hs
    apply hc
    rw [← hg]
    exact List.mem_append_right _ hs

theorem shorthand_groups (ss : List GoString) :
    ∀ gs : List GoString, ss.length = gs.length →
      (List.zipWith drops_leading_zeros ss gs).all id = true → (∀ g ∈ gs, ':' ∉ g) →
      ss.map canon_group = gs ∧ ∀ s ∈ ss, s ≠ [] ∧ ':' ∉ s := by
  induction ss with
  | nil =>
    intro gs hl _ _
    cases gs with
    | nil => exact ⟨rfl, fun s hs => absurd hs (List.not_mem_nil _)⟩
    | cons g rest => cases hl
  | cons s rest ih =>
    intro gs hl hz hc
    cases gs with
    | nil => cases hl
    | cons g grest =>
      simp only [List.zipWith_cons_cons, List.all_cons, Bool.and_eq_true, id] at hz
      obtain ⟨h1, h2, h3⟩ := drops_leading_zeros_canon s g hz.1
      obtain ⟨r1, r2⟩ := ih grest (by simpa using hl) hz.2
        (fun x hx => hc x (List.mem_cons_of_mem _ hx))
      refine ⟨by rw [List.map_cons, h1, r1], ?_⟩
      intro x hx
      rcases List.mem_cons.mp hx with hx1 | hx1
      · rw [hx1]; exact ⟨h2, h3 (hc g (List.mem_cons_self _ _))⟩
      · exact r2 x hx1

theorem zero_run_one (r : Nat) (h : 1 ≤ r) (X : List GoString) :
    zero_group :: (List.replicate (r - 1) zero_group ++ X)
      = List.replicate r zero_group ++ X := by
  obtain ⟨n, rfl⟩ : ∃ n, r = n + 1 := ⟨r - 1, by omega⟩
  simp [List.replicate_succ]

theorem zero_run_two (r : Nat) (h : 2 ≤ r) (X : List GoString) :
    zero_group :: (List.replicate (r - 2) zero_group ++ zero_group :: X)
      = List.replicate r zero_group ++ X := by
  obtain ⟨n, rfl⟩ : ∃ n, r = n + 2 := ⟨r - 2, by omega⟩
  have : n + 2 - 2 = n := by omega
  rw [this, List.replicate_succ, List.replicate_succ']
  simp

theorem groups_with_zero_run (gs : List GoString) (i r : Nat) (hir : i + r ≤ gs.length)
    (hz : ((gs.drop i).take r).all (fun g => decide (g = zero_group)) = true) :
    gs = gs.take i ++ (List.replicate r zero_group ++ gs.drop (i + r)) := by
  have h1 : (gs.drop i).take r = List.replicate r zero_group := by
    rw [List.eq_replicate_iff]
    constructor
    · rw [List.length_take, List.length_drop]; omega
    · intro b hb
      have := List.all_eq_true.mp hz b hb
      simpa using this
  have h2 : (gs.drop i).drop r = gs.drop (i + r) := by
    rw [List.drop_drop]
  calc gs = gs.take i ++ gs.drop i := (List.take_append_drop i gs).symm
    _ = gs.take i ++ ((gs.drop i).take r ++ (gs.drop i).drop r) := by
        rw [List.take_append_drop r (gs.drop i)]
    _ = gs.take i ++ (List.replicate r zero_group ++ gs.drop (i + r)) := by rw [h1, h2]

theorem canon_group_zero : canon_group zero_group = zero_group := by decide

theorem canon_group_empty : canon_group [] = zero_group := by decide

/-- The canonical groups of a shorthand with a run `::`, for a run that is not a
single group at the very start: either the full groups, or (for a single group at
the very end) the full groups with one more `0000`. -/
theorem canonical_groups_of_run (gs ss : List GoString) (i r : Nat)
    (hlen : gs.length = 8) (hss : ss.length = 8)
    (hmap : ss.map canon_group = gs) (hs : ∀ s ∈ ss, s ≠ [] ∧ ':' ∉ s)
    (hr : 1 ≤ r) (hir : i + r ≤ 8)
    (hz : ((gs.drop i).take r).all (fun g => decide (g = zero_group)) = true)
    (hrun : ¬ (i = 0 ∧ r = 1)) :
    canonical_groups (shorthand ss (some (i, r))) = gs
    ∨ canonical_groups (shorthand ss (some (i, r))) = gs.take 7 ++ [zero_group, zero_group] := by
  have hdec := groups_with_zero_run gs i r (by omega) hz
  have hpre : (ss.take i).map canon_group = gs.take i := by rw [List.map_take, hmap]
  have hpost : (ss.drop (i + r)).map canon_group = gs.drop (i + r) := by
    rw [List.map_drop, hmap]
  have hprel : (ss.take i).length = i := by rw [List.length_take]; omega
  have hpostl : (ss.drop (i + r)).length = 8 - (i + r) := by rw [List.length_drop, hss]
  have hpres : ∀ s ∈ ss.take i, s ≠ [] := fun s h => (hs s (List.mem_of_mem_take h)).1
  have hsplit := split_run (ss.take i) (ss.drop (i + r))
    (fun s h => (hs s (List.mem_of_mem_take h)).2)
    (fun s h => (hs s (List.mem_of_mem_drop h)).2)
  unfold canonical_groups shorthand
  simp only []
  rw [hsplit, pad_expand_eq_map]
  by_cases hi : i = 0
  · -- the run starts the address: the text starts with the empty group
    subst hi
    simp only [Nat.zero_add] at hdec hpost hpostl hir ⊢
    have hr2 : 2 ≤ r := by omega
    rw [List.take_zero, if_pos rfl]
    show (expand_empty_group ([] ++ [] :: ([] :: (if ss.drop r = [] then [[]]
      else ss.drop r)))).map canon_group = gs ∨ _
    rw [expand_empty_group_run [] _ (fun a ha => absurd ha (List.not_mem_nil _))]
    left
    by_cases hq : ss.drop r = []
    · have hr8 : r = 8 := by
        have := congrArg List.length hq
        rw [hpostl] at this
        simp at this
        omega
      have hd8 : gs.drop r = [] := by rw [← hpost, hq]; rfl
      rw [if_pos hq]
      conv_rhs => rw [hdec, hd8]
      subst hr8
      simp [canon_group_zero, canon_group_empty, List.replicate]
    · rw [if_neg hq]
      conv_rhs => rw [hdec]
      simp only [List.length_nil, List.length_cons, hpostl, List.nil_append, List.map_cons,
        List.map_append, List.map_replicate, canon_group_zero, canon_group_empty, hpost,
        List.take_zero]
      have hk : 8 - (0 + 1 + (8 - r + 1)) = r - 2 := by omega
      rw [hk]
      exact zero_run_two r hr2 _
  · have hpn : ss.take i ≠ [] := by
      intro hc; rw [hc] at hprel; simp at hprel; omega
    rw [if_neg hpn, expand_empty_group_run _ _ hpres]
    by_cases hq : ss.drop (i + r) = []
    · have hir8 : i + r = 8 := by
        have := congrArg List.length hq
        rw [hpostl] at this
        simp at this
        omega
      have hd8 : gs.drop (i + r) = [] := by rw [← hpost, hq]; rfl
      rw [if_pos hq]
      simp only [List.length_cons, List.length_nil, hprel, List.map_cons,
        List.map_append, List.map_replicate, canon_group_zero, canon_group_empty, hpre,
        List.map_nil]
      have hk : 8 - (i + 1 + (0 + 1)) = r - 2 := by omega
      rw [hk]
      by_cases hr1 : r = 1
      · right
        have hi7 : i = 7 := by omega
        subst hr1; subst hi7
        rfl
      · left
        conv_rhs => rw [hdec, hd8]
        rw [zero_run_two r (by omega) []]
    · have hql : (ss.drop (i + r)).length = 8 - (i + r) := hpostl
      have hpos : 0 < (ss.drop (i + r)).length := List.length_pos.mpr hq
      rw [if_neg hq]
      left
      simp only [hprel, hql, List.map_cons, List.map_append, List.map_replicate,
        canon_group_zero, hpre, hpost]
      have hk : 8 - (i + 1 + (8 - (i + r))) = r - 1 := by omega
      rw [hk]
      conv_rhs => rw [hdec]
      rw [zero_run_one r hr _]

/-- The ranking at depth 4 reads the first seven canonical groups only. -/
theorem ranked_groups_depth_four (o : Ipac) (addr : GoString) (gs : List GoString)
    (hd : o.BlockIpv6SubnetsGroupDepth = 4) (hlen : gs.length = 8)
    (hg : ∀ g ∈ gs, g ≠ [] ∧ ':' ∉ g)
    (hcs : canonical_groups addr = gs
      ∨ canonical_groups addr = gs.take 7 ++ [zero_group, zero_group]) :
    ipv6_get_ranked_groups o addr
      = some [join_groups (gs.take 4), join_groups (gs.take 5), join_groups (gs.take 6),
              join_groups (gs.take 7)] := by
  have hk : wrap64 (8 - o.BlockIpv6SubnetsGroupDepth) = ((4 : Nat) : Int) := by
    rw [hd]; decide
  rcases hcs with h | h
  · rw [ranked_groups_general o addr 4 hk (by omega) gs h (by omega)
      (fun g hgm => hg g (List.mem_of_mem_take hgm))]
    rfl
  · have h7 : (gs.take 7).length = 7 := by rw [List.length_take]; omega
    have ht : ∀ n, n ≤ 7 → (gs.take 7 ++ [zero_group, zero_group]).take n = gs.take n := by
      intro n hn
      rw [List.take_append_of_le_length (by omega), List.take_take, Nat.min_eq_left hn]
    rw [ranked_groups_general o addr 4 hk (by omega) _ h (by simp; omega)
      (fun g hgm => by
        rw [ht 7 (le_refl _)] at hgm
        exact hg g (List.mem_of_mem_take hgm))]
    show some [join_groups (List.take 4 _), join_groups (List.take 5 _),
      join_groups (List.take 6 _), join_groups (List.take 7 _)] = _
    rw [ht 4 (by omega), ht 5 (by omega), ht 6 (by omega), ht 7 (by omega)]

theorem TestIpAllowed_read_finish (o : Ipac) (now : Time) (addr : GoString) :
    TestIpAllowed o now addr
      = if o.NeverBlock = true then
          { o := o, events := [], result := Completion.returned true }
        else TestIpAllowed_finish o now addr (IpDetails o addr) := rfl

/-- A caller that reads and writes back with no other step in between does what
`TestIpAllowed` does. -/
theorem run_interleaving_alone (o : Ipac) (addr : GoString) (caller : Nat) (now : Time) :
    run_interleaving o addr [LockStep.read caller, LockStep.write caller now]
      = (TestIpAllowed o now addr).o := by
  rw [TestIpAllowed_read_finish]
  unfold run_interleaving
  simp only [List.foldl_cons, List.foldl_nil, lock_step]
  by_cases hN : o.NeverBlock = true
  · simp [hN, lock_step]
  · simp [hN, lock_step, List.lookup]

theorem ModifyAuth_read_finish (o : Ipac) (now : Time) (authed addr : GoString) :
    ModifyAuth o now authed addr
      = if o.Purge = true then
          { o := o, events := [], result := Completion.returned () }
        else if o.NeverBlock = true then
          { o := o, events := [], result := Completion.returned () }
        else ModifyAuth_finish o now authed addr (IpDetails o addr) := rfl

/-- A `ModifyAuth` caller that reads and writes back with no other step in between
does what `ModifyAuth` does. -/
theorem run_calls_auth_alone (o : Ipac) (addr authed : GoString) (caller : Nat) (now : Time) :
    run_calls o addr
        [CallStep.auth (AuthStep.read caller), CallStep.auth (AuthStep.write caller now authed)]
      = (ModifyAuth o now authed addr).o := by
  rw [ModifyAuth_read_finish]
  unfold run_calls
  simp only [List.foldl_cons, List.foldl_nil, call_step, auth_step]
  by_cases hP : o.Purge = true
  · simp [hP, auth_step]
  · by_cases hN : o.NeverBlock = true
    · simp [hP, hN, auth_step]
    · simp [hP, hN, auth_step, List.lookup]

/-- A `TestIpAllowed` caller that reads and writes back with no other step in between
does what `TestIpAllowed` does, also among the steps of `run_calls`. -/
theorem run_calls_test_alone (o : Ipac) (addr : GoString) (caller : Nat) (now : Time) :
    run_calls o addr
        [CallStep.test (LockStep.read caller), CallStep.test (LockStep.write caller now)]
      = (TestIpAllowed o now addr).o := by
  rw [TestIpAllowed_read_finish]
  unfold run_calls
  simp only [List.foldl_cons, List.foldl_nil, call_step, lock_step]
  by_cases hN : o.NeverBlock = true
  · simp [hN, lock_step]
  · simp [hN, lock_step, List.lookup]

/-! ## Claim C11 -/

/-- Claim C11: from every engine state, `Purge` followed by one cleanup tick leaves the
record list and the subnet-group list empty and the purge flag cleared, and over the
two steps the only call to the outside is the one flush of the chain `goipac` made by
`Purge` (on Linux: one `-F goipac` for `iptables` and one for `ip6tables`); the tick
itself makes no call. -/
theorem purge_then_tick (o : Ipac) (now : Time) :
    (Purge o).result = Completion.returned ()
    ∧ (clean (Purge o).o now).result = Completion.returned ()
    ∧ (clean (Purge o).o now).o.Ips = []
    ∧ (clean (Purge o).o now).o.Ipv6Subnets = []
    ∧ (clean (Purge o).o now).o.Purge = false
    ∧ (Purge o).events ++ (clean (Purge o).o now).events = [Event.flush_chains]
    ∧ (((Purge o).events ++ (clean (Purge o).o now).events).map (os_commands true)).flatten
        = [("iptables".toList, ["-F".toList, "goipac".toList]),
           ("ip6tables".toList, ["-F".toList, "goipac".toList])] := by
  have h : clean (Purge o).o now
      = { o := { (Purge o).o with Ips := [], Ipv6Subnets := [], Purge := false },
          events := [], result := Completion.returned () } := by
    unfold clean
    simp only []
    rw [if_pos (show (Purge o).o.Purge = true from rfl)]
  rw [h]
  refine ⟨rfl, rfl, rfl, rfl, rfl, rfl, ?_⟩
  simp [Purge, os_commands]

/-! ## Claim C12 -/

/-- Claim C13: starting from an empty record store, after any sequence of
`TestIpAllowed`, `ModifyAuth`, `Purge` and cleanup-tick operations run one after the
other, no two records have the same `Addr`; and every operation of the sequence
keeps the `Addr` of every record it keeps (`addrs_kept`): it only appends a record
for a new address or removes records. -/
theorem one_record_per_address (o : Ipac) (ops : List Op) (h : o.Ips = []) :
    ((run_ops o ops).Ips.map (fun e => e.Addr)).Nodup
    ∧ ∀ (n : Nat) (op : Op), ops[n]? = some op →
        addrs_kept op (run_ops o (ops.take n)).Ips (run_ops o (ops.take (n + 1))).Ips := by
  constructor
  · have gen : ∀ (l : List Op) (s : Ipac), (s.Ips.map (fun e => e.Addr)).Nodup →
        ((run_ops s l).Ips.map (fun e => e.Addr)).Nodup := by
      intro l
      induction l with
      | nil => intro s hs; exact hs
      | cons op rest ih =>
        intro s hs
        exact ih (apply_op s op) (apply_op_nodup s op hs)
    apply gen
    rw [h]; exact List.nodup_nil
  · intro n op hn
    have : run_ops o (ops.take (n + 1)) = apply_op (run_ops o (ops.take n)) op := by
      rw [List.take_succ, hn]
      simp [run_ops, List.foldl_append]
    rw [this]
    exact apply_op_addrs_kept _ op

/-- Claim C13, witness: nine operations on the default engine, with two addresses, a
tick, a purge and the tick that completes it. -/
theorem one_record_per_address_witness :
    ((run_ops example_engine
        [Op.test 1 example_addr, Op.test 2 example_addr,
         Op.auth 3 ev_valid_login example_addr, Op.test 4 "10.0.0.2".toList,
         Op.tick 60000000000, Op.test 61000000000 example_addr, Op.purge,
         Op.tick 120000000000, Op.test 121000000000 example_addr]).Ips.map
        (fun e => e.Addr)).Nodup
    ∧ addrs_kept (Op.test 4 "10.0.0.2".toList)
        (run_ops example_engine
          [Op.test 1 example_addr, Op.test 2 example_addr,
           Op.auth 3 ev_valid_login example_addr]).Ips
        (run_ops example_engine
          [Op.test 1 example_addr, Op.test 2 example_addr,
           Op.auth 3 ev_valid_login example_addr, Op.test 4 "10.0.0.2".toList]).Ips :=
  ⟨(one_record_per_address example_engine _ rfl).1,
   (one_record_per_address example_engine
      [Op.test 1 example_addr, Op.test 2 example_addr,
       Op.auth 3 ev_valid_login example_addr, Op.test 4 "10.0.0.2".toList,
       Op.tick 60000000000, Op.test 61000000000 example_addr, Op.purge,
       Op.tick 120000000000, Op.test 121000000000 example_addr] rfl).2 3 _ rfl⟩

/-! ## Claim C14 -/

/-- Claim C14, the code at the failing input: the record of 127.0.0.1 has 5 counted
connections.  Two calls run one after the other (which is also the interleaving
read, write, read, write) leave 7; the interleaving in which both callers read before
either writes back leaves 6: one increment is lost. -/
theorem interleaved_calls_lose_an_increment :
    (IpDetails example_counting_engine example_addr).UnauthedNewConnections = 5
    ∧ (IpDetails (TestIpAllowed_calls example_counting_engine example_addr [8, 9]).1
        example_addr).UnauthedNewConnections = 7
    ∧ run_interleaving example_counting_engine example_addr
        [LockStep.read 0, LockStep.write 0 8, LockStep.read 1, LockStep.write 1 9]
      = (TestIpAllowed_calls example_counting_engine example_addr [8, 9]).1
    ∧ (IpDetails (run_interleaving example_counting_engine example_addr
        [LockStep.read 0, LockStep.read 1, LockStep.write 0 8, LockStep.write 1 9])
        example_addr).UnauthedNewConnections = 6 := by
  decide

/-! ## Claim C15 -/

/-- Claim C15, the code at the failing input.  First engine: the four subnet groups made
by blocking one IPv6 address, none blocked (`BlockedTs` zero) and each with 1 ban,
below its breach count; the tick 40 seconds later removes all four and calls
`ipv6_modify_subnet_block_os` with `false` for each.  Second engine: a group with a
`BlockedTs` set 10060 seconds before the tick (more than `expire_older_than` = 3540)
and 40 bans is kept, stamped again, and the call made for it passes `false`. -/
theorem subnet_sweep_at_example :
    example_subnet_engine.Ipv6Subnets
      = [{ Group := "2001:0db8:0000:0000".toList, IpBans := 1, BlockedTs := 0 },
         { Group := "2001:0db8:0000:0000:0000".toList, IpBans := 1, BlockedTs := 0 },
         { Group := "2001:0db8:0000:0000:0000:ff00".toList, IpBans := 1, BlockedTs := 0 },
         { Group := "2001:0db8:0000:0000:0000:ff00:0042".toList, IpBans := 1, BlockedTs := 0 }]
    ∧ ip_count_to_breach_subnet example_subnet_engine "2001:0db8:0000:0000".toList = 40
    ∧ (clean example_subnet_engine 63000000060000000000).o.Ipv6Subnets = []
    ∧ (clean example_subnet_engine 63000000060000000000).events
      = [Event.ipv6_modify_subnet_block_os false "2001:0db8:0000:0000:0000:ff00:0042".toList
           "2001:0db8:0000:0000:0000:ff00:0000:0000".toList,
         Event.ipv6_modify_subnet_block_os false "2001:0db8:0000:0000:0000:ff00".toList
           "2001:0db8:0000:0000:0000:0000:0000:0000".toList,
         Event.ipv6_modify_subnet_block_os false "2001:0db8:0000:0000:0000".toList
           "2001:0db8:0000:0000:0000:0000:0000:0000".toList,
         Event.ipv6_modify_subnet_block_os false "2001:0db8:0000:0000".toList
           "2001:0db8:0000:0000:0000:0000:0000:0000".toList]
    ∧ expire_older_than example_stamped_engine 63000000060000000000 = 3540
    ∧ (clean example_stamped_engine 63000000060000000000).o.Ipv6Subnets
      = [{ Group := "2001:0db8:ffff:0000".toList, IpBans := 40,
           BlockedTs := 63000000060000000000 }]
    ∧ (clean example_stamped_engine 63000000060000000000).events
      = [Event.ipv6_modify_subnet_block_os false "2001:0db8:ffff:0000".toList
           "2001:0db8:ffff:0000:0000:0000:0000:0000".toList] := by
  decide

/-! ## Claim C16 -/

/-- Claim C16, the code at the failing input: the rule string built for the prefix
`ffff:ffff` is `ffff:0000:0000:0000:0000:0000:0000:0000`; the last group of a prefix
is always replaced by `0000`. -/
theorem subnet_rule_drops_last_group :
    iptables_subnet_string "ffff:ffff".toList
      = "ffff:0000:0000:0000:0000:0000:0000:0000".toList
    ∧ iptables_subnet_string "2001:0db8:0000:0000:0000:ff00:0042".toList
      = "2001:0db8:0000:0000:0000:ff00:0000:0000".toList
    ∧ iptables_subnet_string "ffff".toList
      = "0000:0000:0000:0000:0000:0000:0000:0000".toList := by
  decide

/-! ## Claim C17 -/

/-- Claim C17, as amended: for a depth `d` with `4 <= d <= 7` and an address of 8
colon-separated non-empty groups, `ipv6_get_ranked_groups` returns without failure
exactly `8 - d` strings, the `g`-th (`g = 0 .. 7 - d`) being the first `8 - d + g`
groups of the address, each left-padded to 4 digits (`canon_group`), colon-joined. -/
theorem ranked_groups_at_depth (o : Ipac) (gs : List GoString)
    (h4 : 4 ≤ o.BlockIpv6SubnetsGroupDepth) (h7 : o.BlockIpv6SubnetsGroupDepth ≤ 7)
    (hlen : gs.length = 8) (hg : ∀ g ∈ gs, g ≠ [] ∧ ':' ∉ g) :
    ipv6_get_ranked_groups o (join_groups gs)
      = some ((List.range (8 - o.BlockIpv6SubnetsGroupDepth).toNat).map
          (fun g => join_groups
            ((gs.map canon_group).take ((8 - o.BlockIpv6SubnetsGroupDepth).toNat + g)))) := by
  have hne : gs ≠ [] := by intro h; rw [h] at hlen; cases hlen
  apply ranked_groups_general o (join_groups gs) (8 - o.BlockIpv6SubnetsGroupDepth).toNat
  · rw [wrap64_of_range _ (by unfold minInt64; omega) (by unfold maxInt64; omega)]
    omega
  · omega
  · exact canonical_groups_of_groups gs hne hg
  · rw [List.length_map, hlen]; omega
  · intro g hgm
    obtain ⟨x, hx, rfl⟩ := List.mem_map.mp (List.mem_of_mem_take hgm)
    exact canon_group_props x (hg x hx).2

/-- Claim C17, witness of the amended claim: depth 6 and the address
2001:db8:0:0:0:ff00:42:8329 give the two strings of 2 and 3 groups. -/
theorem ranked_groups_at_depth_witness :
    ipv6_get_ranked_groups { example_engine with BlockIpv6SubnetsGroupDepth := 6 }
        "2001:db8:0:0:0:ff00:42:8329".toList
      = some ["2001:0db8".toList, "2001:0db8:0000".toList] :=
  ranked_groups_at_depth { example_engine with BlockIpv6SubnetsGroupDepth := 6 }
    ["2001".toList, "db8".toList, "0".toList, "0".toList, "0".toList, "ff00".toList,
     "42".toList, "8329".toList]
    (by decide) (by decide) (by decide) (by decide)

/-- Claim C17, counterexample to the claim as stated: at depth 5 the full address
2001:0db8:0000:0000:0000:ff00:0042:8329 gives 3 strings (of 3, 4 and 5 groups), not
5; at depth 3 the call fails with an index out of range. -/
theorem ranked_groups_at_other_depths :
    ipv6_get_ranked_groups { example_engine with BlockIpv6SubnetsGroupDepth := 5 }
        "2001:0db8:0000:0000:0000:ff00:0042:8329".toList
      = some ["2001:0db8:0000".toList, "2001:0db8:0000:0000".toList,
              "2001:0db8:0000:0000:0000".toList]
    ∧ ipv6_get_ranked_groups { example_engine with BlockIpv6SubnetsGroupDepth := 3 }
        "2001:0db8:0000:0000:0000:ff00:0042:8329".toList = none := by
  decide

/-! ## Claim C18 -/

/-- Claim C18, as amended: at depth 4, for a full address `gs` of 8 groups of 4 hex
digits and every shorthand spelling of it (leading zeros dropped, an all-zero group
written `0`, and at most one run of one or more all-zero groups replaced by `::`),
except a `::` that stands for a single group at the very start of the address,
`ipv6_get_ranked_groups` returns for the shorthand what it returns for the full form:
the first 4, 5, 6 and 7 groups of the full form, colon-joined. -/
theorem shorthand_ranks_like_full_form (o : Ipac) (gs ss : List GoString)
    (run : Option (Nat × Nat))
    (hd : o.BlockIpv6SubnetsGroupDepth = 4) (hlen : gs.length = 8)
    (hg : ∀ g ∈ gs, g.length = 4 ∧ ∀ c ∈ g, is_hex_digit c = true)
    (hs : is_shorthand_of gs ss run = true) (hrun : run ≠ some (0, 1)) :
    ipv6_get_ranked_groups o (shorthand ss run) = ipv6_get_ranked_groups o (join_groups gs)
    ∧ ipv6_get_ranked_groups o (shorthand ss run)
      = some [join_groups (gs.take 4), join_groups (gs.take 5), join_groups (gs.take 6),
              join_groups (gs.take 7)] := by
  have hne : gs ≠ [] := by intro h; rw [h] at hlen; cases hlen
  have hg2 : ∀ g ∈ gs, g.length = 4 ∧ ':' ∉ g :=
    fun g h => ⟨(hg g h).1, hex_digit_not_colon g (hg g h).2⟩
  have hg3 : ∀ g ∈ gs, g ≠ [] ∧ ':' ∉ g := by
    intro g h
    refine ⟨?_, (hg2 g h).2⟩
    intro hc
    have := (hg2 g h).1
    rw [hc] at this; cases this
  have hfull := ranked_groups_depth_four o (join_groups gs) gs hd hlen hg3
    (Or.inl (canonical_groups_full gs hne hg2))
  unfold is_shorthand_of at hs
  simp only [Bool.and_eq_true, decide_eq_true_eq] at hs
  obtain ⟨⟨hl, hz⟩, hr⟩ := hs
  obtain ⟨hmap, hss⟩ := shorthand_groups ss gs hl hz (fun g h => (hg2 g h).2)
  have hsl : ss.length = 8 := by rw [hl, hlen]
  have hshort : ipv6_get_ranked_groups o (shorthand ss run)
      = some [join_groups (gs.take 4), join_groups (gs.take 5), join_groups (gs.take 6),
              join_groups (gs.take 7)] := by
    apply ranked_groups_depth_four o _ gs hd hlen hg3
    cases run with
    | none =>
      left
      have hsne : ss ≠ [] := by intro h; rw [h] at hsl; cases hsl
      show canonical_groups (join_groups ss) = gs
      rw [canonical_groups_of_groups ss hsne hss, hmap]
    | some p =>
      obtain ⟨i, r⟩ := p
      simp only [Bool.and_eq_true, decide_eq_true_eq] at hr
      obtain ⟨⟨hr1, hir⟩, hzero⟩ := hr
      apply canonical_groups_of_run gs ss i r hlen hsl hmap hss hr1 (by omega) hzero
      rintro ⟨rfl, rfl⟩
      exact hrun rfl
  exact ⟨by rw [hshort, hfull], hshort⟩

/-- Claim C18, witness of the amended claim: 2001:db8::ff00:42:8329 and its full form. -/
theorem shorthand_ranks_like_full_form_witness :
    shorthand example_short_groups (some (2, 3)) = "2001:db8::ff00:42:8329".toList
    ∧ ipv6_get_ranked_groups example_engine "2001:db8::ff00:42:8329".toList
      = ipv6_get_ranked_groups example_engine "2001:0db8:0000:0000:0000:ff00:0042:8329".toList
    ∧ ipv6_get_ranked_groups example_engine "2001:db8::ff00:42:8329".toList
      = some ["2001:0db8:0000:0000".toList, "2001:0db8:0000:0000:0000".toList,
              "2001:0db8:0000:0000:0000:ff00".toList,
              "2001:0db8:0000:0000:0000:ff00:0042".toList] :=
  ⟨by decide,
   shorthand_ranks_like_full_form example_engine example_groups example_short_groups
    (some (2, 3)) (by decide) (by decide) (by decide) (by decide) (by decide)⟩

/-- Claim C18, counterexample to the claim as stated: `::db8:0:1:2:3:4:5` is a shorthand of
0000:0db8:0000:0001:0002:0003:0004:0005 in which `::` stands for the one zero group
at the start; the code makes 9 groups of it, and its ranked strings differ from
those of the full form. -/
theorem single_zero_group_at_start :
    is_shorthand_of example_zero_start_groups example_zero_start_short_groups (some (0, 1))
      = true
    ∧ shorthand example_zero_start_short_groups (some (0, 1)) = "::db8:0:1:2:3:4:5".toList
    ∧ ipv6_get_ranked_groups example_engine "::db8:0:1:2:3:4:5".toList
      = some ["0000:0000:0db8:0000".toList, "0000:0000:0db8:0000:0001".toList,
              "0000:0000:0db8:0000:0001:0002".toList,
              "0000:0000:0db8:0000:0001:0002:0003".toList]
    ∧ ipv6_get_ranked_groups example_engine "0000:0db8:0000:0001:0002:0003:0004:0005".toList
      = some ["0000:0db8:0000:0001".toList, "0000:0db8:0000:0001:0002".toList,
              "0000:0db8:0000:0001:0002:0003".toList,
              "0000:0db8:0000:0001:0002:0003:0004".toList]
    ∧ ipv6_get_ranked_groups example_engine "::db8:0:1:2:3:4:5".toList
      ≠ ipv6_get_ranked_groups example_engine
          "0000:0db8:0000:0001:0002:0003:0004:0005".toList := by
  decide

/-! ## Claim C19 -/

/-- Claim C19, as amended: a `TestIpAllowed(addr)` call either leaves the pending
absurd-attempt list unchanged or appends `addr` to it; it appends only in a call
that blocks nothing (no call to the outside), leaves `Blocked` of the record as it
was, and finds `AbsurdAuthAttempts` at or above `NotifyAfterAbsurdAuthAttempts`.  So
a call that turns the record from not blocked to blocked never appends, while a
record that was already blocked before the call can be appended. -/
theorem absurd_queue_without_block (o : Ipac) (now : Time) (addr : GoString) :
    ((TestIpAllowed o now addr).o.NextNotifyAbsurdIps = o.NextNotifyAbsurdIps
      ∨ ((TestIpAllowed o now addr).o.NextNotifyAbsurdIps = o.NextNotifyAbsurdIps ++ [addr]
        ∧ (TestIpAllowed o now addr).events = []
        ∧ (IpDetails (TestIpAllowed o now addr).o addr).Blocked = (IpDetails o addr).Blocked
        ∧ (IpDetails o addr).AbsurdAuthAttempts ≥ o.NotifyAfterAbsurdAuthAttempts))
    ∧ ((IpDetails o addr).Blocked = false →
        (IpDetails (TestIpAllowed o now addr).o addr).Blocked = true →
        (TestIpAllowed o now addr).o.NextNotifyAbsurdIps = o.NextNotifyAbsurdIps) := by
  have main : (TestIpAllowed o now addr).o.NextNotifyAbsurdIps = o.NextNotifyAbsurdIps
      ∨ ((TestIpAllowed o now addr).o.NextNotifyAbsurdIps = o.NextNotifyAbsurdIps ++ [addr]
        ∧ (TestIpAllowed o now addr).events = []
        ∧ (IpDetails (TestIpAllowed o now addr).o addr).Blocked = (IpDetails o addr).Blocked
        ∧ (IpDetails o addr).AbsurdAuthAttempts ≥ o.NotifyAfterAbsurdAuthAttempts) := by
    cases hN : o.NeverBlock
    swap
    · left; rw [TestIpAllowed_never o now addr hN]
    cases hP : o.Purge
    swap
    · left; rw [TestIpAllowed_purge o now addr hN hP]
    by_cases ha : (IpDetails o addr).Addr = addr
    · rw [TestIpAllowed_found o now addr hN hP ha]
      rcases found_entry_absurd o addr (touch now (IpDetails o addr)) with h | ⟨h1, h2, h3, h4⟩
      · left; exact h
      · right
        rw [touch_Addr, ha] at h1
        rw [touch_AbsurdAuthAttempts] at h4
        refine ⟨h1, h2, ?_, h4⟩
        apply IpDetails_after_update o _ addr _ h3
        · rw [count_and_warn_Addr, touch_Addr]; exact ha
        · rw [count_and_warn_Blocked, touch_Blocked]
    · left; rw [TestIpAllowed_new o now addr hN hP ha]; rfl
  refine ⟨main, ?_⟩
  intro hb0 hb1
  rcases main with h | ⟨_, _, h3, _⟩
  · exact h
  · rw [h3, hb0] at hb1; cases hb1

/-- Claim C19, witness of the amended claim: a record already blocked, and a record
that the call blocks, both with 20 absurd attempts. -/
theorem absurd_queue_without_block_witness :
    ((TestIpAllowed example_absurd_engine 9 example_addr).o.NextNotifyAbsurdIps
        = example_absurd_engine.NextNotifyAbsurdIps
      ∨ ((TestIpAllowed example_absurd_engine 9 example_addr).o.NextNotifyAbsurdIps
          = example_absurd_engine.NextNotifyAbsurdIps ++ [example_addr]
        ∧ (TestIpAllowed example_absurd_engine 9 example_addr).events = []
        ∧ (IpDetails (TestIpAllowed example_absurd_engine 9 example_addr).o example_addr).Blocked
          = (IpDetails example_absurd_engine example_addr).Blocked
        ∧ (IpDetails example_absurd_engine example_addr).AbsurdAuthAttempts
          ≥ example_absurd_engine.NotifyAfterAbsurdAuthAttempts))
    ∧ (TestIpAllowed example_threshold_engine 9 example_addr).o.NextNotifyAbsurdIps
        = example_threshold_engine.NextNotifyAbsurdIps :=
  ⟨(absurd_queue_without_block example_absurd_engine 9 example_addr).1,
   (absurd_queue_without_block example_threshold_engine 9 example_addr).2
      (by decide) (by decide)⟩

/-- Claim C19, counterexample to the claim as stated: the record of 127.0.0.1 is blocked
and has 20 absurd attempts; `TestIpAllowed` appends the address to the empty
absurd-attempt list, and the record is blocked after the call. -/
theorem blocked_address_is_queued_as_absurd :
    (IpDetails example_absurd_engine example_addr).Blocked = true
    ∧ example_absurd_engine.NextNotifyAbsurdIps = []
    ∧ (TestIpAllowed example_absurd_engine 9 example_addr).o.NextNotifyAbsurdIps
        = [example_addr]
    ∧ (IpDetails (TestIpAllowed example_absurd_engine 9 example_addr).o example_addr).Blocked
        = true := by
  decide

/-! ## Claim C20 -/

/-- A call that runs alone, with no step of another call between read and write-back:
for an address whose record is authenticated, with `NeverBlock` false and no purge
pending, `ModifyAuth("invalid_login", addr)` returns and changes nothing in
the engine but the first record of `addr`, in which it adds 1 to `AbsurdAuthAttempts`
(the Go `int` addition `wrap64`, which is the exact sum below the largest `int`) and
sets `LastAuth`; `Authed`, `UnauthedAttempts`, `UnauthedNewConnections`, `Warn` and
`Blocked` stay, and so does every record of another address.  An event other than
`logout` leaves `Authed` true; `logout` sets it to false. -/
theorem invalid_login_alone (o : Ipac) (now : Time) (authed addr : GoString)
    (hN : o.NeverBlock = false) (hP : o.Purge = false)
    (hA : (IpDetails o addr).Authed = true) :
    ModifyAuth o now ev_invalid_login addr
      = { o := { o with
              Ips := update_ips o.Ips addr
                { IpDetails o addr with
                  AbsurdAuthAttempts := wrap64 ((IpDetails o addr).AbsurdAuthAttempts + 1),
                  LastAuth := now } },
          events := [], result := Completion.returned () }
    ∧ IpDetails (ModifyAuth o now ev_invalid_login addr).o addr
      = { IpDetails o addr with
          AbsurdAuthAttempts := wrap64 ((IpDetails o addr).AbsurdAuthAttempts + 1),
          LastAuth := now }
    ∧ (minInt64 ≤ (IpDetails o addr).AbsurdAuthAttempts →
        (IpDetails o addr).AbsurdAuthAttempts < maxInt64 →
        (IpDetails (ModifyAuth o now ev_invalid_login addr).o addr).AbsurdAuthAttempts
          = (IpDetails o addr).AbsurdAuthAttempts + 1)
    ∧ (∀ (i : Nat) (e : Ip), o.Ips[i]? = some e → e.Addr ≠ addr →
        (ModifyAuth o now ev_invalid_login addr).o.Ips[i]? = some e)
    ∧ (authed ≠ ev_logout →
        (IpDetails (ModifyAuth o now authed addr).o addr).Authed = true)
    ∧ (IpDetails (ModifyAuth o now ev_logout addr).o addr).Authed = false := by
  have hrec := IpDetails_mem_of_Authed o addr hA
  have hAddr := IpDetails_Addr_of_mem o addr hrec
  have hae : auth_entry (IpDetails o addr) ev_invalid_login
      = some { IpDetails o addr with
          AbsurdAuthAttempts := wrap64 ((IpDetails o addr).AbsurdAuthAttempts + 1) } := by
    unfold auth_entry
    rw [if_pos ⟨hA, rfl⟩]
  have hrun : ModifyAuth o now ev_invalid_login addr
      = store_auth o now addr
          { IpDetails o addr with
            AbsurdAuthAttempts := wrap64 ((IpDetails o addr).AbsurdAuthAttempts + 1) } := by
    rw [ModifyAuth_active o now ev_invalid_login addr hN hP, hae]
  have hd : IpDetails (ModifyAuth o now ev_invalid_login addr).o addr
      = { IpDetails o addr with
          AbsurdAuthAttempts := wrap64 ((IpDetails o addr).AbsurdAuthAttempts + 1),
          LastAuth := now } := by
    rw [hrun]
    exact IpDetails_update o addr _ hrec hAddr
  refine ⟨?_, hd, ?_, ?_, ?_, ?_⟩
  · rw [hrun]; rfl
  · intro hlo hhi
    rw [hd]
    show wrap64 ((IpDetails o addr).AbsurdAuthAttempts + 1) = _
    apply wrap64_of_range
    · omega
    · omega
  · intro i e hi hne
    rw [hrun, store_auth_Ips]
    exact update_ips_other o.Ips addr _ i e hi hne
  · intro hne
    rw [ModifyAuth_active o now authed addr hN hP]
    cases he : auth_entry (IpDetails o addr) authed with
    | none => exact hA
    | some e =>
      have h1 := auth_entry_Authed _ e authed hA hne he
      have h2 := auth_entry_Addr _ e authed he
      have : IpDetails (store_auth o now addr e).o addr = { e with LastAuth := now } :=
        IpDetails_update o addr _ hrec (by rw [← hAddr]; exact h2)
      show (IpDetails (store_auth o now addr e).o addr).Authed = true
      rw [this]; exact h1
  · have hne1 : ev_logout ≠ ev_invalid_login := by decide
    have hne2 : ev_logout ≠ ev_valid_login := by decide
    have hl : auth_entry (IpDetails o addr) ev_logout
        = some { IpDetails o addr with Authed := false } := by
      unfold auth_entry
      rw [if_neg (fun h => hne1 h.2), if_neg hne2, if_neg hne1, if_pos rfl]
    rw [ModifyAuth_active o now ev_logout addr hN hP, hl]
    have : IpDetails (store_auth o now addr { IpDetails o addr with Authed := false }).o addr
        = { IpDetails o addr with Authed := false, LastAuth := now } :=
      IpDetails_update o addr _ hrec hAddr
    show (IpDetails (store_auth o now addr { IpDetails o addr with Authed := false }).o
      addr).Authed = false
    rw [this]

/-- The lemma above on an authenticated record with 3 absurd attempts, next to a record
of another address. -/
theorem invalid_login_alone_example :
    (IpDetails (ModifyAuth example_authed_engine 9 ev_invalid_login example_addr).o
        example_addr).AbsurdAuthAttempts = 4
    ∧ (ModifyAuth example_authed_engine 9 ev_invalid_login example_addr).o.Ips[1]?
        = some { Addr := "10.0.0.2".toList, LastAccess := 4, OriginalAccess := 4 }
    ∧ (IpDetails (ModifyAuth example_authed_engine 9 ev_valid_login example_addr).o
        example_addr).Authed = true := by
  have h := invalid_login_alone example_authed_engine 9 ev_valid_login example_addr
    (by decide) (by decide) (by decide)
  exact ⟨h.2.2.1 (by decide) (by decide), h.2.2.2.1 1 _ (by decide) (by decide),
    h.2.2.2.2.1 (by decide)⟩

/-- Claim C20, the code at the failing input.  First engine, whose record of 127.0.0.1
is authenticated with 3 absurd attempts: two `ModifyAuth("invalid_login")` calls that
run one after the other leave 5, but when both read before either writes back they
leave 4.  Second engine, whose record is authenticated, not blocked, with 600 counted
connections: a `ModifyAuth("invalid_login")` call reads the record, a `TestIpAllowed`
call blocks and warns it, and the write-back of the `ModifyAuth` call then sets
`Blocked` and `Warn` back to false. -/
theorem interleaved_invalid_logins :
    (IpDetails example_authed_engine example_addr).Authed = true
    ∧ (IpDetails example_authed_engine example_addr).AbsurdAuthAttempts = 3
    ∧ (IpDetails (run_calls example_authed_engine example_addr
        [CallStep.auth (AuthStep.read 0), CallStep.auth (AuthStep.write 0 8 ev_invalid_login),
         CallStep.auth (AuthStep.read 1), CallStep.auth (AuthStep.write 1 9 ev_invalid_login)])
        example_addr).AbsurdAuthAttempts = 5
    ∧ (IpDetails (run_calls example_authed_engine example_addr
        [CallStep.auth (AuthStep.read 0), CallStep.auth (AuthStep.read 1),
         CallStep.auth (AuthStep.write 0 8 ev_invalid_login),
         CallStep.auth (AuthStep.write 1 9 ev_invalid_login)])
        example_addr).AbsurdAuthAttempts = 4
    ∧ (IpDetails example_relogin_engine example_addr).Authed = true
    ∧ (IpDetails (run_calls example_relogin_engine example_addr example_stale_auth_steps)
        example_addr).Blocked = true
    ∧ (IpDetails (run_calls example_relogin_engine example_addr example_stale_auth_steps)
        example_addr).Warn = true
    ∧ (IpDetails (run_calls example_relogin_engine example_addr
        (example_stale_auth_steps ++ [CallStep.auth (AuthStep.write 0 11 ev_invalid_login)]))
        example_addr).Blocked = false
    ∧ (IpDetails (run_calls example_relogin_engine example_addr
        (example_stale_auth_steps ++ [CallStep.auth (AuthStep.write 0 11 ev_invalid_login)]))
        example_addr).Warn = false
    ∧ (IpDetails (run_calls example_relogin_engine example_addr
        (example_stale_auth_steps ++ [CallStep.auth (AuthStep.write 0 11 ev_invalid_login)]))
        example_addr).AbsurdAuthAttempts = 1 := by
  decide

/-! ## Shared lemmas for the claim C21 -/

theorem increment_IpBans_unstamped (l : List Ipv6Subnet) (g : GoString)
    (h : ∀ s ∈ l, Time_IsZero s.BlockedTs = true) :
    ∀ s ∈ increment_IpBans l g, Time_IsZero s.BlockedTs = true := by
  induction l with
  | nil => intro s hs; cases hs
  | cons a rest ih =>
    have ha := h a (List.mem_cons_self _ _)
    have hr : ∀ s ∈ rest, Time_IsZero s.BlockedTs = true :=
      fun s hs => h s (List.mem_cons_of_mem _ hs)
    intro s hs
    unfold increment_IpBans at hs
    split_ifs at hs
    · rcases List.mem_cons.mp hs with hs | hs
      · rw [hs]; exact ha
      · exact hr s hs
    · rcases List.mem_cons.mp hs with hs | hs
      · rw [hs]; exact ha
      · exact ih hr s hs

theorem add_ranked_group_unstamped (l : List Ipv6Subnet) (g : GoString)
    (h : ∀ s ∈ l, Time_IsZero s.BlockedTs = true) :
    ∀ s ∈ add_ranked_group l g, Time_IsZero s.BlockedTs = true := by
  unfold add_ranked_group
  split_ifs
  · exact increment_IpBans_unstamped l g h
  · intro s hs
    rcases List.mem_append.mp hs with hs | hs
    · exact h s hs
    · rw [List.mem_singleton.mp hs]; rfl

theorem add_ranked_groups_unstamped (r : List GoString) :
    ∀ l : List Ipv6Subnet, (∀ s ∈ l, Time_IsZero s.BlockedTs = true) →
      ∀ s ∈ r.foldl add_ranked_group l, Time_IsZero s.BlockedTs = true := by
  induction r with
  | nil => intro l h; exact h
  | cons g rest ih =>
    intro l h
    exact ih (add_ranked_group l g) (add_ranked_group_unstamped l g h)

theorem note_blocked_Ipv6Subnets (o : Ipac) (e : Ip) :
    (note_blocked o e).Ipv6Subnets = o.Ipv6Subnets := by
  unfold note_blocked; split_ifs <;> rfl

theorem note_absurd_Ipv6Subnets (o : Ipac) (e : Ip) :
    (note_absurd o e).Ipv6Subnets = o.Ipv6Subnets := by
  unfold note_absurd; split_ifs <;> rfl

/-- The subnet groups after `block_entry`: untouched, or with the ranked groups of the
address added; the only event is the block of the address. -/
theorem block_entry_subnets (o : Ipac) (addr : GoString) (entry : Ip) :
    ((block_entry o addr entry).o.Ipv6Subnets = o.Ipv6Subnets
      ∨ ∃ r, ipv6_get_ranked_groups (note_blocked o { entry with Blocked := true }) addr = some r
          ∧ (block_entry o addr entry).o.Ipv6Subnets = r.foldl add_ranked_group o.Ipv6Subnets)
    ∧ (block_entry o addr entry).events
        = [modify_ip_block_os true { entry with Blocked := true }] := by
  unfold block_entry
  simp only []
  split_ifs
  · split
    · exact ⟨Or.inl (note_blocked_Ipv6Subnets _ _), rfl⟩
    · rename_i r hr
      refine ⟨Or.inr ⟨r, hr, ?_⟩, rfl⟩
      show r.foldl add_ranked_group (note_blocked o _).Ipv6Subnets = _
      rw [note_blocked_Ipv6Subnets]
  · exact ⟨Or.inl (note_blocked_Ipv6Subnets _ _), rfl⟩

theorem found_entry_subnets (o : Ipac) (addr : GoString) (entry : Ip)
    (h : ∀ s ∈ o.Ipv6Subnets, Time_IsZero s.BlockedTs = true) :
    (∀ s ∈ (found_entry o addr entry).o.Ipv6Subnets, Time_IsZero s.BlockedTs = true)
    ∧ (found_entry o addr entry).events.filter is_subnet_block = [] := by
  unfold found_entry
  simp only []
  split_ifs
  · obtain ⟨h1, h2⟩ := block_entry_subnets o addr (count_and_warn o entry)
    refine ⟨?_, by rw [h2]; rfl⟩
    rcases h1 with h1 | ⟨r, _, h1⟩
    · rw [h1]; exact h
    · rw [h1]; exact add_ranked_groups_unstamped r _ h
  · refine ⟨?_, rfl⟩
    show ∀ s ∈ (note_absurd o _).Ipv6Subnets, _
    rw [note_absurd_Ipv6Subnets]; exact h
  · exact ⟨h, rfl⟩

/-- A call of `TestIpAllowed` keeps every `BlockedTs` unset and makes no call of the
subnet helper. -/
theorem TestIpAllowed_subnets (o : Ipac) (now : Time) (addr : GoString)
    (h : ∀ s ∈ o.Ipv6Subnets, Time_IsZero s.BlockedTs = true) :
    (∀ s ∈ (TestIpAllowed o now addr).o.Ipv6Subnets, Time_IsZero s.BlockedTs = true)
    ∧ (TestIpAllowed o now addr).events.filter is_subnet_block = [] := by
  cases hN : o.NeverBlock
  swap
  · rw [TestIpAllowed_never o now addr hN]; exact ⟨h, rfl⟩
  cases hP : o.Purge
  swap
  · rw [TestIpAllowed_purge o now addr hN hP]; exact ⟨h, rfl⟩
  by_cases ha : (IpDetails o addr).Addr = addr
  · rw [TestIpAllowed_found o now addr hN hP ha]
    exact found_entry_subnets o addr _ h
  · rw [TestIpAllowed_new o now addr hN hP ha]
    exact ⟨h, rfl⟩

/-- A call of `ModifyAuth` leaves `Ipv6Subnets` alone and makes no call of the subnet
helper. -/
theorem ModifyAuth_subnets (o : Ipac) (now : Time) (authed addr : GoString) :
    (ModifyAuth o now authed addr).o.Ipv6Subnets = o.Ipv6Subnets
    ∧ (ModifyAuth o now authed addr).events.filter is_subnet_block = [] := by
  unfold ModifyAuth
  split_ifs
  · exact ⟨rfl, rfl⟩
  · exact ⟨rfl, rfl⟩
  · split
    · exact ⟨rfl, rfl⟩
    · exact ⟨rfl, rfl⟩

theorem breach_events_no_subnet_block (o : Ipac) (s : Ipv6Subnet) :
    (breach_events o s).filter is_subnet_block = [] := by
  unfold breach_events
  split_ifs <;> simp [ipv6_modify_subnet_block_os, is_subnet_block]

theorem unblock_events_no_subnet_block (l : List Ip) :
    (l.map (modify_ip_block_os false)).filter is_subnet_block = [] := by
  induction l with
  | nil => rfl
  | cons a rest ih => simp [List.filter_cons, modify_ip_block_os, is_subnet_block]

/-- The subnet loop of `clean` never calls the subnet helper with `block = true`, and
when every `BlockedTs` is unset it only removes groups or keeps them as they are. -/
theorem clean_subnets_loop_unstamped (o : Ipac) (now : Time) (expire : Int) :
    ∀ (n : Nat) (st : SubnetSweep), n ≤ st.subnets.length →
      ∃ st', clean_subnets_loop o now expire n st = some st'
        ∧ st'.events.filter is_subnet_block = st.events.filter is_subnet_block
        ∧ ((∀ s ∈ st.subnets, Time_IsZero s.BlockedTs = true) →
            List.Sublist st'.subnets st.subnets) := by
  intro n
  induction n with
  | zero => intro st _; exact ⟨st, rfl, rfl, fun _ => List.Sublist.refl _⟩
  | succ i ih =>
    intro st hle
    have hi : i < st.subnets.length := hle
    unfold clean_subnets_loop
    simp only [List.getElem?_eq_getElem hi]
    split_ifs with hz hage hbreach
    · obtain ⟨st', h1, h2, h3⟩ := ih
        { st with
          events := st.events ++ [ipv6_modify_subnet_block_os false st.subnets[i].Group],
          subnets := st.subnets.eraseIdx i }
        (by simp only [List.length_eraseIdx, hi, if_true]; omega)
      refine ⟨st', h1, ?_, ?_⟩
      · rw [h2]
        simp [List.filter_append, ipv6_modify_subnet_block_os, is_subnet_block]
      · intro hall
        exact (h3 (fun s hs => hall s ((List.eraseIdx_sublist _ _).subset hs))).trans
          (List.eraseIdx_sublist _ _)
    · exact ih { st with cblocked_subnet := st.cblocked_subnet + 1 } (Nat.le_of_lt hi)
    · obtain ⟨st', h1, h2, _⟩ := ih
        { subnets := st.subnets.set i { st.subnets[i] with BlockedTs := now },
          events := st.events ++ breach_events o st.subnets[i],
          cblocked_subnet := st.cblocked_subnet + 1 }
        (by simp only [List.length_set]; omega)
      refine ⟨st', h1, ?_, ?_⟩
      · rw [h2]
        simp only [List.filter_append, breach_events_no_subnet_block, List.append_nil]
      · intro hall
        exact absurd (hall _ (List.getElem_mem hi)) hz
    · exact ih st (Nat.le_of_lt hi)

theorem flush_blocked_ips_subnets (o : Ipac) :
    (flush_blocked_ips o).1.Ipv6Subnets = o.Ipv6Subnets
    ∧ (flush_blocked_ips o).2.filter is_subnet_block = [] := by
  unfold flush_blocked_ips
  split_ifs <;> simp [is_subnet_block]

theorem flush_absurd_ips_subnets (o : Ipac) (now : Time) :
    (flush_absurd_ips o now).1.Ipv6Subnets = o.Ipv6Subnets
    ∧ (flush_absurd_ips o now).2.filter is_subnet_block = [] := by
  unfold flush_absurd_ips
  split_ifs <;> simp [is_subnet_block]

theorem clean_notify_subnets (o : Ipac) (now : Time) :
    (clean_notify o now).1.Ipv6Subnets = o.Ipv6Subnets
    ∧ (clean_notify o now).2.filter is_subnet_block = [] := by
  obtain ⟨a1, a2⟩ := flush_blocked_ips_subnets o
  obtain ⟨b1, b2⟩ := flush_absurd_ips_subnets (flush_blocked_ips o).1 now
  unfold clean_notify
  split_ifs
  · refine ⟨b1.trans a1, ?_⟩
    simp only [List.filter_append, a2, b2, List.append_nil]
  · exact ⟨rfl, rfl⟩

/-- A tick never calls the subnet helper with `block = true`, and when every
`BlockedTs` is unset the groups after the tick are groups from before the tick,
unmodified. -/
theorem clean_subnets (o : Ipac) (now : Time) :
    (clean o now).events.filter is_subnet_block = []
    ∧ ((∀ s ∈ o.Ipv6Subnets, Time_IsZero s.BlockedTs = true) →
        List.Sublist (clean o now).o.Ipv6Subnets o.Ipv6Subnets) := by
  cases hP : o.Purge
  swap
  · have : clean o now
        = { o := { o with Ips := [], Ipv6Subnets := [], Purge := false }, events := [],
            result := Completion.returned () } := by
      unfold clean
      simp only []
      rw [if_pos hP]
    rw [this]
    exact ⟨rfl, fun _ => List.nil_sublist _⟩
  have hloop := clean_ips_loop_spec now (expire_older_than o now) o.Ips [] [] 0 0 0
  simp only [List.append_nil, List.nil_append, zero_add] at hloop
  unfold clean
  simp only []
  rw [if_neg (by simp [hP]), hloop]
  simp only []
  obtain ⟨b, hb, hev, hsub⟩ := clean_subnets_loop_unstamped
    { o with
      Ips := o.Ips.filter (fun e => decide (age_of_ip now e ≤ expire_older_than o now)),
      TotalCount := ((o.Ips.filter
        (fun e => decide (age_of_ip now e ≤ expire_older_than o now))).length : Int),
      BlockedCount := (((o.Ips.filter
        (fun e => decide (age_of_ip now e ≤ expire_older_than o now))).filter
          (fun e => e.Blocked)).length : Int),
      WarnCount := (((o.Ips.filter
        (fun e => decide (age_of_ip now e ≤ expire_older_than o now))).filter
          (fun e => e.Warn)).length : Int),
      LastCleanup := now }
    now (expire_older_than o now) o.Ipv6Subnets.length
    { subnets := o.Ipv6Subnets,
      events := (o.Ips.reverse.filter
        (fun e => !decide (age_of_ip now e ≤ expire_older_than o now) && e.Blocked)).map
          (modify_ip_block_os false),
      cblocked_subnet := 0 }
    (le_refl _)
  rw [hb]
  simp only []
  simp only [unblock_events_no_subnet_block] at hev
  obtain ⟨n1, n2⟩ := clean_notify_subnets
    { o with
      Ips := o.Ips.filter (fun e => decide (age_of_ip now e ≤ expire_older_than o now)),
      TotalCount := ((o.Ips.filter
        (fun e => decide (age_of_ip now e ≤ expire_older_than o now))).length : Int),
      BlockedCount := (((o.Ips.filter
        (fun e => decide (age_of_ip now e ≤ expire_older_than o now))).filter
          (fun e => e.Blocked)).length : Int),
      WarnCount := (((o.Ips.filter
        (fun e => decide (age_of_ip now e ≤ expire_older_than o now))).filter
          (fun e => e.Warn)).length : Int),
      LastCleanup := now,
      Ipv6Subnets := b.subnets, BlockedSubnetCount := b.cblocked_subnet } now
  refine ⟨?_, ?_⟩
  · rw [List.filter_append, hev, n2]; rfl
  · intro hall
    rw [n1]
    exact hsub hall

/-- One operation keeps every `BlockedTs` unset and makes no call of the subnet helper
with `block = true`. -/
theorem apply_op_subnets (o : Ipac) (op : Op)
    (h : ∀ s ∈ o.Ipv6Subnets, Time_IsZero s.BlockedTs = true) :
    (∀ s ∈ (apply_op o op).Ipv6Subnets, Time_IsZero s.BlockedTs = true)
    ∧ (op_events o op).filter is_subnet_block = [] := by
  cases op with
  | test now addr => exact TestIpAllowed_subnets o now addr h
  | auth now authed addr =>
    obtain ⟨h1, h2⟩ := ModifyAuth_subnets o now authed addr
    refine ⟨?_, h2⟩
    show ∀ s ∈ (ModifyAuth o now authed addr).o.Ipv6Subnets, _
    rw [h1]; exact h
  | purge => exact ⟨h, rfl⟩
  | tick now =>
    obtain ⟨h1, h2⟩ := clean_subnets o now
    exact ⟨fun s hs => h s ((h2 h).subset hs), h1⟩

/-- A sequence of operations, from a state in which every `BlockedTs` is unset. -/
theorem run_ops_subnets (ops : List Op) :
    ∀ o : Ipac, (∀ s ∈ o.Ipv6Subnets, Time_IsZero s.BlockedTs = true) →
      (∀ s ∈ (run_ops o ops).Ipv6Subnets, Time_IsZero s.BlockedTs = true)
      ∧ (run_events o ops).filter is_subnet_block = [] := by
  induction ops with
  | nil => intro o h; exact ⟨h, rfl⟩
  | cons op rest ih =>
    intro o h
    obtain ⟨h1, h2⟩ := apply_op_subnets o op h
    obtain ⟨h3, h4⟩ := ih (apply_op o op) h1
    refine ⟨h3, ?_⟩
    show (op_events o op ++ run_events (apply_op o op) rest).filter is_subnet_block = []
    rw [List.filter_append, h2, h4]; rfl

/-! ## Claim C21 -/

/-- Claim C21: from an engine with no subnet groups, after any sequence of
`TestIpAllowed`, `ModifyAuth`, `Purge` and tick operations every group in
`Ipv6Subnets` has a zero `BlockedTs`, and every call of
`ipv6_modify_subnet_block_os` made along the way has `block = false`. -/
theorem no_subnet_is_ever_blocked (o : Ipac) (ops : List Op) (h : o.Ipv6Subnets = []) :
    (∀ s ∈ (run_ops o ops).Ipv6Subnets, s.BlockedTs = 0 ∧ Time_IsZero s.BlockedTs = true)
    ∧ (∀ (block : Bool) (subnet rule : GoString),
        Event.ipv6_modify_subnet_block_os block subnet rule ∈ run_events o ops →
          block = false) := by
  obtain ⟨h1, h2⟩ := run_ops_subnets ops o (by rw [h]; intro s hs; cases hs)
  refine ⟨fun s hs => ⟨?_, h1 s hs⟩, ?_⟩
  · have := h1 s hs
    unfold Time_IsZero at this
    exact of_decide_eq_true this
  · intro block subnet rule hmem
    cases block with
    | false => rfl
    | true =>
      have : Event.ipv6_modify_subnet_block_os true subnet rule
          ∈ (run_events o ops).filter is_subnet_block :=
        List.mem_filter.mpr ⟨hmem, rfl⟩
      rw [h2] at this
      cases this

/-- Claim C21, witness: the address `example_addr6` is blocked, a tick runs, the
address logs in and is blocked again; the four groups present at the end are unset and
the tick called the subnet helper four times, each time with `block = false`. -/
theorem no_subnet_is_ever_blocked_witness :
    example_ipv6_engine.Ipv6Subnets = []
    ∧ ((run_ops example_ipv6_engine example_subnet_ops).Ipv6Subnets.map (fun s => s.Group)
        = ["2001:0db8:0000:0000".toList, "2001:0db8:0000:0000:0000".toList,
           "2001:0db8:0000:0000:0000:ff00".toList,
           "2001:0db8:0000:0000:0000:ff00:0042".toList])
    ∧ ((run_events example_ipv6_engine example_subnet_ops).filter
        (fun e => match e with
          | Event.ipv6_modify_subnet_block_os _ _ _ => true
          | _ => false)).length = 4
    ∧ (∀ s ∈ (run_ops example_ipv6_engine example_subnet_ops).Ipv6Subnets,
        s.BlockedTs = 0 ∧ Time_IsZero s.BlockedTs = true)
    ∧ (∀ (block : Bool) (subnet rule : GoString),
        Event.ipv6_modify_subnet_block_os block subnet rule
            ∈ run_events example_ipv6_engine example_subnet_ops →
          block = false) :=
  ⟨by decide, by decide, by decide,
    no_subnet_is_ever_blocked example_ipv6_engine example_subnet_ops (by decide)⟩

end GoIpAc
